import Mathlib

/-!
# Energomera IEC 61107 component: shallow embedding and verified properties

The definitions below embed `components/energomera_iec/energomera_iec.cpp`
(and the two headers it relies on).  Bytes are natural numbers, byte buffers are
lists of bytes, and a read outside the modelled array yields `0`.  Machine
integers are natural numbers reduced modulo `2 ^ w` where they are stored.  A C
string is the list of its bytes before the terminator, so it holds no NUL.

The file has three parts: the definitions, the lemmas, and the theorems for the
claims of the specification.
-/

namespace EnergomeraIec

/-! ## Protocol constants (energomera_iec.cpp, lines 12-23) -/

def SOH : Nat := 0x01
def STX : Nat := 0x02
def ETX : Nat := 0x03
def EOT : Nat := 0x04
def ENQ : Nat := 0x05
def ACK : Nat := 0x06
def CR : Nat := 0x0D
def LF : Nat := 0x0A
def NAK : Nat := 0x15

/-- The constant `{ACK, '0', '5', '1', CR, LF}`. -/
def CMD_ACK_SET_BAUD_AND_MODE : List Nat := [ACK, 0x30, 0x35, 0x31, CR, LF]

/-- The constant `{SOH, 0x42, 0x30, ETX, 0x75}`. -/
def CMD_CLOSE_SESSION : List Nat := [SOH, 0x42, 0x30, ETX, 0x75]

def MAX_IN_BUF_SIZE : Nat := 256
def MAX_OUT_BUF_SIZE : Nat := 84
def VAL_NUM : Nat := 12
def MAX_TRIES : Nat := 10

/-! ## CRC of a programming frame (energomera_iec.cpp, lines 531-548) -/

/-- The body of the `for (i = 1; i < length - 1; i++)` loop of
`calculate_crc_prog_frame_`, folded over the indices `1 .. length - 2`. -/
def crc_loop (data : List Nat) (length : Nat) : Nat :=
  (List.range' 1 (length - 2)).foldl (fun crc i => (crc + data.getD i 0) &&& 0x7f) 0

/-- Embedding of `calculate_crc_prog_frame_(data, length, set_crc)`: the returned
checksum together with the (possibly updated) buffer. -/
def calculate_crc_prog_frame_ (data : List Nat) (length : Nat) (set_crc : Bool) :
    Nat × List Nat :=
  if length < 2 then (0, data)
  else
    let crc := crc_loop data length
    (crc, if set_crc then data.set (length - 1) crc else data)

/-- Embedding of `check_crc_prog_frame_(data, length)`; the caller only passes
`length > 0`. -/
def check_crc_prog_frame_ (data : List Nat) (length : Nat) : Bool :=
  (calculate_crc_prog_frame_ data length false).1 == data.getD (length - 1) 0

/-- The checksum as the specification words it: the sum modulo 128 of the bytes
strictly between the first and the last of the `n` bytes. -/
def checksum_spec (data : List Nat) (n : Nat) : Nat :=
  ((data.drop 1).take (n - 2)).sum % 128

/-! ## Outbound frame construction (energomera_iec.cpp, lines 576-620) -/

/-- The four byte buffers of `buffers_` (energomera_iec.h, lines 117-122): `in_` is
`in[MAX_IN_BUF_SIZE]` and `out` is `out[MAX_OUT_BUF_SIZE]`. -/
structure Buffers where
  in_ : List Nat
  amount_in : Nat
  out : List Nat
  amount_out : Nat
deriving DecidableEq, Repr

/-- The bytes a `char *` argument denotes for `%s`, `strlen` and string
comparison: everything before the first NUL. -/
def c_str (s : List Nat) : List Nat := s.takeWhile (fun b => b != 0)

/-- Model of `snprintf(buf, size, fmt, ...)`, where `text` is the completely
formatted output: at most `size - 1` bytes of it are stored, followed by a NUL,
and the length of the complete output is returned. -/
def snprintf_ (buf : List Nat) (size : Nat) (text : List Nat) : List Nat × Nat :=
  if size = 0 then (buf, text.length)
  else
    let written := text.take (size - 1) ++ [0]
    (written ++ buf.drop written.length, text.length)

/-- Model of `std::find(data, data + last, v) - data`. -/
def find_ (data : List Nat) (last : Nat) (v : Nat) : Nat :=
  let i := (data.take last).indexOf v
  if i < (data.take last).length then i else last

/-- The formatted output of `"%cR1%c%s%c\xFF", SOH, STX, request, ETX`. -/
def prog_frame_text (request : List Nat) : List Nat :=
  [SOH, 0x52, 0x31, STX] ++ c_str request ++ [ETX, 0xFF]

/-- Embedding of `prepare_prog_frame_(request)`. -/
def prepare_prog_frame_ (request : List Nat) (b : Buffers) : Buffers :=
  let r := snprintf_ b.out MAX_OUT_BUF_SIZE (prog_frame_text request)
  let c := calculate_crc_prog_frame_ r.1 r.2 true
  { b with out := c.2, amount_out := r.2 }

/-- The formatted output of `"/?%s!%cR1%c%s%c\xFF", address, SOH, STX, request, ETX`. -/
def non_session_frame_text (meter_address request : List Nat) : List Nat :=
  [0x2F, 0x3F] ++ c_str meter_address ++ [0x21, SOH, 0x52, 0x31, STX] ++ c_str request
    ++ [ETX, 0xFF]

/-- Embedding of `prepare_non_session_prog_frame_(request)`; `meter_address` is
the component field `meter_address_`. -/
def prepare_non_session_prog_frame_ (meter_address request : List Nat) (b : Buffers) :
    Buffers :=
  let r := snprintf_ b.out MAX_OUT_BUF_SIZE (non_session_frame_text meter_address request)
  let r1_size := find_ r.1 r.2 SOH
  let c := calculate_crc_prog_frame_ (r.1.drop r1_size) (r.2 - r1_size) true
  { b with out := r.1.take r1_size ++ c.2, amount_out := r.2 }

/-- Embedding of `prepare_frame_(data, length)` with `length = sizeof(data)`:
`memcpy` into the start of `out`. -/
def prepare_frame_ (data : List Nat) (b : Buffers) : Buffers :=
  { b with out := data ++ b.out.drop data.length, amount_out := data.length }

/-- The bytes `send_frame_prepared_` hands to `write_array`. -/
def prepared_frame (b : Buffers) : List Nat := b.out.take b.amount_out

/-! ## Value extraction (energomera_iec.cpp, lines 739-783)

A `char *` into a buffer is an offset into the list holding the buffer; the
functions return the buffer as they leave it, since they store NUL bytes in it. -/

/-- Model of the C library `strchr`, run over the bytes `rest` that are stored
from offset `i` on: the offset of the first byte equal to `c`, the search ending
at the NUL terminator. -/
def strchr_from : List Nat → Nat → Nat → Option Nat
  | [], c, i => if c = 0 then some i else none
  | b :: rest, c, i =>
    if b = c then some i else if b = 0 then none else strchr_from rest c (i + 1)

/-- Model of `strchr(mem + start, c)` as an offset into `mem`. -/
def strchr_ (mem : List Nat) (start c : Nat) : Option Nat :=
  strchr_from (mem.drop start) c start

/-- The `while (*p && idx < VAL_NUM)` loop of `get_values_from_brackets_`; one unit
of `fuel` is one iteration.  A value slot is `none` for `empty_str` and `some off`
for the pointer `line + off`. -/
def brackets_loop : Nat → List Nat → Nat → Nat → Bool → List (Option Nat) →
    Nat × List Nat × List (Option Nat)
  | 0, mem, _, idx, _, vals => (idx, mem, vals)
  | fuel + 1, mem, p, idx, got_param_name, vals =>
    if mem.getD p 0 ≠ 0 ∧ idx < VAL_NUM then
      if mem.getD p 0 = 0x28 then
        let mem1 := if got_param_name then mem else mem.set p 0
        match strchr_ mem1 (p + 1) 0x29 with
        | some e =>
          if idx < VAL_NUM then
            brackets_loop fuel (mem1.set e 0) (e + 1) (idx + 1) true
              (vals.set idx (some (p + 1)))
          else
            brackets_loop fuel (mem1.set e 0) (e + 1) idx true vals
        | none => brackets_loop fuel mem1 (p + 1) idx true vals
      else brackets_loop fuel mem (p + 1) idx got_param_name vals
    else (idx, mem, vals)

/-- Embedding of `get_values_from_brackets_(line, vals)`: the returned count, the
line buffer as the function leaves it, and the twelve value slots.  Every
iteration moves `p` forward, so `line.length + 1` iterations always reach the
terminator. -/
def get_values_from_brackets_ (line : List Nat) : Nat × List Nat × List (Option Nat) :=
  brackets_loop (line.length + 1) line 0 0 false (List.replicate VAL_NUM none)

/-- The C string a value slot points to, read in the buffer `mem`. -/
def slot_str (mem : List Nat) : Option Nat → List Nat
  | none => []
  | some off => c_str (mem.drop off)

/-- Model of the delimiter-skipping phase of the C library `strtok` for a single
delimiter byte `d`: the offset of the first byte that is not `d`. -/
def skip_delims : List Nat → Nat → Nat → Nat
  | [], _, i => i
  | b :: rest, d, i => if b = d ∧ b ≠ 0 then skip_delims rest d (i + 1) else i

/-- Model of the token-scanning phase of `strtok`: the offset of the first byte
that is the delimiter or NUL. -/
def token_end : List Nat → Nat → Nat → Nat
  | [], _, i => i
  | b :: rest, d, i => if b = d ∨ b = 0 then i else token_end rest d (i + 1)

/-- Model of the C library `strtok` continuing at offset `s` of `mem` (offset 0
for the first call, the saved position afterwards): the token found, if any, the
buffer, and the new saved position. -/
def strtok_ (mem : List Nat) (s : Nat) (delim : Nat) : Option Nat × List Nat × Nat :=
  let start := skip_delims (mem.drop s) delim s
  if mem.getD start 0 = 0 then (none, mem, start)
  else
    let e := token_end (mem.drop start) delim start
    if mem.getD e 0 = 0 then (some start, mem, e)
    else (some start, mem.set e 0, e + 1)

/-- The `while (ptr != nullptr)` loop of `get_nth_value_from_csv_`; `idx` is a
`uint8_t`, so `idx--` is taken modulo 256. -/
def csv_loop : Nat → List Nat → Option Nat → Nat → Nat → Option Nat × List Nat
  | 0, mem, _, _, _ => (none, mem)
  | fuel + 1, mem, ptr, save, idx =>
    match ptr with
    | none => (none, mem)
    | some t =>
      if idx = 1 then (some t, mem)
      else
        let r := strtok_ mem save 0x2C
        csv_loop fuel r.2.1 r.1 r.2.2 ((idx + 255) % 256)

/-- Embedding of `get_nth_value_from_csv_(line, idx)`: the returned pointer
(`none` for `nullptr`) and the buffer as the function leaves it.  Every token
holds at least one byte, so the loop runs at most `line.length` times. -/
def get_nth_value_from_csv_ (line : List Nat) (idx : Nat) : Option Nat × List Nat :=
  if idx = 0 then (some 0, line)
  else
    let r := strtok_ line 0 0x2C
    csv_loop (line.length + 1) r.2.1 r.1 r.2.2 idx

/-- The string the pointer returned by `get_nth_value_from_csv_` denotes. -/
def csv_str (r : Option Nat × List Nat) : Option (List Nat) :=
  r.1.map (fun off => c_str (r.2.drop off))

/-! ## Component state (energomera_iec.h, energomera_iec_sensor.h) -/

/-- The `enum class State` of the component. -/
inductive State where
  | NOT_INITIALIZED
  | IDLE
  | WAIT
  | WAITING_FOR_RESPONSE
  | OPEN_SESSION
  | OPEN_SESSION_GET_ID
  | SET_BAUD
  | ACK_START_GET_INFO
  | DATA_ENQ
  | DATA_RECV
  | DATA_NEXT
  | CLOSE_SESSION
  | PUBLISH
  | SINGLE_READ
  | SINGLE_READ_ACK
deriving DecidableEq, Repr

/-- The anonymous struct `wait_`. -/
structure WaitState where
  start_time : Nat
  delay_ms : Nat
  next_state : State
deriving DecidableEq, Repr

/-- The closures the component stores in `reading_state_.read_fn`: `nullptr`,
`receive_frame_ascii_()` and `receive_prog_frame_(start_byte, accept_ack_and_nack)`. -/
inductive ReadFunction where
  | null
  | ascii
  | prog (start_byte : Nat) (accept_ack_and_nack : Bool)
deriving DecidableEq, Repr

/-- The anonymous struct `reading_state_`. -/
structure ReadingState where
  read_fn : ReadFunction
  next_state : State
  mission_critical : Bool
  check_crc : Bool
  tries_max : Nat
  tries_counter : Nat
  err_crc : Nat
  err_invalid_frames : Nat
deriving DecidableEq, Repr

/-- The struct `Stats`; `failures_` is a `uint8_t`, the other counters `uint32_t`. -/
structure Stats where
  connections_tried_ : Nat
  crc_errors_ : Nat
  crc_errors_recovered_ : Nat
  invalid_frames_ : Nat
  failures_ : Nat
deriving DecidableEq, Repr

inductive SensorType where
  | SENSOR
  | TEXT_SENSOR
deriving DecidableEq, Repr

/-- An `EnergomeraIecSensorBase` object with the value field of its subclass.  The
`float` a numeric sensor holds is represented by the text `strtof` converted it
from; a text sensor holds the string itself. -/
structure Sensor where
  type : SensorType
  request_ : List Nat
  function_ : List Nat
  idx_ : Nat
  sub_idx_ : Nat
  has_value_ : Bool
  tries_ : Nat
  value_ : List Nat
deriving DecidableEq, Repr

/-- What the outside world contributes to one call of `loop()`: the value
`millis()` returns during the call, the bytes that reached the UART since the
previous call, and the number of bytes `receive_frame_` manages to read before its
25 ms limit is exceeded. -/
structure Env where
  now : Nat
  arrive : List Nat
  read_limit : Nat
deriving DecidableEq, Repr

/-- The component object together with the function-local statics of `loop()`
(`session_started_ms`, `request_iter`, `sensor_iter`, `vals`; `in_param_ptr` is the
constant `&buffers_.in[1]`) and the devices it drives: the UART receive queue, the
frames written to the UART, the local baud rate, the number of reboots requested
and the sensors published.  `sensors_` is the multimap as its sorted sequence of
(key, sensor) entries; an iterator is an index into it and `end()` is its length. -/
structure Machine where
  meter_address_ : List Nat
  receive_timeout_ms_ : Nat
  delay_between_requests_ms_ : Nat
  baud_rate_handshake_ : Nat
  baud_rate_ : Nat
  failures_before_reboot_ : Nat
  sensors_ : List (List Nat × Sensor)
  single_requests_ : List (List Nat)
  state_ : State
  wait_ : WaitState
  reading_state_ : ReadingState
  received_frame_size_ : Nat
  last_rx_time_ : Nat
  buffers_ : Buffers
  stats_ : Stats
  session_started_ms : Nat
  request_iter : Nat
  sensor_iter : Nat
  vals : List (Option Nat)
  uart_rx : List Nat
  uart_tx : List (List Nat)
  uart_baud : Nat
  reboots : Nat
  published : List Sensor
deriving DecidableEq, Repr

/-! ## The sensor multimap -/

/-- Model of `std::string::operator<`: lexicographic order on bytes. -/
def str_lt : List Nat → List Nat → Bool
  | [], [] => false
  | [], _ :: _ => true
  | _ :: _, [] => false
  | a :: as, b :: bs => decide (a < b) || (a == b && str_lt as bs)

/-- Model of `sensors_.upper_bound(key)`: the first entry whose key is greater. -/
def upper_bound (sensors : List (List Nat × Sensor)) (key : List Nat) : Nat :=
  sensors.findIdx (fun e => str_lt key e.1)

/-- The key `it->first` of the entry at an iterator. -/
def key_at (sensors : List (List Nat × Sensor)) (it : Nat) : List Nat :=
  (sensors.map Prod.fst).getD it []

/-- Embedding of `register_sensor(sensor)`: `multimap::insert` puts the entry
after the entries with an equal key. -/
def register_sensor (s : Sensor) (m : Machine) : Machine :=
  let i := upper_bound m.sensors_ s.request_
  { m with sensors_ := m.sensors_.take i ++ (s.request_, s) :: m.sensors_.drop i }

/-! ## Sensor objects (energomera_iec_sensor.h) -/

/-- Embedding of `EnergomeraIecSensorBase::set_request(req)`. -/
def Sensor.set_request (req : List Nat) (s : Sensor) : Sensor :=
  match strchr_ (c_str req) 0 0x28 with
  | some p => { s with request_ := c_str req, function_ := (c_str req).take p }
  | none => { s with request_ := c_str req }

def Sensor.reset (s : Sensor) : Sensor := { s with has_value_ := false, tries_ := 0 }

def Sensor.record_failure (s : Sensor) : Sensor :=
  if s.tries_ < MAX_TRIES then { s with tries_ := s.tries_ + 1 }
  else { s with has_value_ := false }

def Sensor.is_failed (s : Sensor) : Bool := s.tries_ == MAX_TRIES

/-- Embedding of `set_value` of both sensor classes. -/
def Sensor.set_value (v : List Nat) (s : Sensor) : Sensor :=
  { s with value_ := v, has_value_ := true, tries_ := 0 }

/-! ## Helpers of the state machine -/

/-- Subtraction of `uint32_t` values. -/
def sub32 (a b : Nat) : Nat := (a % 4294967296 + 4294967296 - b % 4294967296) % 4294967296

def update_last_rx_time_ (e : Env) (m : Machine) : Machine := { m with last_rx_time_ := e.now }

def check_wait_timeout_ (e : Env) (m : Machine) : Bool :=
  decide (sub32 e.now m.wait_.start_time ≥ m.wait_.delay_ms)

def check_rx_timeout_ (e : Env) (m : Machine) : Bool :=
  decide (sub32 e.now m.last_rx_time_ ≥ m.receive_timeout_ms_)

def set_next_state_ (next_state : State) (m : Machine) : Machine :=
  { m with state_ := next_state }

def set_next_state_delayed_ (e : Env) (ms : Nat) (next_state : State) (m : Machine) :
    Machine :=
  if ms = 0 then set_next_state_ next_state m
  else { m with state_ := State.WAIT, wait_ := ⟨e.now, ms, next_state⟩ }

def read_reply_and_go_next_state_ (read_fn : ReadFunction) (next_state : State)
    (retries : Nat) (mission_critical check_crc : Bool) (m : Machine) : Machine :=
  { m with
    reading_state_ :=
      { read_fn := read_fn, next_state := next_state, mission_critical := mission_critical,
        check_crc := check_crc, tries_max := retries, tries_counter := 0, err_crc := 0,
        err_invalid_frames := 0 },
    received_frame_size_ := 0,
    state_ := State.WAITING_FOR_RESPONSE }

/-- Embedding of `send_frame_prepared_()`: `write_array(out, amount_out)`. -/
def send_frame_prepared_ (m : Machine) : Machine :=
  { m with uart_tx := m.uart_tx ++ [prepared_frame m.buffers_] }

def send_frame_ (data : List Nat) (m : Machine) : Machine :=
  send_frame_prepared_ { m with buffers_ := prepare_frame_ data m.buffers_ }

/-- Embedding of `clear_rx_buffers_()`: the UART queue is drained and `in` zeroed. -/
def clear_rx_buffers_ (m : Machine) : Machine :=
  { m with
    uart_rx := [],
    buffers_ := { m.buffers_ with in_ := List.replicate MAX_IN_BUF_SIZE 0, amount_in := 0 } }

/-- Embedding of one call of `report_failure(failure)`.  `App.safe_reboot()`
restarts the device and does not return: the result is then the component as it
is when the restart is requested, with the request counted in `reboots`, and
the call is the last one of its run. -/
def report_failure (failure : Bool) (m : Machine) : Machine :=
  if !failure then { m with stats_ := { m.stats_ with failures_ := 0 } }
  else
    let f := (m.stats_.failures_ + 1) % 256
    let m1 := { m with stats_ := { m.stats_ with failures_ := f } }
    if m.failures_before_reboot_ > 0 ∧ f > m.failures_before_reboot_ then
      { m1 with reboots := m1.reboots + 1 }
    else m1

def abort_mission_ (m : Machine) : Machine :=
  report_failure true (set_next_state_ State.IDLE (send_frame_ CMD_CLOSE_SESSION m))

/-- Embedding of `baud_rate_to_byte(baud)`. -/
def baud_rate_to_byte (baud : Nat) : Nat :=
  (match (List.range 7).find? (fun i => baud == 300 * 2 ^ i) with
   | some i => i
   | none => 0) + 0x30

/-! ## Frame reader (energomera_iec.cpp, lines 622-698) -/

/-- The lambda `frame_end_check_crlf`. -/
def frame_end_check_crlf (b : List Nat) (s : Nat) : Bool :=
  decide (s ≥ 2) && (b.getD (s - 1) 0 == LF) && (b.getD (s - 2) 0 == CR)

/-- The lambda `frame_end_check_iec` of `receive_prog_frame_`. -/
def frame_end_check_iec (start_byte : Nat) (accept_ack_and_nack : Bool)
    (b : List Nat) (s : Nat) : Bool :=
  (accept_ack_and_nack && decide (s = 1) && (b.getD 0 0 == ACK))
  || (accept_ack_and_nack && decide (s = 1) && (b.getD 0 0 == NAK))
  || (decide (s > 3) && (b.getD 0 0 == start_byte) && (b.getD (s - 2) 0 == ETX))

/-- One pass of the body of the `while` loop of `receive_frame_` up to the stop
test: the byte read is appended, or, when the buffer is full, the buffer is moved
down by one and the byte stored in the last used slot. -/
def store_byte (b : Nat) (bf : Buffers) : Buffers :=
  if bf.amount_in < MAX_IN_BUF_SIZE then
    { bf with in_ := bf.in_.set bf.amount_in b, amount_in := bf.amount_in + 1 }
  else
    { bf with in_ := (bf.in_.drop 1).take (bf.amount_in - 1) ++ b :: bf.in_.drop bf.amount_in }

/-- The `while (count-- > 0)` loop of `receive_frame_` over the UART queue: the
returned size, the bytes left in the queue and the buffers. -/
def receive_loop (stop_fn : List Nat → Nat → Bool) :
    Nat → List Nat → Buffers → Nat × List Nat × Buffers
  | 0, fifo, bf => (0, fifo, bf)
  | _ + 1, [], bf => (0, [], bf)
  | count + 1, b :: fifo, bf =>
    let bf1 := store_byte b bf
    if stop_fn bf1.in_ bf1.amount_in then (bf1.amount_in, fifo, { bf1 with amount_in := 0 })
    else receive_loop stop_fn count fifo bf1

/-- Embedding of `receive_frame_(stop_fn)`. -/
def receive_frame_ (stop_fn : List Nat → Nat → Bool) (e : Env) (m : Machine) :
    Nat × Machine :=
  let r := receive_loop stop_fn (min m.uart_rx.length e.read_limit) m.uart_rx m.buffers_
  (r.1, { m with
          uart_rx := r.2.1, buffers_ := r.2.2,
          last_rx_time_ := if r.1 > 0 then e.now else m.last_rx_time_ })

def receive_frame_ascii_ (e : Env) (m : Machine) : Nat × Machine :=
  receive_frame_ frame_end_check_crlf e m

def receive_prog_frame_ (start_byte : Nat) (accept_ack_and_nack : Bool) (e : Env)
    (m : Machine) : Nat × Machine :=
  receive_frame_ (frame_end_check_iec start_byte accept_ack_and_nack) e m

/-- Calling `reading_state_.read_fn()`. -/
def call_read_fn (e : Env) (m : Machine) : Nat × Machine :=
  match m.reading_state_.read_fn with
  | ReadFunction.null => (0, m)
  | ReadFunction.ascii => receive_frame_ascii_ e m
  | ReadFunction.prog start_byte accept => receive_prog_frame_ start_byte accept e m

/-! ## Meter identification and sensor values -/

/-- The `while` loop of `extract_meter_id_`, with `p = in + k` the next position
to inspect after `k + 1` remain. -/
def extract_loop (in_ : List Nat) : Nat → Option Nat
  | 0 => none
  | k + 1 =>
    if in_.getD k 0 = 0x2F then
      if MAX_IN_BUF_SIZE - 1 - k < 7 then none else some k
    else extract_loop in_ k

/-- Embedding of `extract_meter_id_(frame_size)`. -/
def extract_meter_id_ (frame_size : Nat) (bf : Buffers) : Option Nat × Buffers :=
  if frame_size < 7 then (none, bf)
  else
    match extract_loop bf.in_ (frame_size - 2) with
    | some p => (some p, { bf with in_ := bf.in_.set (frame_size - 2) 0 })
    | none => (none, bf)

/-- Embedding of `char2float(str, value)`, where `strtof_end str` is the number
of bytes of the C string `str` that the C library `strtof` converts. -/
def char2float (strtof_end : List Nat → Nat) (str : List Nat) : Bool :=
  strtof_end (c_str str) == (c_str str).length

/-- Embedding of `set_sensor_value_(sensor, vals)`; `line` is the buffer the value
slots point into. -/
def set_sensor_value_ (strtof_end : List Nat → Nat) (line : List Nat)
    (vals : List (Option Nat)) (sensor : Sensor) : Bool × Sensor :=
  let idx := (sensor.idx_ + 255) % 256
  if idx ≥ VAL_NUM then (false, sensor)
  else
    let src := (slot_str line (vals.getD idx none)).take 128
    let str_buffer := src ++ List.replicate (128 - src.length) 0
    let str :=
      if sensor.sub_idx_ = 0 then str_buffer
      else
        let r := get_nth_value_from_csv_ str_buffer sensor.sub_idx_
        match r.1 with
        | some off => r.2.drop off
        | none => (r.2.set 0 0)
    match sensor.type with
    | SensorType.SENSOR =>
      if str.getD 0 0 ≠ 0 ∧ char2float strtof_end str = true then
        (true, sensor.set_value (c_str str))
      else (false, sensor)
    | SensorType.TEXT_SENSOR => (true, sensor.set_value (c_str str))

/-! ## The state machine (energomera_iec.cpp, lines 169-474) -/

def step_IDLE (e : Env) (m : Machine) : Machine :=
  let m1 := update_last_rx_time_ e m
  match m1.single_requests_ with
  | [] => m1
  | request :: rest =>
    let m2 := { m1 with single_requests_ := rest }
    let m3 := { m2 with
      buffers_ := prepare_non_session_prog_frame_ m2.meter_address_ request m2.buffers_ }
    read_reply_and_go_next_state_ (ReadFunction.prog STX true) State.SINGLE_READ_ACK 3
      false true (send_frame_prepared_ m3)

def step_WAIT (e : Env) (m : Machine) : Machine :=
  if check_wait_timeout_ e m then update_last_rx_time_ e (set_next_state_ m.wait_.next_state m)
  else m

/-- The local `crc_is_ok` of the `WAITING_FOR_RESPONSE` case. -/
def crc_is_ok (m : Machine) : Bool :=
  if m.reading_state_.check_crc = true ∧ m.received_frame_size_ > 0 then
    check_crc_prog_frame_ m.buffers_.in_ m.received_frame_size_
  else true

/-- The "happy path" of `WAITING_FOR_RESPONSE` (lines 214-221). -/
def waiting_success (e : Env) (m : Machine) : Machine :=
  let m2 := update_last_rx_time_ e (set_next_state_ m.reading_state_.next_state m)
  { m2 with stats_ := { m2.stats_ with
      crc_errors_ := (m2.stats_.crc_errors_ + m2.reading_state_.err_crc) % 4294967296,
      crc_errors_recovered_ :=
        (m2.stats_.crc_errors_recovered_ + m2.reading_state_.err_crc) % 4294967296,
      invalid_frames_ :=
        (m2.stats_.invalid_frames_ + m2.reading_state_.err_invalid_frames) % 4294967296 } }

/-- The error counting of `WAITING_FOR_RESPONSE` (lines 229-238). -/
def waiting_count_error (m : Machine) : Machine :=
  if m.received_frame_size_ = 0 then
    { m with reading_state_ := { m.reading_state_ with
        err_invalid_frames := (m.reading_state_.err_invalid_frames + 1) % 4294967296 } }
  else if crc_is_ok m = false then
    { m with reading_state_ := { m.reading_state_ with
        err_crc := (m.reading_state_.err_crc + 1) % 4294967296 } }
  else
    { m with reading_state_ := { m.reading_state_ with
        err_invalid_frames := (m.reading_state_.err_invalid_frames + 1) % 4294967296 } }

/-- The clean-up of `WAITING_FOR_RESPONSE` (lines 244-250). -/
def waiting_clear (m : Machine) : Machine :=
  clear_rx_buffers_
    (if m.buffers_.amount_in > 0 then
      { m with stats_ := { m.stats_ with
          crc_errors_ := (m.stats_.crc_errors_ + 1) % 4294967296 } }
     else m)

/-- The failure handling of `WAITING_FOR_RESPONSE` (lines 252-270), entered after
the error has been counted and the buffers cleared. -/
def waiting_failure (e : Env) (m : Machine) : Machine :=
  if m.reading_state_.mission_critical = true then
    abort_mission_ { m with stats_ := { m.stats_ with
      crc_errors_ := (m.stats_.crc_errors_ + m.reading_state_.err_crc) % 4294967296,
      invalid_frames_ :=
        (m.stats_.invalid_frames_ + m.reading_state_.err_invalid_frames) % 4294967296 } }
  else if m.reading_state_.tries_counter < m.reading_state_.tries_max then
    update_last_rx_time_ e (send_frame_prepared_
      { m with reading_state_ := { m.reading_state_ with
          tries_counter := (m.reading_state_.tries_counter + 1) % 256 } })
  else
    set_next_state_ m.reading_state_.next_state
      { m with
        received_frame_size_ := 0,
        stats_ := { m.stats_ with
          crc_errors_ := (m.stats_.crc_errors_ + m.reading_state_.err_crc) % 4294967296,
          invalid_frames_ :=
            (m.stats_.invalid_frames_ + m.reading_state_.err_invalid_frames)
              % 4294967296 } }

/-- The component after `received_frame_size_ = reading_state_.read_fn()`. -/
def waiting_read (e : Env) (m : Machine) : Machine :=
  { (call_read_fn e m).2 with received_frame_size_ := (call_read_fn e m).1 }

def step_WAITING_FOR_RESPONSE (e : Env) (m : Machine) : Machine :=
  let m1 := waiting_read e m
  if m1.received_frame_size_ > 0 ∧ crc_is_ok m1 = true then waiting_success e m1
  else if crc_is_ok m1 = true ∧ check_rx_timeout_ e m1 = false then m1
  else waiting_failure e (waiting_clear (waiting_count_error m1))

/-- The bytes `snprintf(open_cmd, 32, "/?%s!\r\n", address)` leaves in `open_cmd`,
cut to the `uint8_t` length `open_cmd_len`. -/
def open_cmd (meter_address : List Nat) : List Nat :=
  let r := snprintf_ (List.replicate 32 0) 32
    ([0x2F, 0x3F] ++ c_str meter_address ++ [0x21, CR, LF])
  (List.range (r.2 % 256)).map (fun i => r.1.getD i 0)

def step_OPEN_SESSION (e : Env) (m : Machine) : Machine :=
  let m1 := { m with
    stats_ := { m.stats_ with
      connections_tried_ := (m.stats_.connections_tried_ + 1) % 4294967296 },
    session_started_ms := e.now }
  let m2 := clear_rx_buffers_ m1
  let m3 :=
    if m2.baud_rate_handshake_ ≠ m2.baud_rate_ then
      { m2 with uart_baud := m2.baud_rate_handshake_ }
    else m2
  let m4 := { m3 with request_iter := 0 }
  let m5 := send_frame_ (open_cmd m4.meter_address_) m4
  let m6 := set_next_state_ State.OPEN_SESSION_GET_ID m5
  read_reply_and_go_next_state_ ReadFunction.ascii State.OPEN_SESSION_GET_ID 0 true false m6

def step_OPEN_SESSION_GET_ID (e : Env) (m : Machine) : Machine :=
  if m.received_frame_size_ ≠ 0 then
    let r := extract_meter_id_ m.received_frame_size_ m.buffers_
    match r.1 with
    | none =>
      abort_mission_ { m with
        buffers_ := r.2,
        stats_ := { m.stats_ with
          invalid_frames_ := (m.stats_.invalid_frames_ + 1) % 4294967296 } }
    | some _ =>
      let m1 := update_last_rx_time_ e { m with buffers_ := r.2 }
      if m1.baud_rate_handshake_ ≠ m1.baud_rate_ then
        let b1 := prepare_frame_ CMD_ACK_SET_BAUD_AND_MODE m1.buffers_
        let b2 := { b1 with out := b1.out.set 2 (baud_rate_to_byte m1.baud_rate_) }
        set_next_state_delayed_ e 250 State.SET_BAUD
          (send_frame_prepared_ { m1 with buffers_ := b2 })
      else
        read_reply_and_go_next_state_ (ReadFunction.prog SOH false)
          State.ACK_START_GET_INFO 3 true true (send_frame_ CMD_ACK_SET_BAUD_AND_MODE m1)
  else m

def step_SET_BAUD (e : Env) (m : Machine) : Machine :=
  let m1 := update_last_rx_time_ e m
  set_next_state_delayed_ e 150 State.ACK_START_GET_INFO { m1 with uart_baud := m1.baud_rate_ }

/-- Running `get_values_from_brackets_(in_param_ptr, vals)` on the component:
the count, and the component with `in` and `vals` as the call leaves them. -/
def parse_in_param (m : Machine) : Nat × Machine :=
  let r := get_values_from_brackets_ (m.buffers_.in_.drop 1)
  (r.1, { m with
          buffers_ := { m.buffers_ with in_ := m.buffers_.in_.take 1 ++ r.2.1 },
          vals := r.2.2 })

def step_ACK_START_GET_INFO (m : Machine) : Machine :=
  if m.received_frame_size_ = 0 then
    abort_mission_ { m with stats_ := { m.stats_ with
      invalid_frames_ := (m.stats_.invalid_frames_ + 1) % 4294967296 } }
  else
    let r := parse_in_param m
    if r.1 = 0 then
      abort_mission_ { r.2 with stats_ := { r.2.stats_ with
        invalid_frames_ := (r.2.stats_.invalid_frames_ + 1) % 4294967296 } }
    else set_next_state_ State.DATA_ENQ r.2

def step_DATA_ENQ (m : Machine) : Machine :=
  if m.request_iter = m.sensors_.length then set_next_state_ State.CLOSE_SESSION m
  else
    let req := key_at m.sensors_ m.request_iter
    let m1 := { m with buffers_ := prepare_prog_frame_ req m.buffers_ }
    read_reply_and_go_next_state_ (ReadFunction.prog STX false) State.DATA_RECV 3 false true
      (send_frame_prepared_ m1)

/-- The loop over `sensors_.equal_range(req)` at the end of `DATA_RECV`. -/
def assign_sensors (strtof_end : List Nat → Nat) (req : List Nat) (line : List Nat)
    (vals : List (Option Nat)) (sensors : List (List Nat × Sensor)) :
    List (List Nat × Sensor) :=
  sensors.map (fun entry =>
    if entry.1 = req ∧ entry.2.is_failed = false then
      (entry.1, (set_sensor_value_ strtof_end line vals entry.2).2)
    else entry)

def step_DATA_RECV (strtof_end : List Nat → Nat) (e : Env) (m : Machine) : Machine :=
  let m1 := set_next_state_ State.DATA_NEXT m
  if m1.received_frame_size_ = 0 then clear_rx_buffers_ (update_last_rx_time_ e m1)
  else
    match m1.sensors_[m1.request_iter]? with
    | none => m1
    | some entry =>
      let r := parse_in_param m1
      if r.1 = 0 then
        { r.2 with stats_ := { r.2.stats_ with
            invalid_frames_ := (r.2.stats_.invalid_frames_ + 1) % 4294967296 } }
      else if r.2.buffers_.in_.getD 1 0 = 0 then r.2
      else if entry.2.function_ ≠ c_str (r.2.buffers_.in_.drop 1) then r.2
      else
        { r.2 with
          sensors_ := assign_sensors strtof_end entry.1 (r.2.buffers_.in_.drop 1) r.2.vals
            r.2.sensors_ }

def step_DATA_NEXT (e : Env) (m : Machine) : Machine :=
  let m1 := { m with
    request_iter := upper_bound m.sensors_ (key_at m.sensors_ m.request_iter) }
  if m1.request_iter ≠ m1.sensors_.length then
    set_next_state_delayed_ e m1.delay_between_requests_ms_ State.DATA_ENQ m1
  else
    set_next_state_delayed_ e m1.delay_between_requests_ms_ State.CLOSE_SESSION m1

def step_CLOSE_SESSION (m : Machine) : Machine :=
  { set_next_state_ State.PUBLISH (send_frame_ CMD_CLOSE_SESSION m) with sensor_iter := 0 }

def step_PUBLISH (e : Env) (m : Machine) : Machine :=
  let m1 := update_last_rx_time_ e m
  match m1.sensors_[m1.sensor_iter]? with
  | some entry =>
    { m1 with published := m1.published ++ [entry.2], sensor_iter := m1.sensor_iter + 1 }
  | none => set_next_state_ State.IDLE (report_failure false m1)

def step_SINGLE_READ_ACK (m : Machine) : Machine := set_next_state_ State.IDLE m

/-- The bytes of `e.arrive` join the UART queue. -/
def uart_arrive (e : Env) (m : Machine) : Machine :=
  { m with uart_rx := m.uart_rx ++ e.arrive }

/-- Embedding of `loop()`, called once the component is ready, the bytes that
arrived since the previous call being in the UART queue. -/
def loop (strtof_end : List Nat → Nat) (e : Env) (m : Machine) : Machine :=
  let m0 := uart_arrive e m
  match m0.state_ with
  | State.NOT_INITIALIZED => m0
  | State.IDLE => step_IDLE e m0
  | State.WAIT => step_WAIT e m0
  | State.WAITING_FOR_RESPONSE => step_WAITING_FOR_RESPONSE e m0
  | State.OPEN_SESSION => step_OPEN_SESSION e m0
  | State.OPEN_SESSION_GET_ID => step_OPEN_SESSION_GET_ID e m0
  | State.SET_BAUD => step_SET_BAUD e m0
  | State.ACK_START_GET_INFO => step_ACK_START_GET_INFO m0
  | State.DATA_ENQ => step_DATA_ENQ m0
  | State.DATA_RECV => step_DATA_RECV strtof_end e m0
  | State.DATA_NEXT => step_DATA_NEXT e m0
  | State.CLOSE_SESSION => step_CLOSE_SESSION m0
  | State.PUBLISH => step_PUBLISH e m0
  | State.SINGLE_READ => m0
  | State.SINGLE_READ_ACK => step_SINGLE_READ_ACK m0

/-- Embedding of `update()`. -/
def update (m : Machine) : Machine :=
  if m.state_ ≠ State.IDLE then m else set_next_state_ State.OPEN_SESSION m

/-- Embedding of `queue_single_read(request)`. -/
def queue_single_read (request : List Nat) (m : Machine) : Machine :=
  { m with single_requests_ := m.single_requests_ ++ [request] }

/-- Successive calls of `loop()`, one per element of `envs`. -/
def run (strtof_end : List Nat → Nat) : List Env → Machine → Machine
  | [], m => m
  | e :: es, m => run strtof_end es (loop strtof_end e m)

/-! ## Inputs and closed forms used in the statements -/

/-- The line `(v1)(v2)...(vk)`. -/
def bracketed : List (List Nat) → List Nat
  | [] => []
  | v :: vs => 0x28 :: v ++ 0x29 :: bracketed vs

/-- The fields joined by commas. -/
def comma_joined : List (List Nat) → List Nat
  | [] => []
  | [f] => f
  | f :: g :: fs => f ++ 0x2C :: comma_joined (g :: fs)

/-- The buffer after the loop has handled up to `n` bracket pairs: the first
opening bracket seen becomes NUL when no name was terminated before, and every
handled closing bracket becomes NUL. -/
def brackets_done : Nat → Bool → List (List Nat) → List Nat
  | 0, _, vs => bracketed vs
  | _ + 1, _, [] => []
  | n + 1, got, v :: vs => (if got then 0x28 else 0) :: v ++ 0 :: brackets_done n true vs

/-- The pointers stored for up to `n` bracket pairs that start at offset `off`. -/
def brackets_ptrs : Nat → Nat → List (List Nat) → List (Option Nat)
  | 0, _, _ => []
  | _ + 1, _, [] => []
  | n + 1, off, v :: vs => some (off + 1) :: brackets_ptrs n (off + v.length + 2) vs

/-- What follows a token in the buffer once `strtok` has returned it: nothing
after the last field, otherwise a NUL and the remaining joined fields. -/
def csv_tail : List (List Nat) → List Nat
  | [] => []
  | g :: gs => 0 :: comma_joined (g :: gs)

/-- The position `strtok` saves after returning the token `f` stored at `pre`. -/
def csv_save (pre f : List Nat) : List (List Nat) → Nat
  | [] => pre.length + f.length
  | _ :: _ => pre.length + f.length + 1

/-! ## The request cursor of a session -/

/-- The keys of the multimap in iteration order. -/
def keys (m : Machine) : List (List Nat) := m.sensors_.map Prod.fst

/-- The function `upper_bound` on the key sequence. -/
def ub_keys (ks : List (List Nat)) (k : List Nat) : Nat := ks.findIdx (fun x => str_lt k x)

/-- The key at position `i` of the key sequence. -/
def key_of (ks : List (List Nat)) (i : Nat) : List Nat := ks.getD i []

/-- The position `DATA_NEXT` moves the cursor to from position `i`. -/
def cursor_next (ks : List (List Nat)) (i : Nat) : Nat := ub_keys ks (key_of ks i)

/-- The requests the cursor visits from position `i` on. -/
inductive Visits (ks : List (List Nat)) : Nat → List (List Nat) → Prop where
  | done : Visits ks ks.length []
  | step (i : Nat) (L : List (List Nat)) : i < ks.length →
      Visits ks (cursor_next ks i) L → Visits ks i (key_of ks i :: L)

/-- The request for which a `DATA_ENQ` step builds and sends a session frame. -/
def enq (m : Machine) : List (List Nat) :=
  if m.state_ = State.DATA_ENQ ∧ m.request_iter ≠ m.sensors_.length then
    [key_at m.sensors_ m.request_iter]
  else []

/-- The requests enquired, in order, during the calls of `loop()` of a run. -/
def enquired (strtof_end : List Nat → Nat) : List Env → Machine → List (List Nat)
  | [], _ => []
  | e :: es, m => enq m ++ enquired strtof_end es (loop strtof_end e m)

/-- No call of `loop()` of the run starts in `IDLE`: the session has neither been
aborted nor completed before the last call. -/
def NotAborted (strtof_end : List Nat → Nat) : List Env → Machine → Bool
  | [], _ => true
  | e :: es, m => decide (m.state_ ≠ State.IDLE) && NotAborted strtof_end es (loop strtof_end e m)

/-- The states a session passes through, with what is known of the cursor and of
the armed wait or reading policy in each. -/
def SessionInv (m : Machine) : Prop :=
  match m.state_ with
  | State.OPEN_SESSION => True
  | State.OPEN_SESSION_GET_ID | State.SET_BAUD | State.ACK_START_GET_INFO | State.DATA_ENQ
  | State.CLOSE_SESSION | State.PUBLISH => m.request_iter ≤ m.sensors_.length
  | State.WAIT =>
    m.request_iter ≤ m.sensors_.length ∧
    (m.wait_.next_state = State.SET_BAUD ∨ m.wait_.next_state = State.ACK_START_GET_INFO
      ∨ m.wait_.next_state = State.DATA_ENQ
      ∨ (m.wait_.next_state = State.CLOSE_SESSION ∧ m.request_iter = m.sensors_.length))
  | State.WAITING_FOR_RESPONSE =>
    m.request_iter ≤ m.sensors_.length ∧
    (m.reading_state_.next_state = State.OPEN_SESSION_GET_ID
      ∨ m.reading_state_.next_state = State.ACK_START_GET_INFO
      ∨ (m.reading_state_.next_state = State.DATA_RECV
          ∧ m.reading_state_.mission_critical = false
          ∧ m.request_iter < m.sensors_.length))
  | State.DATA_RECV | State.DATA_NEXT => m.request_iter < m.sensors_.length
  | _ => False

/-- The cursor position at which the next enquiry of the session will be made:
the cursor itself before `DATA_ENQ`, the position `DATA_NEXT` will move it to
once a request is in flight, and `none` when no enquiry is left. -/
def Target (m : Machine) : Option Nat :=
  match m.state_ with
  | State.OPEN_SESSION => some 0
  | State.OPEN_SESSION_GET_ID | State.SET_BAUD | State.ACK_START_GET_INFO | State.DATA_ENQ =>
    some m.request_iter
  | State.WAIT =>
    if m.wait_.next_state = State.CLOSE_SESSION then none else some m.request_iter
  | State.WAITING_FOR_RESPONSE =>
    if m.reading_state_.next_state = State.DATA_RECV then
      some (cursor_next (keys m) m.request_iter)
    else some m.request_iter
  | State.DATA_RECV | State.DATA_NEXT =>
    some (cursor_next (keys m) m.request_iter)
  | _ => none

/-- The list `L` is what is left to enquire from the component state `m`. -/
def Expect (m : Machine) (L : List (List Nat)) : Prop :=
  match Target m with
  | some i => Visits (keys m) i L
  | none => L = []

/-- What one step does to the session bookkeeping. -/
def StepOK (m m' : Machine) : Prop :=
  m'.state_ = State.IDLE ∨
    (SessionInv m' ∧ keys m' = keys m ∧ ∀ L, Expect m' L → Expect m (enq m ++ L))

/-- The multimap keeps its entries in ascending key order. -/
@[reducible]
def KeysSorted (ks : List (List Nat)) : Prop :=
  ks.Pairwise (fun a b => str_lt b a = false)

/-- The fields that reading a frame and counting an error leave alone. -/
structure SameCtl (m m' : Machine) : Prop where
  state_ : m'.state_ = m.state_
  sensors_ : m'.sensors_ = m.sensors_
  request_iter : m'.request_iter = m.request_iter
  read_fn : m'.reading_state_.read_fn = m.reading_state_.read_fn
  next_state : m'.reading_state_.next_state = m.reading_state_.next_state
  mission_critical : m'.reading_state_.mission_critical = m.reading_state_.mission_critical
  check_crc : m'.reading_state_.check_crc = m.reading_state_.check_crc
  tries_max : m'.reading_state_.tries_max = m.reading_state_.tries_max
  tries_counter : m'.reading_state_.tries_counter = m.reading_state_.tries_counter
  uart_tx : m'.uart_tx = m.uart_tx
  out : m'.buffers_.out = m.buffers_.out
  amount_out : m'.buffers_.amount_out = m.buffers_.amount_out
  failures_ : m'.stats_.failures_ = m.stats_.failures_
  failures_before_reboot_ : m'.failures_before_reboot_ = m.failures_before_reboot_
  reboots : m'.reboots = m.reboots
  receive_timeout_ms_ : m'.receive_timeout_ms_ = m.receive_timeout_ms_

/-! ## Outcomes of one poll in `WAITING_FOR_RESPONSE` -/

/-- The component right after `received_frame_size_ = reading_state_.read_fn()` in
a `WAITING_FOR_RESPONSE` step that is given `e`. -/
def poll (e : Env) (m : Machine) : Machine :=
  waiting_read e (uart_arrive e m)

/-- No frame yet and the receive timeout has not elapsed. -/
def reply_pending (e : Env) (m : Machine) : Bool :=
  decide ((poll e m).received_frame_size_ = 0) && !check_rx_timeout_ e (poll e m)

/-- A frame was received and its CRC check failed. -/
def reply_crc_failed (e : Env) (m : Machine) : Bool :=
  decide ((poll e m).received_frame_size_ > 0) && !crc_is_ok (poll e m)

/-- No frame and the receive timeout has elapsed. -/
def reply_timed_out (e : Env) (m : Machine) : Bool :=
  decide ((poll e m).received_frame_size_ = 0) && check_rx_timeout_ e (poll e m)

/-- A run of polls that ends with the `k`-th failed reply: every poll either is
still pending or fails (a frame whose CRC check fails, or a receive timeout), no
poll receives a good frame, and the last poll is the `k`-th failure. -/
def FailingReplies (strtof_end : List Nat → Nat) : List Env → Nat → Machine → Bool
  | [], k, _ => decide (k = 0)
  | e :: es, k, m =>
    decide (0 < k) &&
      ((reply_pending e m && FailingReplies strtof_end es k (loop strtof_end e m))
        || ((reply_crc_failed e m || reply_timed_out e m)
            && FailingReplies strtof_end es (k - 1) (loop strtof_end e m)))

/-- What `DATA_RECV` decodes from the inbound buffer: the result of
`get_values_from_brackets_(in_param_ptr, vals)`. -/
def decoded (m : Machine) : Nat × List Nat × List (Option Nat) :=
  get_values_from_brackets_ (m.buffers_.in_.drop 1)

/-! ## Sample configurations -/

/-- A numeric sensor bound to the first value of a request. -/
def sample_sensor (request function : List Nat) : Sensor :=
  { type := SensorType.SENSOR, request_ := request, function_ := function, idx_ := 1,
    sub_idx_ := 0, has_value_ := false, tries_ := 0, value_ := [] }

/-- The component after `setup()` and the boot delay, with the default settings
and no sensor registered. -/
def sample_machine : Machine :=
  { meter_address_ := [], receive_timeout_ms_ := 500, delay_between_requests_ms_ := 50,
    baud_rate_handshake_ := 9600, baud_rate_ := 9600, failures_before_reboot_ := 0,
    sensors_ := [], single_requests_ := [], state_ := State.IDLE,
    wait_ := ⟨0, 0, State.IDLE⟩,
    reading_state_ := ⟨ReadFunction.null, State.IDLE, false, false, 0, 0, 0, 0⟩,
    received_frame_size_ := 0, last_rx_time_ := 0,
    buffers_ := ⟨List.replicate 256 0, 0, List.replicate 84 0, 0⟩,
    stats_ := ⟨0, 0, 0, 0, 0⟩, session_started_ms := 0, request_iter := 0, sensor_iter := 0,
    vals := List.replicate 12 none, uart_rx := [], uart_tx := [], uart_baud := 9600,
    reboots := 0, published := [] }

/-- The sample component with sensors for `VOLTA()` (twice) and `CURRE()`. -/
def sample_registered : Machine :=
  register_sensor
    (sample_sensor [0x56, 0x4F, 0x4C, 0x54, 0x41, 0x28, 0x29] [0x56, 0x4F, 0x4C, 0x54, 0x41])
    (register_sensor
      (sample_sensor [0x43, 0x55, 0x52, 0x52, 0x45, 0x28, 0x29] [0x43, 0x55, 0x52, 0x52, 0x45])
      (register_sensor
        (sample_sensor [0x56, 0x4F, 0x4C, 0x54, 0x41, 0x28, 0x29]
          [0x56, 0x4F, 0x4C, 0x54, 0x41])
        sample_machine))

/-- A conversion that accepts every string. -/
def sample_strtof_end : List Nat → Nat := fun s => s.length

/-- A programming frame with a correct checksum around `body`. -/
def sample_frame (start_byte : Nat) (body : List Nat) : List Nat :=
  start_byte :: body ++ [ETX, (body.sum + ETX) % 128]

/-- The inputs of a complete session of `sample_registered` up to `CLOSE_SESSION`:
identification, info reply, a good reply to `CURRE()`, and four replies with a
wrong checksum to `VOLTA()`. -/
def sample_session : List Env :=
  [ ⟨0, [], 100⟩,
    ⟨1, [0x2F, 0x45, 0x4B, 0x54, 0x35, 0x43, 0x45, 0x0D, 0x0A], 100⟩,
    ⟨2, [], 100⟩,
    ⟨3, sample_frame SOH [0x50, 0x30, STX, 0x28, 0x31, 0x29], 100⟩,
    ⟨4, [], 100⟩,
    ⟨5, [], 100⟩,
    ⟨6, sample_frame STX [0x43, 0x55, 0x52, 0x52, 0x45, 0x28, 0x31, 0x2E, 0x35, 0x29], 100⟩,
    ⟨7, [], 100⟩,
    ⟨8, [], 100⟩,
    ⟨100, [], 100⟩,
    ⟨101, [], 100⟩,
    ⟨102, [0x02, 0x41, 0x03, 0x00], 100⟩,
    ⟨103, [0x02, 0x41, 0x03, 0x00], 100⟩,
    ⟨104, [0x02, 0x41, 0x03, 0x00], 100⟩,
    ⟨105, [0x02, 0x41, 0x03, 0x00], 100⟩,
    ⟨106, [], 100⟩,
    ⟨107, [], 100⟩,
    ⟨200, [], 100⟩ ]

/-- Four polls that each receive a frame with a wrong checksum. -/
def sample_bad_replies : List Env :=
  [ ⟨102, [0x02, 0x41, 0x03, 0x00], 100⟩,
    ⟨103, [0x02, 0x41, 0x03, 0x00], 100⟩,
    ⟨104, [0x02, 0x41, 0x03, 0x00], 100⟩,
    ⟨105, [0x02, 0x41, 0x03, 0x00], 100⟩ ]

/-- The sample component waiting for the identification frame (the policy armed
by `OPEN_SESSION`) after `failures` failed sessions in a row. -/
def sample_waiting_id (failures : Nat) : Machine :=
  read_reply_and_go_next_state_ ReadFunction.ascii State.OPEN_SESSION_GET_ID 0 true false
    { sample_machine with stats_ := { sample_machine.stats_ with failures_ := failures } }

/-- The sample component in `DATA_RECV` with the frame `STX "CURRE(1.5)" ETX bcc`
received for the request at the cursor, `VOLTA()`. -/
def sample_data_recv : Machine :=
  { sample_registered with
    state_ := State.DATA_RECV,
    request_iter := 1,
    received_frame_size_ := 13,
    buffers_ := { sample_registered.buffers_ with
      in_ := sample_frame STX [0x43, 0x55, 0x52, 0x52, 0x45, 0x28, 0x31, 0x2E, 0x35, 0x29]
        ++ List.replicate 243 0 } }

/-! ## Feeding the frame reader -/

/-- The buffers after the reader has stored the bytes `bs` one after the other,
no stop condition having fired. -/
def stored (bs : List Nat) (bf : Buffers) : Buffers :=
  bs.foldl (fun acc b => store_byte b acc) bf

/-- The bytes the inbound buffer currently holds: `in[0 .. amount_in)`. -/
def content (bf : Buffers) : List Nat := bf.in_.take bf.amount_in

/-- The values returned by successive calls of the reader, each call finding
exactly one more byte of `bs` in the UART queue, together with the buffers after
the last call. -/
def feed_one_at_a_time (stop_fn : List Nat → Nat → Bool) :
    List Nat → Buffers → List Nat × Buffers
  | [], bf => ([], bf)
  | b :: bs, bf =>
    let r := receive_loop stop_fn 1 [b] bf
    let rest := feed_one_at_a_time stop_fn bs r.2.2
    (r.1 :: rest.1, rest.2)

/-- The sensors of `rs` registered one after the other, in that order. -/
def register_all (rs : List Sensor) (m : Machine) : Machine :=
  rs.foldl (fun acc s => register_sensor s acc) m

/-- The buffers holding the 7-byte identification frame `ABCD/` CR LF. -/
def sample_short_id : Buffers :=
  { sample_machine.buffers_ with
    in_ := [0x41, 0x42, 0x43, 0x44, 0x2F, CR, LF] ++ List.replicate 249 0 }

/-- The sample component, idle, with the single read `VOLTA()` queued. -/
def sample_single_read : Machine :=
  queue_single_read [0x56, 0x4F, 0x4C, 0x54, 0x41, 0x28, 0x29] sample_machine

/-- Three sensors in registration order: `VOLTA()` value 1, `CURRE()` value 1,
`VOLTA()` value 2. -/
def sample_bindings : List Sensor :=
  [sample_sensor [0x56, 0x4F, 0x4C, 0x54, 0x41, 0x28, 0x29] [0x56, 0x4F, 0x4C, 0x54, 0x41],
   sample_sensor [0x43, 0x55, 0x52, 0x52, 0x45, 0x28, 0x29] [0x43, 0x55, 0x52, 0x52, 0x45],
   { sample_sensor [0x56, 0x4F, 0x4C, 0x54, 0x41, 0x28, 0x29] [0x56, 0x4F, 0x4C, 0x54, 0x41]
       with idx_ := 2 }]

/-- The sample component with `sample_bindings` registered, about to close a
session. -/
def sample_closing : Machine :=
  { register_all sample_bindings sample_machine with state_ := State.CLOSE_SESSION }

/-! ## Failed sessions, conversions and calls -/

/-- A run of consecutive failed sessions as `report_failure` sees it: up to `k`
calls of `report_failure(true)` with no call of `report_failure(false)` in
between.  The flag tells that the device has restarted: `App.safe_reboot()` does
not return, so the call that requests the restart is the last call of the run
and the component is left as it is at that request. -/
def failed_sessions : Nat → Machine → Machine × Bool
  | 0, m => (m, false)
  | k + 1, m =>
    let r := failed_sessions k m
    if r.2 then r
    else
      let m1 := report_failure true r.1
      (m1, decide (m1.reboots ≠ r.1.reboots))

/-- The string `str` that `set_sensor_value_` hands to the conversion: the value
at the index of the sensor copied into the 128-byte `str_buffer`, or the field of
it at the sub-index of the sensor. -/
def extracted_str (line : List Nat) (vals : List (Option Nat)) (sensor : Sensor) : List Nat :=
  let src := (slot_str line (vals.getD ((sensor.idx_ + 255) % 256) none)).take 128
  let str_buffer := src ++ List.replicate (128 - src.length) 0
  if sensor.sub_idx_ = 0 then str_buffer
  else
    let r := get_nth_value_from_csv_ str_buffer sensor.sub_idx_
    match r.1 with
    | some off => r.2.drop off
    | none => (r.2.set 0 0)

/-- A conversion that consumes the leading decimal digits of a string. -/
def digits_strtof_end : List Nat → Nat :=
  fun s => (s.takeWhile (fun b => decide (0x30 ≤ b) && decide (b ≤ 0x39))).length

/-- The sample component with the reboot threshold set to 1. -/
def sample_threshold_one : Machine :=
  { sample_machine with failures_before_reboot_ := 1 }

/-- The line `12abc)` with the first value slot pointing at its start, as
`get_values_from_brackets_` leaves the reply `X(12abc)`. -/
def sample_bad_number : List Nat := [0x31, 0x32, 0x61, 0x62, 0x63, 0]

/-! ## Invariants of the session handshake -/

/-- The baud settings of two configurations agree. -/
structure SameBaud (m m' : Machine) : Prop where
  baud_rate_handshake_ : m'.baud_rate_handshake_ = m.baud_rate_handshake_
  baud_rate_ : m'.baud_rate_ = m.baud_rate_
  uart_baud : m'.uart_baud = m.uart_baud

/-- What is known in every configuration reached from `IDLE`: a frame has been
received when the state is `OPEN_SESSION_GET_ID`, a wait leads to one of the
four delayed states, and a reading policy that leads to `OPEN_SESSION_GET_ID`
is mission critical. -/
def IdInv (m : Machine) : Prop :=
  match m.state_ with
  | State.OPEN_SESSION_GET_ID => m.received_frame_size_ ≠ 0
  | State.WAIT =>
    m.wait_.next_state = State.SET_BAUD ∨ m.wait_.next_state = State.ACK_START_GET_INFO
      ∨ m.wait_.next_state = State.DATA_ENQ ∨ m.wait_.next_state = State.CLOSE_SESSION
  | State.WAITING_FOR_RESPONSE =>
    (m.reading_state_.next_state = State.OPEN_SESSION_GET_ID
        ∧ m.reading_state_.mission_critical = true)
      ∨ m.reading_state_.next_state = State.ACK_START_GET_INFO
      ∨ m.reading_state_.next_state = State.DATA_RECV
      ∨ m.reading_state_.next_state = State.SINGLE_READ_ACK
  | _ => True

/-- What is known between `OPEN_SESSION` and `ACK_START_GET_INFO` in a session
whose handshake and working baud rates are equal; `baud` is the local baud rate
at the start. -/
def HandshakeInv (baud : Nat) (m : Machine) : Prop :=
  m.baud_rate_handshake_ = m.baud_rate_ ∧ m.uart_baud = baud ∧
  match m.state_ with
  | State.OPEN_SESSION | State.ACK_START_GET_INFO | State.IDLE => True
  | State.OPEN_SESSION_GET_ID => m.received_frame_size_ ≠ 0
  | State.WAITING_FOR_RESPONSE =>
    m.reading_state_.mission_critical = true
      ∧ (m.reading_state_.next_state = State.OPEN_SESSION_GET_ID
          ∨ m.reading_state_.next_state = State.ACK_START_GET_INFO)
  | _ => False

/-- A call the framework makes on the component: `loop()` with what the outside
world contributes to it, or `update()`. -/
inductive Call where
  | loop (e : Env)
  | update
deriving DecidableEq, Repr

def call (strtof_end : List Nat → Nat) : Call → Machine → Machine
  | Call.loop e, m => loop strtof_end e m
  | Call.update, m => update m

/-- Successive calls, in the order given. -/
def calls (strtof_end : List Nat → Nat) : List Call → Machine → Machine
  | [], m => m
  | c :: cs, m => calls strtof_end cs (call strtof_end c m)

/-- The sample component with a handshake at 300 baud and a working rate of 9600
baud. -/
def sample_two_bauds : Machine :=
  { sample_registered with baud_rate_handshake_ := 300, uart_baud := 300 }

/-- The sample component with two baud rates in `OPEN_SESSION_GET_ID`, the
identification frame `/EKT5CE` CR LF received. -/
def sample_identified : Machine :=
  run sample_strtof_end
    [⟨0, [], 100⟩, ⟨1, [0x2F, 0x45, 0x4B, 0x54, 0x35, 0x43, 0x45, 0x0D, 0x0A], 100⟩]
    (update sample_two_bauds)

/-- The calls that follow `sample_identified`: the step that sends the baud
selection, the end of the 250 ms wait, the baud switch during which the info
reply of the meter arrives, and the end of the 150 ms wait. -/
def sample_baud_switch : List Env :=
  [⟨2, [], 100⟩, ⟨252, [], 100⟩,
   ⟨253, sample_frame SOH [0x50, 0x30, STX, 0x28, 0x31, 0x29], 100⟩, ⟨403, [], 100⟩]

/-! ## Brackets and fields of a line -/

/-- The line holds an opening bracket that is followed, somewhere later in the
line, by a closing bracket. -/
def BracketPair (line : List Nat) : Prop :=
  ∃ pre post, c_str line = pre ++ 0x28 :: post ∧ 0x29 ∈ post

/-! ## Bytes behind a received frame -/

/-- The result of `get_values_from_brackets_` with the bytes `0 :: t` appended
to the buffer it leaves. -/
def with_tail (t : List Nat) (r : Nat × List Nat × List (Option Nat)) :
    Nat × List Nat × List (Option Nat) :=
  (r.1, r.2.1 ++ 0 :: t, r.2.2)

/-- The sample component with a sensor for the first value of `CURRE()` and a
sensor for the second value of `VOLTA()`. -/
def sample_stale_machine : Machine :=
  register_all
    [sample_sensor [0x43, 0x55, 0x52, 0x52, 0x45, 0x28, 0x29] [0x43, 0x55, 0x52, 0x52, 0x45],
     { sample_sensor [0x56, 0x4F, 0x4C, 0x54, 0x41, 0x28, 0x29] [0x56, 0x4F, 0x4C, 0x54, 0x41]
         with idx_ := 2 }]
    sample_machine

/-- The reply `STX CURRE(1) ETX bcc` to `CURRE()`. -/
def sample_short_reply : List Nat :=
  sample_frame STX [0x43, 0x55, 0x52, 0x52, 0x45, 0x28, 0x31, 0x29]

/-- The reply `STX CURRE(1) NUL z(9) ETX bcc` to `CURRE()`: a NUL byte, and
behind it a further bracketed value. -/
def sample_long_reply : List Nat :=
  sample_frame STX
    [0x43, 0x55, 0x52, 0x52, 0x45, 0x28, 0x31, 0x29, 0x00, 0x7A, 0x28, 0x39, 0x29]

/-- The inputs of a session of `sample_stale_machine` up to the moment the
reply `STX VOLTA(1) ETX bcc` to the second request has been received, the reply
to the first request, `CURRE()`, being `first_reply`. -/
def sample_stale_session (first_reply : List Nat) : List Env :=
  [ ⟨0, [], 100⟩,
    ⟨1, [0x2F, 0x45, 0x4B, 0x54, 0x35, 0x43, 0x45, 0x0D, 0x0A], 100⟩,
    ⟨2, [], 100⟩,
    ⟨3, sample_frame SOH [0x50, 0x30, STX, 0x28, 0x31, 0x29], 100⟩,
    ⟨4, [], 100⟩,
    ⟨5, [], 100⟩,
    ⟨6, first_reply, 100⟩,
    ⟨7, [], 100⟩,
    ⟨8, [], 100⟩,
    ⟨100, [], 100⟩,
    ⟨101, [], 100⟩,
    ⟨102, sample_frame STX [0x56, 0x4F, 0x4C, 0x54, 0x41, 0x28, 0x31, 0x29], 100⟩ ]

/-- The component `sample_data_recv` with the bytes `(9)` behind a NUL that
follows the received frame. -/
def sample_behind_nul : Machine :=
  { sample_data_recv with
    buffers_ := { sample_data_recv.buffers_ with
      in_ := sample_frame STX [0x43, 0x55, 0x52, 0x52, 0x45, 0x28, 0x31, 0x2E, 0x35, 0x29]
        ++ 0 :: [0x28, 0x39, 0x29] } }

/-! ## Lemmas on the checksum -/

theorem crc_fold_eq (data : List Nat) :
    ∀ (k s acc : Nat),
      (List.range' s k).foldl (fun crc i => (crc + data.getD i 0) &&& 0x7f) (acc % 128)
        = (acc + ((data.drop s).take k).sum) % 128 := by
  intro k
  induction k with
  | zero => intro s acc; simp
  | succ k ih =>
    intro s acc
    rw [List.range'_succ, List.foldl_cons]
    have hand : ∀ x : Nat, x &&& 0x7f = x % 128 := fun x =>
      Nat.and_pow_two_sub_one_eq_mod x 7
    have hstep : (acc % 128 + data.getD s 0) &&& 0x7f = (acc + data.getD s 0) % 128 := by
      rw [hand]; omega
    rw [hstep, ih (s + 1) (acc + data.getD s 0)]
    by_cases hs : s < data.length
    · rw [List.drop_eq_getElem_cons hs, List.take_succ_cons, List.sum_cons]
      have : data.getD s 0 = data[s] := by
        simp [List.getD_eq_getElem?_getD, List.getElem?_eq_getElem hs]
      rw [this, Nat.add_assoc]
    · have h1 : data.drop s = [] := List.drop_eq_nil_of_le (by omega)
      have h2 : data.drop (s + 1) = [] := List.drop_eq_nil_of_le (by omega)
      have h3 : data.getD s 0 = 0 := by
        simp [List.getD_eq_getElem?_getD, List.getElem?_eq_none (show data.length ≤ s by omega)]
      rw [h1, h2, h3]; simp

theorem crc_loop_eq (data : List Nat) (length : Nat) :
    crc_loop data length = checksum_spec data length := by
  have h := crc_fold_eq data (length - 2) 1 0
  simpa [crc_loop, checksum_spec] using h

theorem crc_loop_lt (data : List Nat) (length : Nat) : crc_loop data length < 128 := by
  rw [crc_loop_eq]; exact Nat.mod_lt _ (by decide)

theorem getD_set_ne (l : List Nat) (i j v : Nat) (h : i ≠ j) :
    (l.set i v).getD j 0 = l.getD j 0 := by
  simp [List.getD_eq_getElem?_getD, List.getElem?_set, h]

theorem getD_set_self (l : List Nat) (i v : Nat) (h : i < l.length) :
    (l.set i v).getD i 0 = v := by
  simp [List.getD_eq_getElem?_getD, List.getElem?_set, h]

/-- The loop only reads indices `1 .. length - 2`, so a store at `length - 1`
(or at index `0`) is invisible to it. -/
theorem crc_loop_set_outside (data : List Nat) (length j v : Nat)
    (hj : j = 0 ∨ length - 1 ≤ j) :
    crc_loop (data.set j v) length = crc_loop data length := by
  unfold crc_loop
  apply List.foldl_ext
  intro acc i hi
  have hi2 := List.mem_range'_1.mp hi
  rw [getD_set_ne]
  omega

/-! ## Lemmas on frame construction -/

theorem c_str_of_no_nul (s : List Nat) (h : 0 ∉ s) : c_str s = s := by
  unfold c_str
  rw [List.takeWhile_eq_self_iff]
  intro x hx
  have : x ≠ 0 := fun h0 => h (h0 ▸ hx)
  simpa using this

/-- What `snprintf` leaves in the buffer when everything but possibly the last
formatted byte fits in front of the terminator. -/
theorem snprintf_shape (buf body : List Nat) (y : Nat)
    (hfit : body.length + 1 ≤ MAX_OUT_BUF_SIZE) :
    ∃ x rest, (snprintf_ buf MAX_OUT_BUF_SIZE (body ++ [y])).1 = body ++ x :: rest
      ∧ (snprintf_ buf MAX_OUT_BUF_SIZE (body ++ [y])).2 = body.length + 1 := by
  have h84 : MAX_OUT_BUF_SIZE = 84 := rfl
  rw [h84] at hfit ⊢
  by_cases hb : body.length + 1 ≤ 83
  · refine ⟨y, 0 :: buf.drop (body.length + 2), ?_, ?_⟩
    · have ht : (body ++ [y]).take 83 = body ++ [y] :=
        List.take_of_length_le (by simp; omega)
      simp [snprintf_, ht]
    · simp [snprintf_]
  · have hb2 : body.length = 83 := by omega
    refine ⟨0, buf.drop 84, ?_, ?_⟩
    · have ht : (body ++ [y]).take 83 = body := List.take_left' hb2
      simp [snprintf_, ht, hb2]
    · simp [snprintf_]

theorem calc_crc_frame (h : Nat) (body : List Nat) (x : Nat) (rest : List Nat) :
    calculate_crc_prog_frame_ (h :: (body ++ x :: rest)) (body.length + 2) true
      = (body.sum % 128, h :: (body ++ (body.sum % 128) :: rest)) := by
  have hnl : ¬ body.length + 2 < 2 := by omega
  simp only [calculate_crc_prog_frame_, hnl, if_false, if_true]
  have hcrc : crc_loop (h :: (body ++ x :: rest)) (body.length + 2) = body.sum % 128 := by
    rw [crc_loop_eq]
    simp [checksum_spec]
  rw [hcrc]
  have : body.length + 2 - 1 = body.length + 1 := by omega
  rw [this, List.set_cons_succ, List.set_append]
  simp

theorem check_crc_frame (h : Nat) (body : List Nat) (rest : List Nat) :
    check_crc_prog_frame_ (h :: (body ++ (body.sum % 128) :: rest)) (body.length + 2)
      = true := by
  have hnl : ¬ body.length + 2 < 2 := by omega
  simp only [check_crc_prog_frame_, calculate_crc_prog_frame_, hnl, if_false]
  have hcrc : crc_loop (h :: (body ++ (body.sum % 128) :: rest)) (body.length + 2)
      = body.sum % 128 := by
    rw [crc_loop_eq]
    simp [checksum_spec]
  rw [hcrc]
  have : body.length + 2 - 1 = body.length + 1 := by omega
  rw [this, List.getD_cons_succ, List.getD_eq_getElem?_getD,
    List.getElem?_append_right (Nat.le_refl _)]
  simp

/-- The session frame in closed form. -/
theorem prepare_prog_frame_shape (request : List Nat) (b : Buffers)
    (hlen : request.length ≤ 78) (hnul : 0 ∉ request) :
    ∃ rest,
      (prepare_prog_frame_ request b).out
        = SOH :: (([0x52, 0x31, STX] ++ request ++ [ETX])
            ++ (([0x52, 0x31, STX] ++ request ++ [ETX]).sum % 128) :: rest)
      ∧ (prepare_prog_frame_ request b).amount_out = request.length + 6 := by
  have htext : prog_frame_text request
      = (SOH :: ([0x52, 0x31, STX] ++ request ++ [ETX])) ++ [0xFF] := by
    simp [prog_frame_text, c_str_of_no_nul request hnul]
  obtain ⟨x, rest, h1, h2⟩ := snprintf_shape b.out
    (SOH :: ([0x52, 0x31, STX] ++ request ++ [ETX])) 0xFF
    (by simp [MAX_OUT_BUF_SIZE]; omega)
  refine ⟨rest, ?_, ?_⟩
  · simp only [prepare_prog_frame_]
    rw [htext, h1, h2]
    have hl : (SOH :: ([0x52, 0x31, STX] ++ request ++ [ETX])).length + 1
        = ([0x52, 0x31, STX] ++ request ++ [ETX]).length + 2 := by simp
    rw [hl]
    have := calc_crc_frame SOH ([0x52, 0x31, STX] ++ request ++ [ETX]) x rest
    rw [List.cons_append, this]
  · simp only [prepare_prog_frame_]
    rw [htext, h2]
    simp

theorem find_after_preamble (pre tail : List Nat) (v : Nat) (hv : v ∉ pre) :
    find_ (pre ++ v :: tail) (pre ++ v :: tail).length v = pre.length := by
  unfold find_
  rw [List.take_of_length_le (Nat.le_refl _), List.indexOf_append_of_not_mem hv,
    List.indexOf_cons_self]
  simp

theorem find_take (data : List Nat) (n v : Nat) :
    find_ (data.take n) n v = find_ data n v := by
  unfold find_
  rw [List.take_take, Nat.min_self]

/-- The core of `prepare_non_session_prog_frame_` on a formatted text of the form
`pre ++ SOH :: body ++ [0xFF]` whose preamble holds no SOH. -/
theorem non_session_core (buf pre body : List Nat) (hpre : SOH ∉ pre)
    (hfit : pre.length + body.length + 2 ≤ 84) :
    ∃ rest,
      (snprintf_ buf MAX_OUT_BUF_SIZE ((pre ++ SOH :: body) ++ [0xFF])).2
          = pre.length + (body.length + 2)
      ∧ List.take
          (find_ (snprintf_ buf MAX_OUT_BUF_SIZE ((pre ++ SOH :: body) ++ [0xFF])).1
            (snprintf_ buf MAX_OUT_BUF_SIZE ((pre ++ SOH :: body) ++ [0xFF])).2 SOH)
          (snprintf_ buf MAX_OUT_BUF_SIZE ((pre ++ SOH :: body) ++ [0xFF])).1
        ++ (calculate_crc_prog_frame_
            (List.drop
              (find_ (snprintf_ buf MAX_OUT_BUF_SIZE ((pre ++ SOH :: body) ++ [0xFF])).1
                (snprintf_ buf MAX_OUT_BUF_SIZE ((pre ++ SOH :: body) ++ [0xFF])).2 SOH)
              (snprintf_ buf MAX_OUT_BUF_SIZE ((pre ++ SOH :: body) ++ [0xFF])).1)
            ((snprintf_ buf MAX_OUT_BUF_SIZE ((pre ++ SOH :: body) ++ [0xFF])).2
              - find_ (snprintf_ buf MAX_OUT_BUF_SIZE ((pre ++ SOH :: body) ++ [0xFF])).1
                (snprintf_ buf MAX_OUT_BUF_SIZE ((pre ++ SOH :: body) ++ [0xFF])).2 SOH)
            true).2
        = pre ++ SOH :: (body ++ (body.sum % 128) :: rest) := by
  obtain ⟨x, rest, h1, h2⟩ := snprintf_shape buf (pre ++ SOH :: body) 0xFF
    (by simp [MAX_OUT_BUF_SIZE]; omega)
  have hlen : (pre ++ SOH :: body).length + 1 = pre.length + (body.length + 2) := by
    simp only [List.length_append, List.length_cons]
    omega
  have hfind : find_ ((pre ++ SOH :: body) ++ x :: rest)
      (pre.length + (body.length + 2)) SOH = pre.length := by
    rw [← find_take]
    have ht : List.take (pre.length + (body.length + 2)) ((pre ++ SOH :: body) ++ x :: rest)
        = pre ++ SOH :: (body ++ [x]) := by
      have e : (pre ++ SOH :: body) ++ x :: rest = (pre ++ SOH :: (body ++ [x])) ++ rest := by
        simp
      rw [e]
      exact List.take_left' (by simp [List.length_append])
    rw [ht]
    have hl2 : pre.length + (body.length + 2) = (pre ++ SOH :: (body ++ [x])).length := by
      simp [List.length_append]
    rw [hl2]
    exact find_after_preamble pre (body ++ [x]) SOH hpre
  refine ⟨rest, ?_, ?_⟩
  · rw [h2, hlen]
  · rw [h1, h2, hlen, hfind]
    have hd : List.drop pre.length ((pre ++ SOH :: body) ++ x :: rest)
        = SOH :: (body ++ x :: rest) := by
      rw [List.append_assoc, List.drop_left' rfl]; rfl
    have htk : List.take pre.length ((pre ++ SOH :: body) ++ x :: rest) = pre := by
      rw [List.append_assoc, List.take_left' rfl]
    have hl : pre.length + (body.length + 2) - pre.length = body.length + 2 := by omega
    rw [hd, htk, hl, calc_crc_frame]

/-- The non-session frame in closed form. -/
theorem prepare_non_session_shape (address request : List Nat) (b : Buffers)
    (hfit : address.length + request.length + 9 ≤ 84)
    (hsoh : SOH ∉ address) (hanul : 0 ∉ address) (hnul : 0 ∉ request) :
    ∃ rest,
      (prepare_non_session_prog_frame_ address request b).out
        = ([0x2F, 0x3F] ++ address ++ [0x21]) ++
          SOH :: (([0x52, 0x31, STX] ++ request ++ [ETX])
            ++ (([0x52, 0x31, STX] ++ request ++ [ETX]).sum % 128) :: rest)
      ∧ (prepare_non_session_prog_frame_ address request b).amount_out
          = ([0x2F, 0x3F] ++ address ++ [0x21] : List Nat).length
            + (([0x52, 0x31, STX] ++ request ++ [ETX]).length + 2) := by
  have htext : non_session_frame_text address request
      = (([0x2F, 0x3F] ++ address ++ [0x21]) ++
          SOH :: ([0x52, 0x31, STX] ++ request ++ [ETX])) ++ [0xFF] := by
    simp [non_session_frame_text, c_str_of_no_nul request hnul,
      c_str_of_no_nul address hanul]
  have hpre : SOH ∉ ([0x2F, 0x3F] ++ address ++ [0x21] : List Nat) := by
    simp [SOH]
    exact hsoh
  obtain ⟨rest, h2, hout⟩ := non_session_core b.out ([0x2F, 0x3F] ++ address ++ [0x21])
    ([0x52, 0x31, STX] ++ request ++ [ETX]) hpre
    (by simp only [List.length_append, List.length_cons, List.length_nil]; omega)
  refine ⟨rest, ?_, ?_⟩
  · simp only [prepare_non_session_prog_frame_]
    rw [htext]
    exact hout
  · simp only [prepare_non_session_prog_frame_]
    rw [htext]
    exact h2

theorem prepared_frame_of_shape (b : Buffers) (pre body rest : List Nat) (h c n : Nat)
    (hout : b.out = pre ++ h :: (body ++ c :: rest))
    (hn : b.amount_out = n) (hlen : n = pre.length + (body.length + 2)) :
    prepared_frame b = pre ++ h :: (body ++ [c]) := by
  unfold prepared_frame
  rw [hout, hn, hlen]
  have : pre ++ h :: (body ++ c :: rest) = (pre ++ h :: (body ++ [c])) ++ rest := by simp
  rw [this]
  have hl : (pre ++ h :: (body ++ [c])).length = pre.length + (body.length + 2) := by
    simp only [List.length_append, List.length_cons, List.length_nil]
  exact List.take_left' hl

theorem prog_frame_closed (request : List Nat) (b : Buffers)
    (hlen : request.length ≤ 78) (hnul : 0 ∉ request) :
    prepared_frame (prepare_prog_frame_ request b)
      = SOH :: (([0x52, 0x31, STX] ++ request ++ [ETX])
          ++ [([0x52, 0x31, STX] ++ request ++ [ETX]).sum % 128]) := by
  obtain ⟨rest, hout, hn⟩ := prepare_prog_frame_shape request b hlen hnul
  have h := prepared_frame_of_shape (prepare_prog_frame_ request b) [] _ rest SOH _ _
      (by rw [List.nil_append]; exact hout) hn
      (by simp only [List.length_append, List.length_cons, List.length_nil]; omega)
  rw [List.nil_append] at h
  exact h

/-! ## Lemmas on `get_values_from_brackets_` -/

theorem getD_append_length (pre : List Nat) (b : Nat) (rest : List Nat) :
    (pre ++ b :: rest).getD pre.length 0 = b := by
  rw [List.getD_eq_getElem?_getD, List.getElem?_append_right (Nat.le_refl _)]
  simp

theorem getD_length_nil (pre : List Nat) : (pre ++ []).getD pre.length 0 = 0 := by
  rw [List.getD_eq_getElem?_getD, List.append_nil,
    List.getElem?_eq_none (Nat.le_refl _)]
  rfl

theorem set_append_length (pre : List Nat) (b c : Nat) (rest : List Nat) :
    (pre ++ b :: rest).set pre.length c = pre ++ c :: rest := by
  rw [List.set_append]
  simp

theorem strchr_from_found (c : Nat) :
    ∀ (v rest : List Nat) (i : Nat), c ∉ v → 0 ∉ v →
      strchr_from (v ++ c :: rest) c i = some (i + v.length) := by
  intro v
  induction v with
  | nil => intro rest i _ _; simp [strchr_from]
  | cons b v ih =>
    intro rest i hc h0
    have hbc : b ≠ c := fun h => hc (by simp [h])
    have hb0 : b ≠ 0 := fun h => h0 (by simp [h])
    have hc2 : c ∉ v := fun h => hc (List.mem_cons_of_mem _ h)
    have h02 : 0 ∉ v := fun h => h0 (List.mem_cons_of_mem _ h)
    show strchr_from (b :: (v ++ c :: rest)) c i = _
    rw [strchr_from]
    simp only [hbc, hb0, if_false]
    rw [ih rest (i + 1) hc2 h02]
    simp only [List.length_cons]
    congr 1
    omega

theorem c_str_append_nul (v rest : List Nat) (h0 : 0 ∉ v) : c_str (v ++ 0 :: rest) = v := by
  unfold c_str
  induction v with
  | nil => simp
  | cons b v ih =>
    have hb0 : b ≠ 0 := fun h => h0 (by simp [h])
    have h02 : 0 ∉ v := fun h => h0 (List.mem_cons_of_mem _ h)
    simp [List.takeWhile_cons, hb0, ih h02]

theorem bracketed_length_le (vs : List (List Nat)) : vs.length ≤ (bracketed vs).length := by
  induction vs with
  | nil => simp [bracketed]
  | cons v vs ih => simp [bracketed]; omega

/-- The loop walks over name bytes one at a time. -/
theorem brackets_loop_skip (nm : List Nat) :
    ∀ (pre rest : List Nat) (fuel idx : Nat) (got : Bool) (vals : List (Option Nat)),
      (∀ b ∈ nm, b ≠ 0 ∧ b ≠ 0x28) → idx < VAL_NUM →
      brackets_loop (fuel + nm.length) (pre ++ nm ++ rest) pre.length idx got vals
        = brackets_loop fuel (pre ++ nm ++ rest) (pre.length + nm.length) idx got vals := by
  induction nm with
  | nil => intro pre rest fuel idx got vals _ _; simp
  | cons b nm ih =>
    intro pre rest fuel idx got vals hnm hidx
    have hb := hnm b (by simp)
    have hrest : ∀ x ∈ nm, x ≠ 0 ∧ x ≠ 0x28 := fun x hx => hnm x (List.mem_cons_of_mem _ hx)
    have hmem : pre ++ b :: nm ++ rest = (pre ++ [b]) ++ nm ++ rest := by simp
    have hget : (pre ++ b :: nm ++ rest).getD pre.length 0 = b := by
      rw [List.append_assoc]
      exact getD_append_length pre b (nm ++ rest)
    have hfuel : fuel + (b :: nm).length = (fuel + nm.length) + 1 := by simp; omega
    rw [hfuel, brackets_loop, hget]
    simp only [hb.1, hb.2, hidx, ne_eq, not_false_eq_true, and_self, if_true, if_false]
    rw [hmem]
    have := ih (pre ++ [b]) rest fuel idx got vals hrest hidx
    simp only [List.length_append, List.length_singleton] at this
    rw [this]
    simp only [List.length_cons]
    congr 1
    omega

/-- The loop on a run of bracket pairs, in closed form. -/
theorem brackets_loop_blocks (vs : List (List Nat)) :
    ∀ (pre : List Nat) (done : List (Option Nat)) (got : Bool) (fuel n : Nat),
      done.length + n = VAL_NUM → (bracketed vs).length ≤ fuel →
      (∀ v ∈ vs, 0 ∉ v ∧ 0x29 ∉ v) →
      brackets_loop fuel (pre ++ bracketed vs) pre.length done.length got
          (done ++ List.replicate n none)
        = (min (done.length + vs.length) VAL_NUM, pre ++ brackets_done n got vs,
            done ++ brackets_ptrs n pre.length vs ++ List.replicate (n - vs.length) none) := by
  induction vs with
  | nil =>
    intro pre done got fuel n hn _ _
    have hmin : min (done.length + ([] : List (List Nat)).length) VAL_NUM = done.length := by
      simp; omega
    have hd : brackets_done n got [] = [] := by cases n <;> rfl
    have hp : brackets_ptrs n pre.length [] = [] := by cases n <;> rfl
    rw [hmin, hd, hp]
    cases fuel with
    | zero => simp [brackets_loop, bracketed]
    | succ fuel =>
      rw [brackets_loop]
      simp only [bracketed, getD_length_nil]
      simp
  | cons v vs ih =>
    intro pre done got fuel n hn hfuel hclean
    have hv := hclean v (by simp)
    have hrest : ∀ x ∈ vs, 0 ∉ x ∧ 0x29 ∉ x := fun x hx => hclean x (List.mem_cons_of_mem _ hx)
    cases n with
    | zero =>
      have hidx : done.length = VAL_NUM := by omega
      have hmin : min (done.length + (v :: vs).length) VAL_NUM = done.length := by
        rw [hidx]; simp
      rw [hmin]
      simp only [brackets_done, brackets_ptrs]
      cases fuel with
      | zero => simp [brackets_loop]
      | succ fuel =>
        rw [brackets_loop]
        simp [hidx]
    | succ n =>
      have hidx : done.length < VAL_NUM := by omega
      have hfl : 2 ≤ fuel := by
        simp only [bracketed, List.length_cons, List.length_append] at hfuel
        omega
      obtain ⟨fuel, rfl⟩ : ∃ f, fuel = f + 1 := ⟨fuel - 1, by omega⟩
      have hget : (pre ++ bracketed (v :: vs)).getD pre.length 0 = 0x28 := by
        simp only [bracketed, List.cons_append]
        exact getD_append_length pre 0x28 _
      have hmem1 : (if got = true then pre ++ bracketed (v :: vs)
            else (pre ++ bracketed (v :: vs)).set pre.length 0)
          = (pre ++ [if got then 0x28 else 0]) ++ (v ++ 0x29 :: bracketed vs) := by
        cases got
        · simp only [bracketed, List.cons_append, Bool.false_eq_true, if_false]
          rw [set_append_length]; simp
        · simp [bracketed]
      have hstr : strchr_ ((pre ++ [if got then 0x28 else 0]) ++ (v ++ 0x29 :: bracketed vs))
          (pre.length + 1) 0x29 = some (pre.length + 1 + v.length) := by
        unfold strchr_
        rw [List.drop_left' (by simp)]
        exact strchr_from_found 0x29 v _ _ hv.2 hv.1
      have hset : ((pre ++ [if got then 0x28 else 0]) ++ (v ++ 0x29 :: bracketed vs)).set
          (pre.length + 1 + v.length) 0
          = (pre ++ (if got then 0x28 else 0) :: v ++ [0]) ++ bracketed vs := by
        have e : (pre ++ [if got then 0x28 else 0]) ++ (v ++ 0x29 :: bracketed vs)
            = (pre ++ (if got then 0x28 else 0) :: v) ++ 0x29 :: bracketed vs := by simp
        have l : pre.length + 1 + v.length = (pre ++ (if got then 0x28 else 0) :: v).length := by
          simp; omega
        rw [e, l, set_append_length]; simp
      have hvals : (done ++ List.replicate (n + 1) none).set done.length (some (pre.length + 1))
          = (done ++ [some (pre.length + 1)]) ++ List.replicate n (none : Option Nat) := by
        rw [List.set_append]
        simp [List.replicate_succ]
      have h40 : ¬ ((0x28 : Nat) = 0) := by decide
      rw [brackets_loop, hget]
      simp only [hidx, h40, ne_eq, not_false_eq_true, and_self, if_true]
      rw [hmem1, hstr]
      simp only [hidx, if_true]
      rw [hset, hvals]
      have hlen1 : pre.length + 1 + v.length + 1
          = (pre ++ (if got then 0x28 else 0) :: v ++ [0]).length := by simp; omega
      have hlen2 : done.length + 1 = (done ++ [some (pre.length + 1)]).length := by simp
      rw [hlen1, hlen2]
      rw [ih (pre ++ (if got then 0x28 else 0) :: v ++ [0]) (done ++ [some (pre.length + 1)]) true
        fuel n (by simp; omega)
        (by simp only [bracketed, List.length_cons, List.length_append] at hfuel; omega) hrest]
      simp only [brackets_done, brackets_ptrs, List.length_append, List.length_cons,
        List.length_nil, List.append_assoc, List.cons_append, List.nil_append,
        List.singleton_append]
      refine Prod.ext ?_ (Prod.ext ?_ ?_)
      · simp only; omega
      · simp
      · simp only
        congr 2
        congr 2
        omega

theorem brackets_ptrs_str (vs : List (List Nat)) :
    ∀ (pre : List Nat) (n : Nat) (got : Bool), (∀ v ∈ vs, 0 ∉ v ∧ 0x29 ∉ v) →
      (brackets_ptrs n pre.length vs).map (slot_str (pre ++ brackets_done n got vs))
        = vs.take n := by
  induction vs with
  | nil => intro pre n got _; cases n <;> simp [brackets_ptrs]
  | cons v vs ih =>
    intro pre n got hclean
    have hv := hclean v (by simp)
    have hrest : ∀ x ∈ vs, 0 ∉ x ∧ 0x29 ∉ x := fun x hx => hclean x (List.mem_cons_of_mem _ hx)
    cases n with
    | zero => simp [brackets_ptrs]
    | succ n =>
      simp only [brackets_ptrs, brackets_done, List.map_cons, List.take_succ_cons]
      have h1 : slot_str (pre ++ ((if got then 0x28 else 0) :: v ++ 0 :: brackets_done n true vs))
          (some (pre.length + 1)) = v := by
        simp only [slot_str]
        have e : pre ++ ((if got then 0x28 else 0) :: v ++ 0 :: brackets_done n true vs)
            = (pre ++ [if got then 0x28 else 0]) ++ (v ++ 0 :: brackets_done n true vs) := by
          simp
        rw [e, List.drop_left' (by simp)]
        exact c_str_append_nul v _ hv.1
      have e2 : pre ++ ((if got then 0x28 else 0) :: v ++ 0 :: brackets_done n true vs)
          = (pre ++ (if got then 0x28 else 0) :: v ++ [0]) ++ brackets_done n true vs := by simp
      have l2 : pre.length + v.length + 2 = (pre ++ (if got then 0x28 else 0) :: v ++ [0]).length := by
        simp; omega
      rw [h1, e2, l2, ih _ n true hrest]

/-! ## Lemmas on `get_nth_value_from_csv_` -/

theorem token_end_found (d : Nat) :
    ∀ (f rest : List Nat) (i : Nat), d ∉ f → 0 ∉ f →
      (rest = [] ∨ ∃ r, rest = d :: r) →
      token_end (f ++ rest) d i = i + f.length := by
  intro f
  induction f with
  | nil =>
    intro rest i _ _ hr
    rcases hr with rfl | ⟨r, rfl⟩ <;> simp [token_end]
  | cons b f ih =>
    intro rest i hd h0 hr
    have hbd : b ≠ d := fun h => hd (by simp [h])
    have hb0 : b ≠ 0 := fun h => h0 (by simp [h])
    have hd2 : d ∉ f := fun h => hd (List.mem_cons_of_mem _ h)
    have h02 : 0 ∉ f := fun h => h0 (List.mem_cons_of_mem _ h)
    show token_end (b :: (f ++ rest)) d i = _
    rw [token_end]
    simp only [hbd, hb0, or_self, if_false]
    rw [ih rest (i + 1) hd2 h02 hr]
    simp only [List.length_cons]
    omega

theorem comma_joined_length (f : List Nat) (fs : List (List Nat)) :
    fs.length ≤ (comma_joined (f :: fs)).length := by
  induction fs generalizing f with
  | nil => simp
  | cons g gs ih =>
    have := ih g
    simp only [comma_joined, List.length_append, List.length_cons] at this ⊢
    omega

/-- The first two phases of `strtok` on a non-empty comma-free token `g` that is
followed by `t`, which is empty or starts with a comma. -/
theorem strtok_scan (pre g t : List Nat) (hne : g ≠ []) (h0 : 0 ∉ g) (hc : 0x2C ∉ g)
    (ht : t = [] ∨ ∃ r, t = 0x2C :: r) :
    skip_delims (List.drop pre.length (pre ++ (g ++ t))) 0x2C pre.length = pre.length
    ∧ (pre ++ (g ++ t)).getD pre.length 0 ≠ 0
    ∧ token_end (List.drop pre.length (pre ++ (g ++ t))) 0x2C pre.length
        = (pre ++ g).length := by
  obtain ⟨b, g', rfl⟩ := List.exists_cons_of_ne_nil hne
  have hbd : b ≠ 0x2C := fun h => hc (by simp [h])
  have hb0 : b ≠ 0 := fun h => h0 (by simp [h])
  rw [List.drop_left' rfl]
  refine ⟨?_, ?_, ?_⟩
  · show skip_delims (b :: _) 0x2C pre.length = _
    rw [skip_delims]
    simp [hbd]
  · have : (pre ++ b :: (g' ++ t)).getD pre.length 0 = b := getD_append_length pre b _
    rw [List.cons_append, this]
    exact hb0
  · rw [token_end_found 0x2C (b :: g') t _ hc h0 ht]
    simp

theorem strtok_last (pre g : List Nat) (hne : g ≠ []) (h0 : 0 ∉ g) (hc : 0x2C ∉ g) :
    strtok_ (pre ++ g) pre.length 0x2C = (some pre.length, pre ++ g, (pre ++ g).length) := by
  obtain ⟨h1, h2, h3⟩ := strtok_scan pre g [] hne h0 hc (Or.inl rfl)
  rw [List.append_nil] at h1 h2 h3
  unfold strtok_
  simp only [h1, h2, h3, if_false]
  have hg : (pre ++ g).getD (pre ++ g).length 0 = 0 := by
    have := getD_length_nil (pre ++ g)
    rwa [List.append_nil] at this
  simp only [hg, if_true]

theorem strtok_more (pre g r : List Nat) (hne : g ≠ []) (h0 : 0 ∉ g) (hc : 0x2C ∉ g) :
    strtok_ (pre ++ (g ++ 0x2C :: r)) pre.length 0x2C
      = (some pre.length, (pre ++ g) ++ 0 :: r, (pre ++ g).length + 1) := by
  obtain ⟨h1, h2, h3⟩ := strtok_scan pre g (0x2C :: r) hne h0 hc (Or.inr ⟨r, rfl⟩)
  unfold strtok_
  simp only [h1, h2, h3, if_false]
  have e : pre ++ (g ++ 0x2C :: r) = (pre ++ g) ++ 0x2C :: r := by simp
  have hg : ((pre ++ g) ++ 0x2C :: r).getD (pre ++ g).length 0 = 0x2C :=
    getD_append_length _ _ _
  have h44 : ¬ ((0x2C : Nat) = 0) := by decide
  rw [e, hg]
  simp only [h44, if_false, set_append_length]

/-- One call of `strtok` at the start of a non-empty comma-free field. -/
theorem strtok_field (pre g : List Nat) (gs : List (List Nat))
    (hne : g ≠ []) (h0 : 0 ∉ g) (hc : 0x2C ∉ g) :
    strtok_ (pre ++ comma_joined (g :: gs)) pre.length 0x2C
      = (some pre.length, pre ++ g ++ csv_tail gs, csv_save pre g gs) := by
  cases gs with
  | nil =>
    simp only [comma_joined, csv_tail, csv_save, List.append_nil]
    rw [strtok_last pre g hne h0 hc, List.length_append]
  | cons h hs =>
    simp only [comma_joined, csv_tail, csv_save]
    rw [strtok_more pre g _ hne h0 hc, List.length_append]

theorem strtok_at_end (mem : List Nat) (d : Nat) :
    strtok_ mem mem.length d = (none, mem, mem.length) := by
  unfold strtok_
  have hd : mem.drop mem.length = [] := List.drop_eq_nil_of_le (Nat.le_refl _)
  have hg : mem.getD mem.length 0 = 0 := by
    have := getD_length_nil mem
    rwa [List.append_nil] at this
  simp [hd, skip_delims, hg]

/-- The loop of `get_nth_value_from_csv_` from the moment `strtok` has returned
the token `f`: it ends on the `idx`-th field counted from `f`. -/
theorem csv_loop_fields (fs : List (List Nat)) :
    ∀ (f pre : List Nat) (idx fuel : Nat),
      0 ∉ f → (∀ g ∈ fs, g ≠ [] ∧ 0 ∉ g ∧ 0x2C ∉ g) →
      1 ≤ idx → idx < 256 → fs.length + 1 ≤ fuel →
      csv_str (csv_loop fuel (pre ++ f ++ csv_tail fs) (some pre.length)
          (csv_save pre f fs) idx)
        = (f :: fs)[idx - 1]? := by
  induction fs with
  | nil =>
    intro f pre idx fuel h0 _ h1 _ hfuel
    obtain ⟨fuel, rfl⟩ : ∃ k, fuel = k + 1 := ⟨fuel - 1, by simp at hfuel; omega⟩
    rw [csv_loop]
    by_cases hidx : idx = 1
    · subst hidx
      simp [csv_str, csv_tail, c_str_of_no_nul f h0]
    · simp only [hidx, if_false, csv_tail, csv_save, List.append_nil]
      have hs := strtok_at_end (pre ++ f) 0x2C
      simp only [List.length_append] at hs
      rw [hs]
      have hnone : ∀ k m s i, csv_loop k m none s i = (none, m) := by
        intro k m s i; cases k <;> rfl
      rw [hnone]
      have : idx - 1 ≠ 0 := by omega
      obtain ⟨j, hj⟩ : ∃ j, idx - 1 = j + 1 := ⟨idx - 2, by omega⟩
      simp [csv_str, hj]
  | cons g gs ih =>
    intro f pre idx fuel h0 hclean h1 h256 hfuel
    have hg := hclean g (by simp)
    have hrest : ∀ x ∈ gs, x ≠ [] ∧ 0 ∉ x ∧ 0x2C ∉ x :=
      fun x hx => hclean x (List.mem_cons_of_mem _ hx)
    obtain ⟨fuel, rfl⟩ : ∃ k, fuel = k + 1 := ⟨fuel - 1, by simp at hfuel; omega⟩
    rw [csv_loop]
    by_cases hidx : idx = 1
    · subst hidx
      simp only [if_true, csv_str, Option.map_some', csv_tail]
      rw [List.append_assoc, List.drop_left' rfl, c_str_append_nul f _ h0]
      rfl
    · simp only [hidx, if_false]
      have e : pre ++ f ++ csv_tail (g :: gs) = (pre ++ f ++ [0]) ++ comma_joined (g :: gs) := by
        simp [csv_tail]
      have l : csv_save pre f (g :: gs) = (pre ++ f ++ [0]).length := by
        simp only [csv_save, List.length_append, List.length_singleton]
      rw [e, l, strtok_field (pre ++ f ++ [0]) g gs hg.1 hg.2.1 hg.2.2]
      simp only
      have hdec : (idx + 255) % 256 = idx - 1 := by omega
      rw [hdec, ih g (pre ++ f ++ [0]) (idx - 1) fuel hg.2.1 hrest (by omega) (by omega)
        (by simp at hfuel; omega)]
      obtain ⟨j, hj⟩ : ∃ j, idx - 1 = j + 1 := ⟨idx - 2, by omega⟩
      rw [hj]
      simp

/-! ## Lemmas on the session state machine -/

theorem assign_sensors_keys (f : List Nat → Nat) (req line : List Nat)
    (vals : List (Option Nat)) (sensors : List (List Nat × Sensor)) :
    (assign_sensors f req line vals sensors).map Prod.fst = sensors.map Prod.fst := by
  unfold assign_sensors
  rw [List.map_map]
  apply List.map_congr_left
  intro a _
  simp only [Function.comp]
  split <;> rfl

theorem assign_sensors_length (f : List Nat → Nat) (req line : List Nat)
    (vals : List (Option Nat)) (sensors : List (List Nat × Sensor)) :
    (assign_sensors f req line vals sensors).length = sensors.length := by
  simp [assign_sensors]

theorem ub_keys_le (ks : List (List Nat)) (k : List Nat) : ub_keys ks k ≤ ks.length :=
  List.findIdx_le_length _

theorem upper_bound_eq (sensors : List (List Nat × Sensor)) (k : List Nat) :
    upper_bound sensors k = ub_keys (sensors.map Prod.fst) k := by
  unfold upper_bound ub_keys
  induction sensors with
  | nil => rfl
  | cons a l ih => simp [List.findIdx_cons, ih]

theorem stepok_WAIT (e : Env) (m : Machine) (hs : m.state_ = State.WAIT) (hi : SessionInv m) :
    StepOK m (step_WAIT e m) := by
  right
  simp only [SessionInv, hs] at hi
  obtain ⟨hle, hn⟩ := hi
  unfold step_WAIT
  split
  · rcases hn with h | h | h | ⟨h, h2⟩ <;>
      simp [SessionInv, Expect, Target, enq, keys, update_last_rx_time_, set_next_state_, hs, h, hle]
  · simp [SessionInv, Expect, Target, enq, keys, hs, hle, hn]

theorem stepok_OPEN_SESSION (e : Env) (m : Machine) (hs : m.state_ = State.OPEN_SESSION) :
    StepOK m (step_OPEN_SESSION e m) := by
  right
  simp [step_OPEN_SESSION, SessionInv, Expect, Target, enq, keys, read_reply_and_go_next_state_,
    set_next_state_, send_frame_, send_frame_prepared_, clear_rx_buffers_, hs]
  split <;> simp

theorem stepok_SET_BAUD (e : Env) (m : Machine) (hs : m.state_ = State.SET_BAUD)
    (hi : SessionInv m) : StepOK m (step_SET_BAUD e m) := by
  right
  simp only [SessionInv, hs] at hi
  simp [step_SET_BAUD, SessionInv, Expect, Target, enq, keys, set_next_state_delayed_,
    update_last_rx_time_, hs, hi]

theorem stepok_CLOSE_SESSION (m : Machine) (hs : m.state_ = State.CLOSE_SESSION)
    (hi : SessionInv m) : StepOK m (step_CLOSE_SESSION m) := by
  right
  simp only [SessionInv, hs] at hi
  simp [step_CLOSE_SESSION, SessionInv, Expect, Target, enq, keys, set_next_state_, send_frame_,
    send_frame_prepared_, hs, hi]

theorem stepok_PUBLISH (e : Env) (m : Machine) (hs : m.state_ = State.PUBLISH)
    (hi : SessionInv m) : StepOK m (step_PUBLISH e m) := by
  simp only [SessionInv, hs] at hi
  unfold step_PUBLISH
  simp only []
  split
  · right
    simp [SessionInv, Expect, Target, enq, keys, update_last_rx_time_, hs, hi]
  · left
    simp [set_next_state_]

theorem stepok_ACK_START_GET_INFO (m : Machine) (hs : m.state_ = State.ACK_START_GET_INFO)
    (hi : SessionInv m) : StepOK m (step_ACK_START_GET_INFO m) := by
  simp only [SessionInv, hs] at hi
  unfold step_ACK_START_GET_INFO
  split
  · left
    simp [abort_mission_, report_failure, set_next_state_]
    split <;> simp
  · simp only []
    split
    · left
      simp [abort_mission_, report_failure, set_next_state_]
      split <;> simp
    · right
      simp [SessionInv, Expect, Target, enq, keys, set_next_state_, parse_in_param, hs, hi]

theorem key_at_eq (sensors : List (List Nat × Sensor)) (i : Nat) :
    key_at sensors i = key_of (sensors.map Prod.fst) i := rfl

theorem upper_bound_key_at (sensors : List (List Nat × Sensor)) (i : Nat) :
    upper_bound sensors (key_at sensors i) = cursor_next (sensors.map Prod.fst) i := by
  rw [upper_bound_eq, key_at_eq]; rfl

theorem cursor_next_le (sensors : List (List Nat × Sensor)) (i : Nat) :
    cursor_next (sensors.map Prod.fst) i ≤ sensors.length := by
  have := ub_keys_le (sensors.map Prod.fst) (key_of (sensors.map Prod.fst) i)
  simpa [cursor_next] using this

theorem visits_done (sensors : List (List Nat × Sensor)) (i : Nat) (h : i = sensors.length) :
    Visits (sensors.map Prod.fst) i [] := by
  have := @Visits.done (sensors.map Prod.fst)
  rw [List.length_map] at this
  rw [h]; exact this

theorem visits_step (sensors : List (List Nat × Sensor)) (i : Nat) (L : List (List Nat))
    (h : i < sensors.length) (hL : Visits (sensors.map Prod.fst) (cursor_next (sensors.map Prod.fst) i) L) :
    Visits (sensors.map Prod.fst) i (key_of (sensors.map Prod.fst) i :: L) :=
  Visits.step i L (by rw [List.length_map]; exact h) hL

theorem stepok_DATA_ENQ (m : Machine) (hs : m.state_ = State.DATA_ENQ)
    (hi : SessionInv m) : StepOK m (step_DATA_ENQ m) := by
  right
  simp only [SessionInv, hs] at hi
  unfold step_DATA_ENQ
  split
  · rename_i h
    simp [SessionInv, Expect, Target, enq, keys, set_next_state_, hs, hi, h]
    exact visits_done _ _ rfl
  · rename_i h
    have hlt : m.request_iter < m.sensors_.length := by omega
    simp [SessionInv, Expect, Target, enq, keys, read_reply_and_go_next_state_,
      send_frame_prepared_, hs, hi, h, hlt, key_at_eq]
    intro L hL
    exact visits_step _ _ L hlt hL

theorem stepok_DATA_RECV (f : List Nat → Nat) (e : Env) (m : Machine)
    (hs : m.state_ = State.DATA_RECV) (hi : SessionInv m) :
    StepOK m (step_DATA_RECV f e m) := by
  right
  simp only [SessionInv, hs] at hi
  unfold step_DATA_RECV
  simp only []
  split
  · simp [SessionInv, Expect, Target, enq, keys, set_next_state_, clear_rx_buffers_,
      update_last_rx_time_, hs, hi]
  · split
    · simp [SessionInv, Expect, Target, enq, keys, set_next_state_, hs, hi]
    · split
      · simp [SessionInv, Expect, Target, enq, keys, set_next_state_, parse_in_param, hs, hi]
      · split
        · simp [SessionInv, Expect, Target, enq, keys, set_next_state_, parse_in_param, hs, hi]
        · split
          · simp [SessionInv, Expect, Target, enq, keys, set_next_state_, parse_in_param, hs, hi]
          · simp [SessionInv, Expect, Target, enq, keys, set_next_state_, parse_in_param, hs, hi,
              assign_sensors_keys, assign_sensors_length]

theorem stepok_DATA_NEXT (e : Env) (m : Machine)
    (hs : m.state_ = State.DATA_NEXT) :
    StepOK m (step_DATA_NEXT e m) := by
  right
  have hub := cursor_next_le m.sensors_ m.request_iter
  unfold step_DATA_NEXT
  simp only [upper_bound_key_at]
  split
  · rename_i h
    unfold set_next_state_delayed_
    split <;>
      simp [SessionInv, Expect, Target, enq, keys, set_next_state_, hs, hub]
  · rename_i h
    simp only [ne_eq, not_not] at h
    unfold set_next_state_delayed_
    split
    · simp [SessionInv, Expect, Target, enq, keys, set_next_state_, hs, h]
      exact visits_done _ _ rfl
    · simp [SessionInv, Expect, Target, enq, keys, set_next_state_, hs, h]
      exact visits_done _ _ rfl

theorem abort_mission_state (m : Machine) : (abort_mission_ m).state_ = State.IDLE := by
  simp [abort_mission_, report_failure, set_next_state_]
  split <;> simp

theorem stepok_OPEN_SESSION_GET_ID (e : Env) (m : Machine)
    (hs : m.state_ = State.OPEN_SESSION_GET_ID) (hi : SessionInv m) :
    StepOK m (step_OPEN_SESSION_GET_ID e m) := by
  simp only [SessionInv, hs] at hi
  unfold step_OPEN_SESSION_GET_ID
  split
  · simp only []
    split
    · left
      exact abort_mission_state _
    · right
      split
      · simp [SessionInv, Expect, Target, enq, keys, set_next_state_delayed_,
          send_frame_prepared_, update_last_rx_time_, hs, hi]
      · simp [SessionInv, Expect, Target, enq, keys, read_reply_and_go_next_state_,
          send_frame_, send_frame_prepared_, update_last_rx_time_, hs, hi]
  · right
    simp [SessionInv, Expect, Target, enq, keys, hs, hi]

theorem SameCtl.refl (m : Machine) : SameCtl m m := by
  constructor <;> rfl

theorem SameCtl.trans {a b c : Machine} (h1 : SameCtl a b) (h2 : SameCtl b c) : SameCtl a c := by
  constructor
  · rw [h2.state_, h1.state_]
  · rw [h2.sensors_, h1.sensors_]
  · rw [h2.request_iter, h1.request_iter]
  · rw [h2.read_fn, h1.read_fn]
  · rw [h2.next_state, h1.next_state]
  · rw [h2.mission_critical, h1.mission_critical]
  · rw [h2.check_crc, h1.check_crc]
  · rw [h2.tries_max, h1.tries_max]
  · rw [h2.tries_counter, h1.tries_counter]
  · rw [h2.uart_tx, h1.uart_tx]
  · rw [h2.out, h1.out]
  · rw [h2.amount_out, h1.amount_out]
  · rw [h2.failures_, h1.failures_]
  · rw [h2.failures_before_reboot_, h1.failures_before_reboot_]
  · rw [h2.reboots, h1.reboots]
  · rw [h2.receive_timeout_ms_, h1.receive_timeout_ms_]

theorem store_byte_out (b : Nat) (bf : Buffers) :
    (store_byte b bf).out = bf.out ∧ (store_byte b bf).amount_out = bf.amount_out := by
  unfold store_byte
  split <;> exact ⟨rfl, rfl⟩

theorem receive_loop_out (stop_fn : List Nat → Nat → Bool) :
    ∀ (n : Nat) (fifo : List Nat) (bf : Buffers),
      (receive_loop stop_fn n fifo bf).2.2.out = bf.out
      ∧ (receive_loop stop_fn n fifo bf).2.2.amount_out = bf.amount_out := by
  intro n
  induction n with
  | zero => intro fifo bf; exact ⟨rfl, rfl⟩
  | succ n ih =>
    intro fifo bf
    cases fifo with
    | nil => exact ⟨rfl, rfl⟩
    | cons b fifo =>
      rw [receive_loop]
      split
      · exact store_byte_out b bf
      · have h1 := ih fifo (store_byte b bf)
        have h2 := store_byte_out b bf
        exact ⟨h1.1.trans h2.1, h1.2.trans h2.2⟩

theorem receive_frame_same (stop_fn : List Nat → Nat → Bool) (e : Env) (m : Machine) :
    SameCtl m (receive_frame_ stop_fn e m).2 := by
  have h := receive_loop_out stop_fn (min m.uart_rx.length e.read_limit) m.uart_rx m.buffers_
  exact ⟨rfl, rfl, rfl, rfl, rfl, rfl, rfl, rfl, rfl, rfl, h.1, h.2, rfl, rfl, rfl, rfl⟩

theorem call_read_fn_same (e : Env) (m : Machine) : SameCtl m (call_read_fn e m).2 := by
  unfold call_read_fn
  split
  · exact SameCtl.refl m
  · exact receive_frame_same _ e m
  · exact receive_frame_same _ e m

theorem waiting_read_same (e : Env) (m : Machine) : SameCtl m (waiting_read e m) := by
  have h := call_read_fn_same e m
  exact ⟨h.state_, h.sensors_, h.request_iter, h.read_fn, h.next_state, h.mission_critical,
    h.check_crc, h.tries_max, h.tries_counter, h.uart_tx, h.out, h.amount_out, h.failures_,
    h.failures_before_reboot_, h.reboots, h.receive_timeout_ms_⟩

theorem waiting_count_error_same (m : Machine) : SameCtl m (waiting_count_error m) := by
  unfold waiting_count_error
  split
  · constructor <;> rfl
  · split <;> constructor <;> rfl

theorem waiting_clear_same (m : Machine) : SameCtl m (waiting_clear m) := by
  unfold waiting_clear clear_rx_buffers_
  split <;> constructor <;> rfl

theorem waiting_count_error_size (m : Machine) :
    (waiting_count_error m).received_frame_size_ = m.received_frame_size_ := by
  unfold waiting_count_error
  split
  · rfl
  · split <;> rfl

theorem stepok_WAITING (e : Env) (m : Machine)
    (hs : m.state_ = State.WAITING_FOR_RESPONSE) (hi : SessionInv m) :
    StepOK m (step_WAITING_FOR_RESPONSE e m) := by
  simp only [SessionInv, hs] at hi
  obtain ⟨hle, hn⟩ := hi
  have r := waiting_read_same e m
  have r' := (r.trans (waiting_count_error_same _)).trans
    (waiting_clear_same (waiting_count_error (waiting_read e m)))
  unfold step_WAITING_FOR_RESPONSE
  simp only []
  split
  · right
    rcases hn with h | h | ⟨h, h2, h3⟩ <;>
      simp [waiting_success, SessionInv, Expect, Target, enq, keys, update_last_rx_time_,
        set_next_state_, hs, r.state_, r.sensors_, r.request_iter, r.next_state, h, hle]
    · exact h3
  · split
    · right
      rcases hn with h | h | ⟨h, h2, h3⟩ <;>
        simp [SessionInv, Expect, Target, enq, keys, hs, r.state_, r.sensors_, r.request_iter,
          r.next_state, r.mission_critical, h, hle]
      · exact ⟨h2, h3⟩
    · unfold waiting_failure
      split
      · left
        exact abort_mission_state _
      · right
        split
        · rcases hn with h | h | ⟨h, h2, h3⟩ <;>
            simp [SessionInv, Expect, Target, enq, keys, update_last_rx_time_,
              send_frame_prepared_, hs, r'.state_, r'.sensors_, r'.request_iter,
              r'.next_state, r'.mission_critical, h, hle]
          · exact ⟨h2, h3⟩
        · rcases hn with h | h | ⟨h, h2, h3⟩ <;>
            simp [SessionInv, Expect, Target, enq, keys, set_next_state_,
              hs, r'.state_, r'.sensors_, r'.request_iter,
              r'.next_state, r'.mission_critical, h, hle]
          · exact h3

theorem uart_arrive_same (e : Env) (m : Machine) : SameCtl m (uart_arrive e m) := by
  constructor <;> rfl

theorem stepok_loop (f : List Nat → Nat) (e : Env) (m : Machine) (hi : SessionInv m) :
    StepOK m (loop f e m) := by
  have h0 : SessionInv (uart_arrive e m) := by
    simpa [SessionInv, uart_arrive] using hi
  have key : ∀ m', StepOK (uart_arrive e m) m' → StepOK m m' := by
    intro m' h
    simpa [StepOK, Expect, Target, enq, keys, uart_arrive] using h
  apply key
  unfold loop
  simp only []
  split
  all_goals rename_i hs
  · simp [SessionInv, hs] at h0
  · simp [SessionInv, hs] at h0
  · exact stepok_WAIT e _ hs h0
  · exact stepok_WAITING e _ hs h0
  · exact stepok_OPEN_SESSION e _ hs
  · exact stepok_OPEN_SESSION_GET_ID e _ hs h0
  · exact stepok_SET_BAUD e _ hs h0
  · exact stepok_ACK_START_GET_INFO _ hs h0
  · exact stepok_DATA_ENQ _ hs h0
  · exact stepok_DATA_RECV f e _ hs h0
  · exact stepok_DATA_NEXT e _ hs
  · exact stepok_CLOSE_SESSION _ hs h0
  · exact stepok_PUBLISH e _ hs h0
  · simp [SessionInv, hs] at h0
  · simp [SessionInv, hs] at h0

theorem session_visits (f : List Nat → Nat) :
    ∀ (envs : List Env) (m : Machine), SessionInv m → NotAborted f envs m = true →
      (run f envs m).state_ = State.CLOSE_SESSION → Expect m (enquired f envs m) := by
  intro envs
  induction envs with
  | nil =>
    intro m _ _ hfin
    simp only [run] at hfin
    simp [Expect, Target, enquired, hfin]
  | cons e es ih =>
    intro m hi hna hfin
    simp only [NotAborted, Bool.and_eq_true, decide_eq_true_eq] at hna
    simp only [run] at hfin
    rcases stepok_loop f e m hi with hidle | ⟨hi', _, hexp⟩
    · exfalso
      cases es with
      | nil =>
        simp only [run] at hfin
        rw [hidle] at hfin
        exact State.noConfusion hfin
      | cons e2 es2 =>
        simp only [NotAborted, Bool.and_eq_true, decide_eq_true_eq] at hna
        exact hna.2.1 hidle
    · simp only [enquired]
      exact hexp _ (ih _ hi' hna.2 hfin)

theorem str_lt_irrefl (a : List Nat) : str_lt a a = false := by
  induction a with
  | nil => rfl
  | cons x a ih => simp [str_lt, ih]

theorem str_lt_trans : ∀ (a b c : List Nat), str_lt a b = true → str_lt b c = true →
    str_lt a c = true := by
  intro a
  induction a with
  | nil =>
    intro b c h1 h2
    cases b with
    | nil => simp [str_lt] at h1
    | cons y b =>
      cases c with
      | nil => simp [str_lt] at h2
      | cons z c => simp [str_lt]
  | cons x a ih =>
    intro b c h1 h2
    cases b with
    | nil => simp [str_lt] at h1
    | cons y b =>
      cases c with
      | nil => simp [str_lt] at h2
      | cons z c =>
        simp only [str_lt, Bool.or_eq_true, decide_eq_true_eq, Bool.and_eq_true,
          beq_iff_eq] at h1 h2 ⊢
        rcases h1 with h1 | ⟨h1, h1'⟩
        · rcases h2 with h2 | ⟨h2, _⟩
          · left; omega
          · left; omega
        · rcases h2 with h2 | ⟨h2, h2'⟩
          · left; omega
          · right; exact ⟨by omega, ih b c h1' h2'⟩

theorem str_lt_total : ∀ (a b : List Nat), a ≠ b → str_lt a b = true ∨ str_lt b a = true := by
  intro a
  induction a with
  | nil =>
    intro b h
    cases b with
    | nil => exact absurd rfl h
    | cons y b => left; rfl
  | cons x a ih =>
    intro b h
    cases b with
    | nil => right; rfl
    | cons y b =>
      simp only [str_lt, Bool.or_eq_true, decide_eq_true_eq, Bool.and_eq_true, beq_iff_eq]
      rcases Nat.lt_trichotomy x y with hxy | hxy | hxy
      · left; left; exact hxy
      · have hab : a ≠ b := fun hab => h (by rw [hxy, hab])
        rcases ih b hab with h1 | h1
        · left; right; exact ⟨hxy, h1⟩
        · right; right; exact ⟨hxy.symm, h1⟩
      · right; left; exact hxy

theorem key_of_eq (ks : List (List Nat)) (i : Nat) (h : i < ks.length) : key_of ks i = ks[i] :=
  List.getD_eq_getElem ks [] h

theorem cursor_next_gt (ks : List (List Nat)) (hs : KeysSorted ks) (i : Nat)
    (hi : i < ks.length) : i < cursor_next ks i := by
  unfold cursor_next ub_keys
  apply List.lt_findIdx_of_not hi
  intro j hji
  rw [key_of_eq ks i hi]
  simp only [List.get_eq_getElem, Bool.not_eq_true]
  rcases Nat.lt_or_ge j i with hlt | hge
  · exact (List.pairwise_iff_getElem.mp hs) j i (by omega) hi hlt
  · have : j = i := by omega
    subst this
    exact str_lt_irrefl _

theorem cursor_next_run (ks : List (List Nat)) (hs : KeysSorted ks) (i j : Nat)
    (hi : i < ks.length) (hij : i ≤ j) (hj : j < cursor_next ks i) :
    key_of ks j = key_of ks i := by
  have hjl : j < ks.length := Nat.lt_of_lt_of_le hj (ub_keys_le ks _)
  have h1 : str_lt (key_of ks i) ks[j] = false := List.not_of_lt_findIdx hj
  rw [key_of_eq ks j hjl, key_of_eq ks i hi] at *
  rcases Nat.lt_or_ge i j with hlt | hge
  · have h2 := (List.pairwise_iff_getElem.mp hs) i j hi hjl hlt
    by_contra hne
    rcases str_lt_total _ _ hne with h | h
    · rw [h2] at h; exact Bool.noConfusion h
    · rw [h1] at h; exact Bool.noConfusion h
  · have : j = i := by omega
    subst this
    rfl

theorem cursor_next_above (ks : List (List Nat)) (hs : KeysSorted ks) (i j : Nat)
    (hnj : cursor_next ks i ≤ j) (hj : j < ks.length) :
    str_lt (key_of ks i) (key_of ks j) = true := by
  have hn : cursor_next ks i < ks.length := by omega
  have h1 : str_lt (key_of ks i) ks[cursor_next ks i] = true :=
    @List.findIdx_getElem _ _ _ hn
  rw [key_of_eq ks j hj]
  rcases Nat.lt_or_ge (cursor_next ks i) j with hlt | hge
  · have h2 := (List.pairwise_iff_getElem.mp hs) (cursor_next ks i) j hn hj hlt
    by_cases heq : key_of ks i = ks[j]
    · rw [← heq, h1] at h2; exact Bool.noConfusion h2
    · rcases str_lt_total _ _ heq with h | h
      · exact h
      · have := str_lt_trans _ _ _ h h1
        rw [h2] at this; exact Bool.noConfusion this
  · have : j = cursor_next ks i := by omega
    subst this
    exact h1

/-- On a sorted key sequence the cursor visits, from position `i`, the distinct
keys stored at positions `i` and beyond, in strictly ascending order. -/
theorem visits_sorted (ks : List (List Nat)) (hs : KeysSorted ks) :
    ∀ (i : Nat) (L : List (List Nat)), Visits ks i L →
      L.Pairwise (fun a b => str_lt a b = true)
      ∧ ∀ x, x ∈ L ↔ ∃ j, i ≤ j ∧ j < ks.length ∧ key_of ks j = x := by
  intro i L hv
  induction hv with
  | done =>
    refine ⟨List.Pairwise.nil, ?_⟩
    intro x
    constructor
    · intro h; cases h
    · rintro ⟨j, h1, h2, _⟩; omega
  | step i L hi _ ih =>
    obtain ⟨ihp, ihm⟩ := ih
    have hgt := cursor_next_gt ks hs i hi
    refine ⟨List.Pairwise.cons ?_ ihp, ?_⟩
    · intro x hx
      obtain ⟨j, h1, h2, h3⟩ := (ihm x).mp hx
      rw [← h3]
      exact cursor_next_above ks hs i j h1 h2
    · intro x
      rw [List.mem_cons, ihm x]
      constructor
      · rintro (h | ⟨j, h1, h2, h3⟩)
        · exact ⟨i, Nat.le_refl _, hi, h.symm⟩
        · exact ⟨j, by omega, h2, h3⟩
      · rintro ⟨j, h1, h2, h3⟩
        rcases Nat.lt_or_ge j (cursor_next ks i) with hlt | hge
        · left
          rw [← h3]
          exact cursor_next_run ks hs i j hi h1 hlt
        · right
          exact ⟨j, hge, h2, h3⟩

/-! ## Lemmas on `WAITING_FOR_RESPONSE` -/

theorem loop_waiting (f : List Nat → Nat) (e : Env) (m : Machine)
    (hs : m.state_ = State.WAITING_FOR_RESPONSE) :
    loop f e m = step_WAITING_FOR_RESPONSE e (uart_arrive e m) := by
  have : (uart_arrive e m).state_ = State.WAITING_FOR_RESPONSE := hs
  simp [loop, this]

theorem poll_same (e : Env) (m : Machine) : SameCtl m (poll e m) :=
  (uart_arrive_same e m).trans (waiting_read_same e (uart_arrive e m))

theorem crc_is_ok_of_size_zero (m : Machine) (h : m.received_frame_size_ = 0) :
    crc_is_ok m = true := by
  simp [crc_is_ok, h]

/-- A pending poll leaves the component as the read left it. -/
theorem loop_waiting_pending (f : List Nat → Nat) (e : Env) (m : Machine)
    (hs : m.state_ = State.WAITING_FOR_RESPONSE) (hp : reply_pending e m = true) :
    loop f e m = poll e m := by
  simp only [reply_pending, Bool.and_eq_true, decide_eq_true_eq, Bool.not_eq_true'] at hp
  rw [loop_waiting f e m hs]
  unfold step_WAITING_FOR_RESPONSE
  have hz : (waiting_read e (uart_arrive e m)).received_frame_size_
      = 0 := hp.1
  have hto : check_rx_timeout_ e (waiting_read e (uart_arrive e m))
      = false := hp.2
  simp only [hz, crc_is_ok_of_size_zero _ hz, hto, Nat.lt_irrefl, false_and, if_false,
    and_self, if_true]
  rfl

/-- A failed poll runs the failure handling. -/
theorem loop_waiting_failed (f : List Nat → Nat) (e : Env) (m : Machine)
    (hs : m.state_ = State.WAITING_FOR_RESPONSE)
    (hf : (reply_crc_failed e m || reply_timed_out e m) = true) :
    loop f e m = waiting_failure e (waiting_clear (waiting_count_error (poll e m))) := by
  rw [loop_waiting f e m hs]
  unfold step_WAITING_FOR_RESPONSE
  simp only [reply_crc_failed, reply_timed_out, Bool.or_eq_true, Bool.and_eq_true,
    decide_eq_true_eq, Bool.not_eq_true'] at hf
  rcases hf with ⟨_, hcrc⟩ | ⟨hz, hto⟩
  · have hcrc' : crc_is_ok (waiting_read e (uart_arrive e m))
        = false := hcrc
    simp only [hcrc', Bool.false_eq_true, and_false, false_and, if_false]
    rfl
  · have hz' : (waiting_read e (uart_arrive e m)).received_frame_size_
        = 0 := hz
    have hto' : check_rx_timeout_ e (waiting_read e (uart_arrive e m))
        = true := hto
    simp only [hz', hto', Nat.lt_irrefl, false_and, Bool.true_eq_false, and_false, if_false]
    rfl

theorem prepared_frame_same {m m' : Machine} (h : SameCtl m m') :
    prepared_frame m'.buffers_ = prepared_frame m.buffers_ := by
  unfold prepared_frame
  rw [h.out, h.amount_out]

/-- The component entering the failure handling of a failed poll. -/
theorem failed_same (e : Env) (m : Machine) :
    SameCtl m (waiting_clear (waiting_count_error (poll e m))) :=
  ((poll_same e m).trans (waiting_count_error_same _)).trans (waiting_clear_same _)

/-- A failure under a recoverable policy with retries left: the prepared frame is
written once more and the retry counter advances. -/
theorem waiting_failure_retry (e : Env) (m : Machine)
    (hmc : m.reading_state_.mission_critical = false)
    (hlt : m.reading_state_.tries_counter < m.reading_state_.tries_max)
    (hmax : m.reading_state_.tries_max < 256) :
    (waiting_failure e m).state_ = m.state_
    ∧ (waiting_failure e m).reading_state_.mission_critical = false
    ∧ (waiting_failure e m).reading_state_.next_state = m.reading_state_.next_state
    ∧ (waiting_failure e m).reading_state_.tries_max = m.reading_state_.tries_max
    ∧ (waiting_failure e m).reading_state_.tries_counter = m.reading_state_.tries_counter + 1
    ∧ (waiting_failure e m).uart_tx = m.uart_tx ++ [prepared_frame m.buffers_]
    ∧ (waiting_failure e m).buffers_ = m.buffers_ := by
  have hmod : (m.reading_state_.tries_counter + 1) % 256 = m.reading_state_.tries_counter + 1 :=
    Nat.mod_eq_of_lt (by omega)
  simp [waiting_failure, hmc, hlt, update_last_rx_time_, send_frame_prepared_, hmod]

/-- A failure under a recoverable policy with the retries used up. -/
theorem waiting_failure_give_up (e : Env) (m : Machine)
    (hmc : m.reading_state_.mission_critical = false)
    (hge : ¬ m.reading_state_.tries_counter < m.reading_state_.tries_max) :
    (waiting_failure e m).state_ = m.reading_state_.next_state
    ∧ (waiting_failure e m).received_frame_size_ = 0
    ∧ (waiting_failure e m).uart_tx = m.uart_tx := by
  simp [waiting_failure, hmc, hge, set_next_state_]

/-- A failure under a mission-critical policy. -/
theorem waiting_failure_abort (e : Env) (m : Machine)
    (hmc : m.reading_state_.mission_critical = true) :
    (waiting_failure e m).state_ = State.IDLE
    ∧ (waiting_failure e m).uart_tx = m.uart_tx ++ [CMD_CLOSE_SESSION]
    ∧ (waiting_failure e m).stats_.failures_ = (m.stats_.failures_ + 1) % 256 := by
  have hfr : ∀ b : Buffers, prepared_frame (prepare_frame_ CMD_CLOSE_SESSION b)
      = CMD_CLOSE_SESSION := by
    intro b
    simp [prepared_frame, prepare_frame_, CMD_CLOSE_SESSION]
  simp only [waiting_failure, hmc, if_true, abort_mission_, report_failure, set_next_state_,
    send_frame_, send_frame_prepared_, hfr, Bool.not_true, Bool.false_eq_true, if_false]
  split <;> simp

/-- The retries of a recoverable policy: after the `k` failures that are left,
the machine is in the policy's next state with no frame, having written the
prepared frame `k - 1` more times. -/
theorem failing_replies_run (f : List Nat → Nat) :
    ∀ (envs : List Env) (k : Nat) (m : Machine),
      m.state_ = State.WAITING_FOR_RESPONSE →
      m.reading_state_.mission_critical = false →
      1 ≤ k → m.reading_state_.tries_counter + k = m.reading_state_.tries_max + 1 →
      m.reading_state_.tries_max < 256 →
      FailingReplies f envs k m = true →
      (run f envs m).state_ = m.reading_state_.next_state
      ∧ (run f envs m).received_frame_size_ = 0
      ∧ (run f envs m).uart_tx
          = m.uart_tx ++ List.replicate (k - 1) (prepared_frame m.buffers_) := by
  intro envs
  induction envs with
  | nil =>
    intro k m _ _ hk _ _ hrun
    simp only [FailingReplies, decide_eq_true_eq] at hrun
    omega
  | cons e es ih =>
    intro k m hs hmc hk hcnt hmax hrun
    simp only [FailingReplies, Bool.and_eq_true, decide_eq_true_eq, Bool.or_eq_true] at hrun
    obtain ⟨_, hrun⟩ := hrun
    simp only [run]
    rcases hrun with ⟨hp, hrest⟩ | ⟨hf, hrest⟩
    · have hl := loop_waiting_pending f e m hs hp
      have hsame := poll_same e m
      rw [hl] at hrest ⊢
      have := ih k (poll e m) (hsame.state_.trans hs) (hsame.mission_critical.trans hmc) hk
        (by rw [hsame.tries_counter, hsame.tries_max]; exact hcnt)
        (by rw [hsame.tries_max]; exact hmax) hrest
      rw [hsame.next_state, hsame.uart_tx, prepared_frame_same hsame] at this
      exact this
    · have hf' : (reply_crc_failed e m || reply_timed_out e m) = true := by
        simpa [Bool.or_eq_true] using hf
      have hl := loop_waiting_failed f e m hs hf'
      have hsame := failed_same e m
      rw [hl] at hrest ⊢
      by_cases hlt : m.reading_state_.tries_counter < m.reading_state_.tries_max
      · obtain ⟨r1, r2, r3, r4, r5, r6, r7⟩ := waiting_failure_retry e
          (waiting_clear (waiting_count_error (poll e m)))
          (hsame.mission_critical.trans hmc)
          (by rw [hsame.tries_counter, hsame.tries_max]; exact hlt)
          (by rw [hsame.tries_max]; exact hmax)
        have := ih (k - 1) _ (r1.trans (hsame.state_.trans hs)) r2 (by omega)
          (by rw [r5, r4, hsame.tries_counter, hsame.tries_max]; omega)
          (by rw [r4, hsame.tries_max]; exact hmax) hrest
        rw [r3, r6, r7, hsame.next_state, hsame.uart_tx, prepared_frame_same hsame] at this
        refine ⟨this.1, this.2.1, ?_⟩
        rw [this.2.2, List.append_assoc]
        congr 1
        obtain ⟨j, rfl⟩ : ∃ j, k = j + 2 := ⟨k - 2, by omega⟩
        simp [List.replicate_succ]
      · obtain ⟨g1, g2, g3⟩ := waiting_failure_give_up e
          (waiting_clear (waiting_count_error (poll e m)))
          (hsame.mission_critical.trans hmc)
          (by rw [hsame.tries_counter, hsame.tries_max]; exact hlt)
        have hk1 : k = 1 := by omega
        subst hk1
        cases es with
        | nil =>
          simp only [run]
          rw [g1, g2, g3, hsame.next_state, hsame.uart_tx]
          simp
        | cons e2 es2 =>
          simp [FailingReplies] at hrest

/-! ## Lemmas on `DATA_RECV` -/

theorem loop_data_recv (f : List Nat → Nat) (e : Env) (m : Machine)
    (hs : m.state_ = State.DATA_RECV) :
    loop f e m = step_DATA_RECV f e (uart_arrive e m) := by
  have : (uart_arrive e m).state_ = State.DATA_RECV := hs
  simp [loop, this]

theorem loop_data_next (f : List Nat → Nat) (e : Env) (m : Machine)
    (hs : m.state_ = State.DATA_NEXT) :
    loop f e m = step_DATA_NEXT e (uart_arrive e m) := by
  have : (uart_arrive e m).state_ = State.DATA_NEXT := hs
  simp [loop, this]

theorem step_data_next_iter (e : Env) (m : Machine) :
    (step_DATA_NEXT e m).request_iter = upper_bound m.sensors_ (key_at m.sensors_ m.request_iter) := by
  simp only [step_DATA_NEXT, set_next_state_delayed_, set_next_state_]
  split <;> split <;> rfl

theorem c_str_eq_nil_iff (l : List Nat) : c_str l = [] ↔ l.getD 0 0 = 0 := by
  cases l with
  | nil => simp [c_str]
  | cons b l =>
    by_cases hb : b = 0
    · simp [c_str, List.takeWhile_cons, hb]
    · simp [c_str, List.takeWhile_cons, hb]

/-- The inbound buffer after `get_values_from_brackets_(in_param_ptr, vals)`. -/
theorem parse_in_param_line (m : Machine) (hbuf : 1 ≤ m.buffers_.in_.length) :
    (parse_in_param m).1 = (decoded m).1
    ∧ (parse_in_param m).2.buffers_.in_.drop 1 = (decoded m).2.1
    ∧ (parse_in_param m).2.buffers_.in_.getD 1 0 = (decoded m).2.1.getD 0 0
    ∧ (parse_in_param m).2.sensors_ = m.sensors_
    ∧ (parse_in_param m).2.state_ = m.state_
    ∧ (parse_in_param m).2.request_iter = m.request_iter := by
  obtain ⟨b, rest, hin⟩ : ∃ b rest, m.buffers_.in_ = b :: rest := by
    cases h : m.buffers_.in_ with
    | nil => rw [h] at hbuf; simp at hbuf
    | cons b rest => exact ⟨b, rest, rfl⟩
  simp [parse_in_param, decoded, hin]

/-- The step `DATA_RECV` either leaves the sensors alone or has a frame, an entry under the
cursor, at least one value, a non-empty decoded name and a matching function
name. -/
theorem data_recv_sensors (f : List Nat → Nat) (e : Env) (m : Machine)
    (hbuf : 1 ≤ m.buffers_.in_.length) :
    (step_DATA_RECV f e m).state_ = State.DATA_NEXT
    ∧ (step_DATA_RECV f e m).request_iter = m.request_iter
    ∧ ((step_DATA_RECV f e m).sensors_ = m.sensors_
        ∨ (m.received_frame_size_ ≠ 0 ∧ (decoded m).1 ≠ 0 ∧ c_str (decoded m).2.1 ≠ []
            ∧ ∀ entry, m.sensors_[m.request_iter]? = some entry →
                entry.2.function_ = c_str (decoded m).2.1)) := by
  have hm1 : (set_next_state_ State.DATA_NEXT m).buffers_ = m.buffers_ := rfl
  obtain ⟨p1, p2, p3, p4, p5, p6⟩ := parse_in_param_line (set_next_state_ State.DATA_NEXT m)
    (by rw [hm1]; exact hbuf)
  have hd : decoded (set_next_state_ State.DATA_NEXT m) = decoded m := rfl
  rw [hd] at p1 p2 p3
  unfold step_DATA_RECV
  simp only []
  split
  · simp [clear_rx_buffers_, update_last_rx_time_, set_next_state_]
  · rename_i hsz
    split
    · simp [set_next_state_]
    · rename_i entry hentry
      split
      · exact ⟨p5, p6, Or.inl p4⟩
      · rename_i hcnt
        split
        · exact ⟨p5, p6, Or.inl p4⟩
        · rename_i hname
          split
          · exact ⟨p5, p6, Or.inl p4⟩
          · rename_i hfn
            refine ⟨p5, p6, Or.inr ⟨hsz, ?_, ?_, ?_⟩⟩
            · rw [← p1]; exact hcnt
            · rw [ne_eq, c_str_eq_nil_iff, ← p3]; exact hname
            · intro en hen
              have hentry' : m.sensors_[m.request_iter]? = some entry := hentry
              rw [hentry'] at hen
              cases hen
              rw [← p2]
              exact not_not.mp hfn

/-! ## The scanning loop never runs out of iterations -/

theorem strchr_from_ge (c : Nat) :
    ∀ (l : List Nat) (i e : Nat), strchr_from l c i = some e → i ≤ e := by
  intro l
  induction l with
  | nil =>
    intro i e h
    simp only [strchr_from] at h
    split at h
    · cases h; exact Nat.le_refl _
    · cases h
  | cons b l ih =>
    intro i e h
    rw [strchr_from] at h
    split at h
    · cases h; exact Nat.le_refl _
    · split at h
      · cases h
      · exact Nat.le_of_succ_le (ih (i + 1) e h)

/-- Once the fuel covers the bytes that are left, more fuel changes nothing: the
loop of `get_values_from_brackets_` has stopped at the terminator before. -/
theorem brackets_loop_fuel :
    ∀ (fuel k : Nat) (mem : List Nat) (p idx : Nat) (got : Bool) (vals : List (Option Nat)),
      mem.length ≤ p + fuel →
      brackets_loop (fuel + k) mem p idx got vals = brackets_loop fuel mem p idx got vals := by
  intro fuel
  induction fuel with
  | zero =>
    intro k mem p idx got vals h
    have hg : mem.getD p 0 = 0 := by
      rw [List.getD_eq_getElem?_getD, List.getElem?_eq_none (by omega)]
      rfl
    cases k with
    | zero => rfl
    | succ k =>
      have hc : ¬ (mem.getD p 0 ≠ 0 ∧ idx < VAL_NUM) := fun hc => hc.1 hg
      rw [Nat.zero_add, brackets_loop, brackets_loop, if_neg hc]
  | succ fuel ih =>
    intro k mem p idx got vals h
    have hk : fuel + 1 + k = (fuel + k) + 1 := by omega
    rw [hk, brackets_loop, brackets_loop]
    by_cases hc : mem.getD p 0 ≠ 0 ∧ idx < VAL_NUM
    · rw [if_pos hc, if_pos hc]
      by_cases h28 : mem.getD p 0 = 0x28
      · rw [if_pos h28, if_pos h28]
        generalize hmem1 : (if got = true then mem else mem.set p 0) = mem1
        have hlen1 : mem1.length = mem.length := by
          rw [← hmem1]; split <;> simp
        cases hstr : strchr_ mem1 (p + 1) 0x29 with
        | none =>
          simp only [hstr]
          exact ih k mem1 (p + 1) idx true vals (by omega)
        | some e =>
          have hge : p + 1 ≤ e := strchr_from_ge 0x29 _ _ _ hstr
          simp only [hstr]
          rw [if_pos hc.2, if_pos hc.2]
          exact ih k (mem1.set e 0) (e + 1) (idx + 1) true _ (by rw [List.length_set]; omega)
      · rw [if_neg h28, if_neg h28]
        exact ih k _ _ _ _ _ (by omega)
    · rw [if_neg hc, if_neg hc]

/-! ## `register_sensor` keeps the multimap sorted -/

theorem register_sensor_sorted (s : Sensor) (m : Machine) (hs : KeysSorted (keys m)) :
    KeysSorted (keys (register_sensor s m)) := by
  have hks : keys (register_sensor s m)
      = (keys m).take (ub_keys (keys m) s.request_) ++ s.request_ ::
          (keys m).drop (ub_keys (keys m) s.request_) := by
    simp [keys, register_sensor, upper_bound_eq, List.map_take, List.map_drop]
  rw [hks]
  generalize hk : s.request_ = k
  generalize hl : keys m = ks at hs
  have hub := ub_keys_le ks k
  unfold KeysSorted at *
  rw [List.pairwise_append]
  refine ⟨hs.sublist (List.take_sublist _ _), ?_, ?_⟩
  · rw [List.pairwise_cons]
    refine ⟨?_, hs.sublist (List.drop_sublist _ _)⟩
    intro b hb
    obtain ⟨j, hj, rfl⟩ := List.mem_iff_getElem.mp hb
    rw [List.getElem_drop]
    rw [List.length_drop] at hj
    have hn : ub_keys ks k < ks.length := by omega
    have h1 : str_lt k ks[ub_keys ks k] = true := @List.findIdx_getElem _ _ _ hn
    cases hlt : str_lt ks[ub_keys ks k + j] k with
    | false => rfl
    | true =>
      exfalso
      rcases Nat.eq_zero_or_pos j with hj0 | hjp
      · subst hj0
        have h2 := str_lt_trans _ _ _ h1 hlt
        rw [str_lt_irrefl] at h2
        exact Bool.noConfusion h2
      · have h3 := (List.pairwise_iff_getElem.mp hs) (ub_keys ks k) (ub_keys ks k + j) hn
          (by omega) (by omega)
        have h4 := str_lt_trans _ _ _ hlt h1
        rw [h3] at h4
        exact Bool.noConfusion h4
  · intro a ha b hb
    obtain ⟨i, hi, rfl⟩ := List.mem_iff_getElem.mp ha
    rw [List.getElem_take]
    rw [List.length_take] at hi
    have hi2 : i < ub_keys ks k := by omega
    have h0 : str_lt k ks[i] = false := List.not_of_lt_findIdx hi2
    rcases List.mem_cons.mp hb with rfl | hb
    · exact h0
    · obtain ⟨j, hj, rfl⟩ := List.mem_iff_getElem.mp hb
      rw [List.getElem_drop]
      rw [List.length_drop] at hj
      exact (List.pairwise_iff_getElem.mp hs) i (ub_keys ks k + j) (by omega) (by omega)
        (by omega)

/-! ## Lemmas on the frame reader -/

/-- What storing one byte does to the bytes held: the byte is appended, and once
the buffer is full the oldest byte is dropped first. -/
theorem store_byte_content (b : Nat) (bf : Buffers)
    (hin : bf.in_.length = MAX_IN_BUF_SIZE) (hle : bf.amount_in ≤ MAX_IN_BUF_SIZE) :
    (store_byte b bf).in_.length = MAX_IN_BUF_SIZE
    ∧ (store_byte b bf).amount_in = min (bf.amount_in + 1) MAX_IN_BUF_SIZE
    ∧ content (store_byte b bf)
        = (content bf ++ [b]).drop (bf.amount_in + 1 - MAX_IN_BUF_SIZE) := by
  have h256 : MAX_IN_BUF_SIZE = 256 := rfl
  rw [h256] at hin hle ⊢
  unfold store_byte content
  rw [h256]
  by_cases hlt : bf.amount_in < 256
  · rw [if_pos hlt]
    simp only []
    refine ⟨by rw [List.length_set]; exact hin, by omega, ?_⟩
    have h0 : bf.amount_in + 1 - 256 = 0 := by omega
    rw [h0, List.drop_zero, List.set_eq_take_append_cons_drop, if_pos (by omega)]
    have hl : (List.take bf.amount_in bf.in_).length = bf.amount_in := by
      rw [List.length_take]; omega
    have e : List.take bf.amount_in bf.in_ ++ b :: List.drop (bf.amount_in + 1) bf.in_
        = (List.take bf.amount_in bf.in_ ++ [b]) ++ List.drop (bf.amount_in + 1) bf.in_ := by
      simp
    rw [e]
    exact List.take_left' (by rw [List.length_append, hl]; rfl)
  · rw [if_neg hlt]
    have ha : bf.amount_in = 256 := by omega
    simp only []
    rw [ha]
    have hd : List.drop 256 bf.in_ = [] := List.drop_eq_nil_of_le (by omega)
    have ht : List.take 256 bf.in_ = bf.in_ := List.take_of_length_le (by omega)
    have hd1 : (List.drop 1 bf.in_).length = 255 := by rw [List.length_drop]; omega
    have ht1 : List.take (256 - 1) (List.drop 1 bf.in_) = List.drop 1 bf.in_ :=
      List.take_of_length_le (by omega)
    rw [hd, ht, ht1]
    have hlen : (List.drop 1 bf.in_ ++ [b]).length = 256 := by
      rw [List.length_append, hd1]; rfl
    refine ⟨hlen, by decide, ?_⟩
    rw [List.take_of_length_le (by omega)]
    have h1 : 256 + 1 - 256 = 1 := by decide
    rw [h1, List.drop_append_of_le_length (by omega)]

/-- The bytes held after storing `bs`: the last 256 of what was held before
followed by `bs`. -/
theorem stored_content (bs : List Nat) :
    ∀ (bf : Buffers), bf.in_.length = MAX_IN_BUF_SIZE → bf.amount_in ≤ MAX_IN_BUF_SIZE →
      (stored bs bf).in_.length = MAX_IN_BUF_SIZE
      ∧ (stored bs bf).amount_in = min (bf.amount_in + bs.length) MAX_IN_BUF_SIZE
      ∧ content (stored bs bf)
          = (content bf ++ bs).drop (bf.amount_in + bs.length - MAX_IN_BUF_SIZE) := by
  induction bs with
  | nil =>
    intro bf hin hle
    refine ⟨hin, ?_, ?_⟩
    · show bf.amount_in = _
      simp only [List.length_nil, Nat.add_zero]
      omega
    · show content bf = _
      have : bf.amount_in + ([] : List Nat).length - MAX_IN_BUF_SIZE = 0 := by
        simp only [List.length_nil, Nat.add_zero]; omega
      rw [this, List.append_nil, List.drop_zero]
  | cons b bs ih =>
    intro bf hin hle
    obtain ⟨s1, s2, s3⟩ := store_byte_content b bf hin hle
    have hle1 : (store_byte b bf).amount_in ≤ MAX_IN_BUF_SIZE := by rw [s2]; omega
    obtain ⟨i1, i2, i3⟩ := ih (store_byte b bf) s1 hle1
    have hst : stored (b :: bs) bf = stored bs (store_byte b bf) := rfl
    have hcl : (content bf).length = bf.amount_in := by
      unfold content; rw [List.length_take]; omega
    rw [hst]
    refine ⟨i1, ?_, ?_⟩
    · rw [i2, s2, List.length_cons]; omega
    · rw [i3, s3, s2, List.length_cons]
      have h256 : MAX_IN_BUF_SIZE = 256 := rfl
      rw [h256] at hle ⊢
      by_cases hlt : bf.amount_in < 256
      · have h0 : bf.amount_in + 1 - 256 = 0 := by omega
        have hm : min (bf.amount_in + 1) 256 = bf.amount_in + 1 := by omega
        rw [h0, List.drop_zero, hm, List.append_assoc, List.singleton_append]
        have e : bf.amount_in + 1 + bs.length - 256 = bf.amount_in + (bs.length + 1) - 256 := by
          omega
        rw [e]
      · have ha : bf.amount_in = 256 := by omega
        rw [ha]
        have h1 : 256 + 1 - 256 = 1 := by decide
        have hm : min (256 + 1) 256 = 256 := by decide
        rw [h1, hm]
        have hne : 1 ≤ (content bf ++ [b]).length := by
          rw [List.length_append]; simp
        rw [← List.drop_append_of_le_length hne, List.drop_drop, List.append_assoc,
          List.singleton_append]
        have e : 1 + (256 + bs.length - 256) = 256 + (bs.length + 1) - 256 := by omega
        rw [e]

/-- The reader loop over bytes on which the stop condition does not fire. -/
theorem receive_loop_no_stop (stop_fn : List Nat → Nat → Bool) (bs : List Nat) :
    ∀ (bf : Buffers) (rest : List Nat),
      (∀ k, k < bs.length →
        stop_fn (stored (bs.take (k + 1)) bf).in_ (stored (bs.take (k + 1)) bf).amount_in
          = false) →
      receive_loop stop_fn bs.length (bs ++ rest) bf = (0, rest, stored bs bf) := by
  induction bs with
  | nil =>
    intro bf rest _
    rfl
  | cons b bs ih =>
    intro bf rest hstop
    have h0 := hstop 0 (by simp)
    simp only [Nat.zero_add, List.take_succ_cons, List.take_zero] at h0
    have h0' : stop_fn (store_byte b bf).in_ (store_byte b bf).amount_in = false := h0
    show receive_loop stop_fn (bs.length + 1) (b :: (bs ++ rest)) bf = _
    rw [receive_loop]
    simp only [h0', Bool.false_eq_true, if_false]
    refine ih (store_byte b bf) rest ?_
    intro k hk
    have := hstop (k + 1) (by simp; omega)
    simpa [stored] using this

theorem getD_take_lt (l : List Nat) (n i : Nat) (h : i < n) :
    (l.take n).getD i 0 = l.getD i 0 := by
  simp [List.getD_eq_getElem?_getD, List.getElem?_take, h]

/-- Storing a sequence that fits into an empty buffer leaves exactly that
sequence in the buffer. -/
theorem stored_fits (p : List Nat) (bf : Buffers)
    (hin : bf.in_.length = MAX_IN_BUF_SIZE) (hempty : bf.amount_in = 0)
    (hp : p.length ≤ MAX_IN_BUF_SIZE) :
    (stored p bf).amount_in = p.length
    ∧ ∀ i, i < p.length → (stored p bf).in_.getD i 0 = p.getD i 0 := by
  obtain ⟨_, h2, h3⟩ := stored_content p bf hin (by rw [hempty]; exact Nat.zero_le _)
  have hc : content bf = [] := by unfold content; rw [hempty]; rfl
  have ha : (stored p bf).amount_in = p.length := by
    rw [h2, hempty, Nat.zero_add]; exact Nat.min_eq_left hp
  have h0 : bf.amount_in + p.length - MAX_IN_BUF_SIZE = 0 := by
    rw [hempty, Nat.zero_add]; exact Nat.sub_eq_zero_of_le hp
  rw [hc, h0, List.nil_append, List.drop_zero] at h3
  refine ⟨ha, ?_⟩
  intro i hi
  have := getD_take_lt (stored p bf).in_ (stored p bf).amount_in i (by rw [ha]; exact hi)
  unfold content at h3
  rw [h3] at this
  exact this.symm

/-- On a non-empty sequence that fits into an empty buffer the stop condition of
the programming-frame reader sees exactly that sequence. -/
theorem iec_stop_on_stored (start_byte : Nat) (accept : Bool) (p : List Nat) (bf : Buffers)
    (hin : bf.in_.length = MAX_IN_BUF_SIZE) (hempty : bf.amount_in = 0)
    (hp : p.length ≤ MAX_IN_BUF_SIZE) (hne : 0 < p.length) :
    frame_end_check_iec start_byte accept (stored p bf).in_ (stored p bf).amount_in
      = frame_end_check_iec start_byte accept p p.length := by
  obtain ⟨ha, hg⟩ := stored_fits p bf hin hempty hp
  unfold frame_end_check_iec
  rw [ha, hg 0 hne, hg (p.length - 2) (by omega)]

theorem stored_append (a b : List Nat) (bf : Buffers) :
    stored (a ++ b) bf = stored b (stored a bf) := by
  unfold stored
  rw [List.foldl_append]

/-- Feeding bytes one per call while the stop condition does not fire: every call
returns 0 and the bytes accumulate. -/
theorem feed_no_stop (stop_fn : List Nat → Nat → Bool) (bs : List Nat) :
    ∀ (bf : Buffers) (rest : List Nat),
      (∀ k, k < bs.length →
        stop_fn (stored (bs.take (k + 1)) bf).in_ (stored (bs.take (k + 1)) bf).amount_in
          = false) →
      feed_one_at_a_time stop_fn (bs ++ rest) bf
        = (List.replicate bs.length 0 ++ (feed_one_at_a_time stop_fn rest (stored bs bf)).1,
           (feed_one_at_a_time stop_fn rest (stored bs bf)).2) := by
  induction bs with
  | nil =>
    intro bf rest _
    rfl
  | cons b bs ih =>
    intro bf rest hstop
    have h0 := hstop 0 (by simp)
    simp only [Nat.zero_add, List.take_succ_cons, List.take_zero] at h0
    have h0' : stop_fn (store_byte b bf).in_ (store_byte b bf).amount_in = false := h0
    have hr : receive_loop stop_fn 1 [b] bf = (0, [], store_byte b bf) := by
      rw [receive_loop]
      simp only [h0', Bool.false_eq_true, if_false]
      rfl
    have hi := ih (store_byte b bf) rest (by
      intro k hk
      have := hstop (k + 1) (by simp; omega)
      simpa [stored] using this)
    show feed_one_at_a_time stop_fn (b :: (bs ++ rest)) bf = _
    rw [feed_one_at_a_time]
    simp only [hr]
    rw [hi]
    rfl

/-- The stop condition of the programming-frame reader on the prefixes of
start byte, payload, ETX: it does not fire. -/
theorem iec_no_stop_before_bcc (payload : List Nat) (hetx : ETX ∉ payload) (k : Nat)
    (hk : k < (STX :: payload ++ [ETX]).length) :
    frame_end_check_iec STX false ((STX :: payload ++ [ETX]).take (k + 1))
      ((STX :: payload ++ [ETX]).take (k + 1)).length = false := by
  have hlen : (STX :: payload ++ [ETX]).length = payload.length + 2 := by simp
  rw [hlen] at hk
  have hl : ((STX :: payload ++ [ETX]).take (k + 1)).length = k + 1 := by
    rw [List.length_take, hlen]; omega
  unfold frame_end_check_iec
  rw [hl]
  by_cases h3 : k + 1 > 3
  · have hg : ((STX :: payload ++ [ETX]).take (k + 1)).getD (k + 1 - 2) 0
        = payload.getD (k - 2) 0 := by
      rw [getD_take_lt _ _ _ (by omega)]
      obtain ⟨j, rfl⟩ : ∃ j, k = j + 2 := ⟨k - 2, by omega⟩
      have e1 : j + 2 + 1 - 2 = j + 1 := by omega
      have e2 : j + 2 - 2 = j := by omega
      rw [e1, e2]
      show (payload ++ [ETX]).getD j 0 = payload.getD j 0
      simp only [List.getD_eq_getElem?_getD]
      rw [List.getElem?_append_left (by omega)]
    have hmem : payload.getD (k - 2) 0 ∈ payload := by
      rw [List.getD_eq_getElem?_getD, List.getElem?_eq_getElem (by omega)]
      exact List.getElem_mem _
    have hneq : payload.getD (k - 2) 0 ≠ ETX := fun h => hetx (h ▸ hmem)
    rw [hg]
    have hb : (payload.getD (k - 2) 0 == ETX) = false := by
      rw [beq_eq_false_iff_ne]; exact hneq
    rw [hb]
    simp
  · simp [h3]

/-! ## Lemmas on publishing and on the registration order -/

theorem loop_close_session (f : List Nat → Nat) (e : Env) (m : Machine)
    (hs : m.state_ = State.CLOSE_SESSION) :
    (loop f e m).state_ = State.PUBLISH ∧ (loop f e m).sensors_ = m.sensors_
    ∧ (loop f e m).sensor_iter = 0 ∧ (loop f e m).published = m.published := by
  have h : (uart_arrive e m).state_ = State.CLOSE_SESSION := hs
  have hl : loop f e m = step_CLOSE_SESSION (uart_arrive e m) := by
    simp [loop, h]
  rw [hl]
  exact ⟨rfl, rfl, rfl, rfl⟩

theorem loop_publish (f : List Nat → Nat) (e : Env) (m : Machine)
    (hs : m.state_ = State.PUBLISH) :
    loop f e m = step_PUBLISH e (uart_arrive e m) := by
  have : (uart_arrive e m).state_ = State.PUBLISH := hs
  simp [loop, this]

/-- One `PUBLISH` step with the cursor on an entry. -/
theorem loop_publish_some (f : List Nat → Nat) (e : Env) (m : Machine)
    (entry : List Nat × Sensor) (hs : m.state_ = State.PUBLISH)
    (hi : m.sensors_[m.sensor_iter]? = some entry) :
    (loop f e m).state_ = State.PUBLISH ∧ (loop f e m).sensors_ = m.sensors_
    ∧ (loop f e m).sensor_iter = m.sensor_iter + 1
    ∧ (loop f e m).published = m.published ++ [entry.2] := by
  rw [loop_publish f e m hs]
  unfold step_PUBLISH
  have h : (update_last_rx_time_ e (uart_arrive e m)).sensors_[
      (update_last_rx_time_ e (uart_arrive e m)).sensor_iter]? = some entry := hi
  simp only [h]
  exact ⟨hs, rfl, rfl, rfl⟩

/-- One `PUBLISH` step with the cursor at the end. -/
theorem loop_publish_none (f : List Nat → Nat) (e : Env) (m : Machine)
    (hs : m.state_ = State.PUBLISH) (hi : m.sensors_.length ≤ m.sensor_iter) :
    (loop f e m).state_ = State.IDLE ∧ (loop f e m).stats_.failures_ = 0
    ∧ (loop f e m).published = m.published := by
  rw [loop_publish f e m hs]
  unfold step_PUBLISH
  have h : (update_last_rx_time_ e (uart_arrive e m)).sensors_[
      (update_last_rx_time_ e (uart_arrive e m)).sensor_iter]? = none :=
    List.getElem?_eq_none hi
  simp only [h]
  exact ⟨rfl, rfl, rfl⟩

/-- A run of `PUBLISH` steps that stays within the registry: one entry per
step, in iteration order. -/
theorem publish_run (f : List Nat → Nat) (envs : List Env) :
    ∀ (m : Machine), m.state_ = State.PUBLISH →
      m.sensor_iter + envs.length ≤ m.sensors_.length →
      (run f envs m).state_ = State.PUBLISH
      ∧ (run f envs m).sensors_ = m.sensors_
      ∧ (run f envs m).sensor_iter = m.sensor_iter + envs.length
      ∧ (run f envs m).published
          = m.published ++ ((m.sensors_.drop m.sensor_iter).take envs.length).map Prod.snd := by
  induction envs with
  | nil =>
    intro m hs _
    refine ⟨hs, rfl, rfl, ?_⟩
    show m.published = _
    simp
  | cons e es ih =>
    intro m hs hle
    rw [List.length_cons] at hle
    have hlt : m.sensor_iter < m.sensors_.length := by omega
    have hi : m.sensors_[m.sensor_iter]? = some (m.sensors_[m.sensor_iter]) :=
      List.getElem?_eq_getElem hlt
    obtain ⟨p1, p2, p3, p4⟩ := loop_publish_some f e m _ hs hi
    obtain ⟨q1, q2, q3, q4⟩ := ih (loop f e m) p1 (by rw [p2, p3]; omega)
    show (run f es (loop f e m)).state_ = _ ∧ (run f es (loop f e m)).sensors_ = _
      ∧ (run f es (loop f e m)).sensor_iter = _ ∧ (run f es (loop f e m)).published = _
    refine ⟨q1, q2.trans p2, ?_, ?_⟩
    · rw [q3, p3, List.length_cons]; omega
    · rw [q4, p4, p2, p3, List.length_cons, List.append_assoc]
      congr 1
      rw [List.drop_eq_getElem_cons hlt, List.take_succ_cons, List.map_cons]
      rfl

/-- The entries from the upper bound of a key onward have a different key. -/
theorem after_upper_bound_ne (sensors : List (List Nat × Sensor)) (k : List Nat)
    (hs : KeysSorted (sensors.map Prod.fst)) :
    ∀ x, x ∈ sensors.drop (upper_bound sensors k) → (x.1 == k) = false := by
  intro x hx
  obtain ⟨j, hj, rfl⟩ := List.mem_iff_getElem.mp hx
  rw [List.length_drop] at hj
  rw [List.getElem_drop]
  have hn : upper_bound sensors k < sensors.length := by omega
  have h1 : str_lt k (sensors[upper_bound sensors k]).1 = true :=
    @List.findIdx_getElem (List Nat × Sensor) (fun e => str_lt k e.1) sensors hn
  have hgt : str_lt k (sensors[upper_bound sensors k + j]).1 = true := by
    rcases Nat.eq_zero_or_pos j with hj0 | hjp
    · subst hj0; exact h1
    · have h3 := (List.pairwise_iff_getElem.mp hs) (upper_bound sensors k)
        (upper_bound sensors k + j) (by rw [List.length_map]; omega)
        (by rw [List.length_map]; omega) (by omega)
      simp only [List.getElem_map] at h3
      by_cases heq : (sensors[upper_bound sensors k + j]).1 = k
      · rw [heq] at h3
        rw [h3] at h1
        exact Bool.noConfusion h1
      · rcases str_lt_total _ _ heq with h | h
        · have h4 := str_lt_trans _ _ _ h h1
          rw [h3] at h4
          exact Bool.noConfusion h4
        · exact h
  rw [beq_eq_false_iff_ne]
  intro heq
  rw [heq, str_lt_irrefl] at hgt
  exact Bool.noConfusion hgt

/-- Registering a sensor puts it after the entries that have its key and leaves
the entries of every key in their order. -/
theorem register_sensor_filter (s : Sensor) (m : Machine) (hs : KeysSorted (keys m))
    (k : List Nat) :
    (register_sensor s m).sensors_.filter (fun x => x.1 == k)
      = m.sensors_.filter (fun x => x.1 == k)
          ++ (if s.request_ == k then [(s.request_, s)] else []) := by
  have hsplit : m.sensors_ = m.sensors_.take (upper_bound m.sensors_ s.request_)
      ++ m.sensors_.drop (upper_bound m.sensors_ s.request_) :=
    (List.take_append_drop _ _).symm
  have hreg : (register_sensor s m).sensors_
      = m.sensors_.take (upper_bound m.sensors_ s.request_)
          ++ (s.request_, s) :: m.sensors_.drop (upper_bound m.sensors_ s.request_) := rfl
  rw [hreg, List.filter_append, List.filter_cons]
  by_cases hk : (s.request_ == k) = true
  · have hkeq : s.request_ = k := by simpa using hk
    have hnil : (m.sensors_.drop (upper_bound m.sensors_ s.request_)).filter
        (fun x => x.1 == k) = [] := by
      rw [List.filter_eq_nil_iff]
      intro x hx
      have := after_upper_bound_ne m.sensors_ s.request_ hs x hx
      rw [hkeq] at this
      rw [this]
      exact Bool.false_ne_true
    rw [if_pos hk, if_pos hk, hnil]
    conv_rhs => rw [hsplit, List.filter_append, hnil, List.append_nil]
  · rw [if_neg hk, if_neg hk, List.append_nil]
    conv_rhs => rw [hsplit, List.filter_append]

/-- The registry after registering `rs` on top of a registry built from `rs0`:
sorted by key, each entry filed under its sensor's request, a rearrangement of
all the sensors, and per key in registration order. -/
theorem register_all_order (rs : List Sensor) :
    ∀ (m : Machine) (rs0 : List Sensor),
      KeysSorted (keys m) →
      (∀ x, x ∈ m.sensors_ → x.1 = x.2.request_) →
      List.Perm (m.sensors_.map Prod.snd) rs0 →
      (∀ k, (m.sensors_.filter (fun x => x.1 == k)).map Prod.snd
          = rs0.filter (fun s => s.request_ == k)) →
      KeysSorted (keys (register_all rs m))
      ∧ (∀ x, x ∈ (register_all rs m).sensors_ → x.1 = x.2.request_)
      ∧ List.Perm ((register_all rs m).sensors_.map Prod.snd) (rs0 ++ rs)
      ∧ (∀ k, ((register_all rs m).sensors_.filter (fun x => x.1 == k)).map Prod.snd
          = (rs0 ++ rs).filter (fun s => s.request_ == k)) := by
  induction rs with
  | nil =>
    intro m rs0 h1 h2 h3 h4
    rw [List.append_nil]
    exact ⟨h1, h2, h3, h4⟩
  | cons s rs ih =>
    intro m rs0 h1 h2 h3 h4
    have hreg : (register_sensor s m).sensors_
        = m.sensors_.take (upper_bound m.sensors_ s.request_)
            ++ (s.request_, s) :: m.sensors_.drop (upper_bound m.sensors_ s.request_) := rfl
    have g1 := register_sensor_sorted s m h1
    have g2 : ∀ x, x ∈ (register_sensor s m).sensors_ → x.1 = x.2.request_ := by
      intro x hx
      rw [hreg, List.mem_append, List.mem_cons] at hx
      rcases hx with hx | hx | hx
      · exact h2 x (List.mem_of_mem_take hx)
      · rw [hx]
      · exact h2 x (List.mem_of_mem_drop hx)
    have g3 : List.Perm ((register_sensor s m).sensors_.map Prod.snd) (rs0 ++ [s]) := by
      rw [hreg, List.map_append, List.map_cons]
      refine List.Perm.trans List.perm_middle ?_
      rw [← List.map_append, List.take_append_drop]
      exact (List.Perm.cons s h3).trans (List.perm_append_singleton s rs0).symm
    have g4 : ∀ k, ((register_sensor s m).sensors_.filter (fun x => x.1 == k)).map Prod.snd
        = (rs0 ++ [s]).filter (fun t => t.request_ == k) := by
      intro k
      rw [register_sensor_filter s m h1 k, List.map_append, h4 k, List.filter_append]
      congr 1
      by_cases hk : (s.request_ == k) = true
      · rw [if_pos hk]
        simp [List.filter_cons, hk]
      · rw [if_neg hk]
        simp [List.filter_cons, hk]
    have := ih (register_sensor s m) (rs0 ++ [s]) g1 g2 g3 g4
    rw [List.append_assoc, List.singleton_append] at this
    exact this

theorem run_append (f : List Nat → Nat) (a : List Env) :
    ∀ (b : List Env) (m : Machine), run f (a ++ b) m = run f b (run f a m) := by
  induction a with
  | nil => intro b m; rfl
  | cons e a ih => intro b m; exact ih b (loop f e m)

/-! ## Lemmas on the single read -/

/-- The `IDLE` step with a request at the head of the queue. -/
theorem loop_idle_request (f : List Nat → Nat) (e : Env) (m : Machine)
    (request : List Nat) (rest : List (List Nat))
    (hs : m.state_ = State.IDLE) (hq : m.single_requests_ = request :: rest) :
    loop f e m
      = read_reply_and_go_next_state_ (ReadFunction.prog STX true) State.SINGLE_READ_ACK 3
          false true
          (send_frame_prepared_
            { update_last_rx_time_ e (uart_arrive e m) with
              single_requests_ := rest,
              buffers_ := prepare_non_session_prog_frame_ m.meter_address_ request
                m.buffers_ }) := by
  have h : (uart_arrive e m).state_ = State.IDLE := hs
  have hl : loop f e m = step_IDLE e (uart_arrive e m) := by
    simp [loop, h]
  have hq2 : (update_last_rx_time_ e (uart_arrive e m)).single_requests_ = request :: rest := hq
  rw [hl]
  unfold step_IDLE
  simp only [hq2]
  rfl

/-- A poll that receives a frame passing the CRC check takes the happy path. -/
theorem loop_waiting_good (f : List Nat → Nat) (e : Env) (m : Machine)
    (hs : m.state_ = State.WAITING_FOR_RESPONSE)
    (hsize : (poll e m).received_frame_size_ > 0) (hcrc : crc_is_ok (poll e m) = true) :
    loop f e m = waiting_success e (poll e m) := by
  rw [loop_waiting f e m hs]
  unfold step_WAITING_FOR_RESPONSE
  have h1 : (waiting_read e (uart_arrive e m)).received_frame_size_ > 0 := hsize
  have h2 : crc_is_ok (waiting_read e (uart_arrive e m)) = true := hcrc
  simp only [h1, h2, and_self, if_true]
  rfl

/-! ## Lemmas on the failure counter, the conversion and the checksum under mutation -/

theorem report_failure_true (m : Machine) :
    (report_failure true m).stats_.failures_ = (m.stats_.failures_ + 1) % 256
    ∧ (report_failure true m).failures_before_reboot_ = m.failures_before_reboot_
    ∧ (report_failure true m).reboots
        = m.reboots + (if m.failures_before_reboot_ > 0
            ∧ (m.stats_.failures_ + 1) % 256 > m.failures_before_reboot_ then 1 else 0) := by
  unfold report_failure
  simp only [Bool.not_true, Bool.false_eq_true, if_false]
  split <;> exact ⟨rfl, rfl, rfl⟩

/-- One more failed session of a run that has not restarted is one call of
`report_failure(true)`. -/
theorem failed_sessions_succ_running (m : Machine) (k : Nat)
    (h : (failed_sessions k m).2 = false) :
    (failed_sessions (k + 1) m).1 = report_failure true (failed_sessions k m).1
    ∧ (failed_sessions (k + 1) m).2
        = decide ((report_failure true (failed_sessions k m).1).reboots
            ≠ (failed_sessions k m).1.reboots) := by
  have hstep : failed_sessions (k + 1) m
      = (report_failure true (failed_sessions k m).1,
         decide ((report_failure true (failed_sessions k m).1).reboots
           ≠ (failed_sessions k m).1.reboots)) := by
    show (if (failed_sessions k m).2 = true then failed_sessions k m else _) = _
    rw [h]
    rfl
  rw [hstep]
  exact ⟨rfl, rfl⟩

/-- A run that has restarted makes no further call. -/
theorem failed_sessions_succ_restarted (m : Machine) (k : Nat)
    (h : (failed_sessions k m).2 = true) :
    failed_sessions (k + 1) m = failed_sessions k m := by
  show (if (failed_sessions k m).2 = true then failed_sessions k m else _) = _
  rw [if_pos h]

/-- A run of failed sessions that starts with the counter at zero, with a
threshold between 1 and 254: up to the threshold the counter follows the number
of failures and nothing is requested; from the next failure on the device has
restarted, at the call that brought the counter above the threshold. -/
theorem failed_sessions_closed (m : Machine) (h0 : m.stats_.failures_ = 0)
    (ht : 1 ≤ m.failures_before_reboot_) (ht2 : m.failures_before_reboot_ ≤ 254) :
    ∀ k,
      (failed_sessions k m).1.failures_before_reboot_ = m.failures_before_reboot_
      ∧ (k ≤ m.failures_before_reboot_ →
          (failed_sessions k m).2 = false
          ∧ (failed_sessions k m).1.stats_.failures_ = k
          ∧ (failed_sessions k m).1.reboots = m.reboots)
      ∧ (m.failures_before_reboot_ < k →
          (failed_sessions k m).2 = true
          ∧ (failed_sessions k m).1.stats_.failures_ = m.failures_before_reboot_ + 1
          ∧ (failed_sessions k m).1.reboots = m.reboots + 1) := by
  intro k
  induction k with
  | zero =>
    refine ⟨rfl, fun _ => ⟨rfl, h0, rfl⟩, fun h => ?_⟩
    omega
  | succ k ih =>
    obtain ⟨i0, i1, i2⟩ := ih
    obtain ⟨r1, r2, r3⟩ := report_failure_true (failed_sessions k m).1
    by_cases hk : k ≤ m.failures_before_reboot_
    · obtain ⟨a1, a2, a3⟩ := i1 hk
      obtain ⟨e1, e2⟩ := failed_sessions_succ_running m k a1
      have hmod : (k + 1) % 256 = k + 1 := Nat.mod_eq_of_lt (by omega)
      rw [i0, a2, hmod, a3] at r3
      rw [a2, hmod] at r1
      rw [i0] at r2
      rw [e1, e2, a3]
      refine ⟨r2, fun h => ?_, fun h => ?_⟩
      · have hno : ¬ (m.failures_before_reboot_ > 0 ∧ k + 1 > m.failures_before_reboot_) := by
          omega
        rw [if_neg hno] at r3
        refine ⟨?_, r1, r3⟩
        rw [decide_eq_false_iff_not, r3]
        omega
      · have hyes : m.failures_before_reboot_ > 0 ∧ k + 1 > m.failures_before_reboot_ := by
          omega
        rw [if_pos hyes] at r3
        refine ⟨?_, ?_, r3⟩
        · rw [decide_eq_true_iff, r3]
          omega
        · rw [r1]
          omega
    · obtain ⟨a1, a2, a3⟩ := i2 (by omega)
      rw [failed_sessions_succ_restarted m k a1]
      refine ⟨i0, fun h => ?_, fun _ => ⟨a1, a2, a3⟩⟩
      omega

/-- With the threshold at 255 the 8-bit counter never exceeds it: no run of
failed sessions requests a restart. -/
theorem failed_sessions_never (m : Machine) (h0 : m.stats_.failures_ = 0)
    (ht : m.failures_before_reboot_ = 255) :
    ∀ k,
      (failed_sessions k m).1.failures_before_reboot_ = 255
      ∧ (failed_sessions k m).2 = false
      ∧ (failed_sessions k m).1.stats_.failures_ = k % 256
      ∧ (failed_sessions k m).1.reboots = m.reboots := by
  intro k
  induction k with
  | zero => exact ⟨ht, rfl, h0, rfl⟩
  | succ k ih =>
    obtain ⟨i0, a1, a2, a3⟩ := ih
    obtain ⟨r1, r2, r3⟩ := report_failure_true (failed_sessions k m).1
    obtain ⟨e1, e2⟩ := failed_sessions_succ_running m k a1
    have hlt : (k % 256 + 1) % 256 < 256 := Nat.mod_lt _ (by omega)
    have hno : ¬ ((failed_sessions k m).1.failures_before_reboot_ > 0
        ∧ ((failed_sessions k m).1.stats_.failures_ + 1) % 256
            > (failed_sessions k m).1.failures_before_reboot_) := by
      rw [i0, a2]
      omega
    rw [if_neg hno, a3] at r3
    rw [i0] at r2
    rw [a2] at r1
    rw [e1, e2, a3]
    refine ⟨r2, ?_, ?_, r3⟩
    · rw [decide_eq_false_iff_not, r3]
      omega
    · rw [r1]
      omega

theorem set_sensor_value_eq (f : List Nat → Nat) (line : List Nat)
    (vals : List (Option Nat)) (sensor : Sensor) :
    set_sensor_value_ f line vals sensor
      = if (sensor.idx_ + 255) % 256 ≥ VAL_NUM then (false, sensor)
        else
          match sensor.type with
          | SensorType.SENSOR =>
            if (extracted_str line vals sensor).getD 0 0 ≠ 0
                ∧ char2float f (extracted_str line vals sensor) = true then
              (true, sensor.set_value (c_str (extracted_str line vals sensor)))
            else (false, sensor)
          | SensorType.TEXT_SENSOR =>
            (true, sensor.set_value (c_str (extracted_str line vals sensor))) := by
  rfl

/-- The sum of a list after one element has been replaced. -/
theorem sum_set (l : List Nat) (j v : Nat) (h : j < l.length) :
    (l.set j v).sum + l.getD j 0 = l.sum + v := by
  induction l generalizing j with
  | nil => simp at h
  | cons x l ih =>
    cases j with
    | zero => simp [List.getD_eq_getElem?_getD]; omega
    | succ j =>
      have := ih j (by simpa using h)
      simp only [List.set_cons_succ, List.sum_cons, List.getD_cons_succ]
      omega

theorem c_str_cons (b : Nat) (l : List Nat) (hb : b ≠ 0) : c_str (b :: l) = b :: c_str l := by
  unfold c_str
  simp [List.takeWhile_cons, hb]

theorem c_str_cons_zero (l : List Nat) : c_str (0 :: l) = [] := by
  unfold c_str
  simp [List.takeWhile_cons]

/-- The search `strchr` fails when the byte does not occur before the terminator. -/
theorem strchr_from_none (c : Nat) (hc : c ≠ 0) :
    ∀ (l : List Nat) (i : Nat), c ∉ c_str l → strchr_from l c i = none := by
  intro l
  induction l with
  | nil => intro i _; simp [strchr_from, hc]
  | cons b l ih =>
    intro i h
    rw [strchr_from]
    by_cases hb0 : b = 0
    · subst hb0
      have : ¬ (0 = c) := fun h => hc h.symm
      simp [this]
    · rw [c_str_cons b l hb0] at h
      have hbc : b ≠ c := fun e => h (by simp [e])
      simp only [hbc, hb0, if_false]
      exact ih (i + 1) (fun hm => h (List.mem_cons_of_mem _ hm))

/-- The search `strchr` succeeds when the byte occurs before the terminator. -/
theorem strchr_from_some (c : Nat) :
    ∀ (l : List Nat) (i : Nat), c ∈ c_str l → ∃ e, strchr_from l c i = some e := by
  intro l
  induction l with
  | nil => intro i h; simp [c_str] at h
  | cons b l ih =>
    intro i h
    rw [strchr_from]
    by_cases hbc : b = c
    · exact ⟨i, by simp [hbc]⟩
    · by_cases hb0 : b = 0
      · subst hb0
        rw [c_str_cons_zero] at h
        exact absurd h (List.not_mem_nil c)
      · rw [c_str_cons b l hb0] at h
        simp only [hbc, hb0, if_false]
        rcases List.mem_cons.mp h with e | hm
        · exact absurd e.symm hbc
        · exact ih (i + 1) hm

/-! ## Lemmas on the handshake -/

theorem same_baud_refl (m : Machine) : SameBaud m m := ⟨rfl, rfl, rfl⟩

theorem same_baud_trans {a b c : Machine} (h1 : SameBaud a b) (h2 : SameBaud b c) :
    SameBaud a c :=
  ⟨h2.baud_rate_handshake_.trans h1.baud_rate_handshake_, h2.baud_rate_.trans h1.baud_rate_,
    h2.uart_baud.trans h1.uart_baud⟩

theorem waiting_read_baud (e : Env) (m : Machine) : SameBaud m (waiting_read e m) := by
  unfold waiting_read call_read_fn
  split <;> exact ⟨rfl, rfl, rfl⟩

theorem waiting_success_baud (e : Env) (m : Machine) : SameBaud m (waiting_success e m) :=
  ⟨rfl, rfl, rfl⟩

theorem waiting_count_error_baud (m : Machine) : SameBaud m (waiting_count_error m) := by
  unfold waiting_count_error
  split
  · exact ⟨rfl, rfl, rfl⟩
  · split <;> exact ⟨rfl, rfl, rfl⟩

theorem waiting_clear_baud (m : Machine) : SameBaud m (waiting_clear m) := by
  unfold waiting_clear clear_rx_buffers_
  split <;> exact ⟨rfl, rfl, rfl⟩

theorem report_failure_baud (b : Bool) (m : Machine) : SameBaud m (report_failure b m) := by
  unfold report_failure
  split
  · exact ⟨rfl, rfl, rfl⟩
  · simp only []
    split <;> exact ⟨rfl, rfl, rfl⟩

theorem abort_mission_baud (m : Machine) : SameBaud m (abort_mission_ m) := by
  unfold abort_mission_
  exact same_baud_trans
    (show SameBaud m (set_next_state_ State.IDLE (send_frame_ CMD_CLOSE_SESSION m)) from
      ⟨rfl, rfl, rfl⟩)
    (report_failure_baud true _)

theorem waiting_failure_baud (e : Env) (m : Machine) : SameBaud m (waiting_failure e m) := by
  unfold waiting_failure
  split
  · have h := abort_mission_baud { m with stats_ := { m.stats_ with
      crc_errors_ := (m.stats_.crc_errors_ + m.reading_state_.err_crc) % 4294967296,
      invalid_frames_ :=
        (m.stats_.invalid_frames_ + m.reading_state_.err_invalid_frames) % 4294967296 } }
    exact ⟨h.baud_rate_handshake_, h.baud_rate_, h.uart_baud⟩
  · split <;> exact ⟨rfl, rfl, rfl⟩

theorem step_waiting_baud (e : Env) (m : Machine) :
    SameBaud m (step_WAITING_FOR_RESPONSE e m) := by
  have r := waiting_read_baud e m
  unfold step_WAITING_FOR_RESPONSE
  simp only []
  split
  · exact same_baud_trans r (waiting_success_baud e _)
  · split
    · exact r
    · exact same_baud_trans
        (same_baud_trans (same_baud_trans r (waiting_count_error_baud _)) (waiting_clear_baud _))
        (waiting_failure_baud e _)

/-! ## The identification step always has a frame -/

theorem idinv_of_plain (m : Machine) (h1 : m.state_ ≠ State.OPEN_SESSION_GET_ID)
    (h2 : m.state_ ≠ State.WAIT) (h3 : m.state_ ≠ State.WAITING_FOR_RESPONSE) : IdInv m := by
  unfold IdInv
  split <;> simp_all

theorem idinv_abort (m : Machine) : IdInv (abort_mission_ m) := by
  apply idinv_of_plain <;> rw [abort_mission_state] <;> decide

theorem idinv_delayed (e : Env) (ms : Nat) (s : State) (m : Machine)
    (h : s = State.SET_BAUD ∨ s = State.ACK_START_GET_INFO ∨ s = State.DATA_ENQ
      ∨ s = State.CLOSE_SESSION) :
    IdInv (set_next_state_delayed_ e ms s m) := by
  unfold set_next_state_delayed_
  split
  · apply idinv_of_plain <;> rcases h with h | h | h | h <;> simp [set_next_state_, h]
  · simp only [IdInv]
    exact h

theorem idinv_IDLE (e : Env) (m : Machine) (hs : m.state_ = State.IDLE) :
    IdInv (step_IDLE e m) := by
  unfold step_IDLE
  simp only []
  split
  · apply idinv_of_plain <;> simp [update_last_rx_time_, hs]
  · simp [IdInv, read_reply_and_go_next_state_]

theorem idinv_WAIT (e : Env) (m : Machine) (hs : m.state_ = State.WAIT) (hi : IdInv m) :
    IdInv (step_WAIT e m) := by
  unfold step_WAIT
  split
  · simp only [IdInv, hs] at hi
    apply idinv_of_plain <;> rcases hi with h | h | h | h <;>
      simp [update_last_rx_time_, set_next_state_, h]
  · exact hi

theorem idinv_WAITING (e : Env) (m : Machine)
    (hs : m.state_ = State.WAITING_FOR_RESPONSE) (hi : IdInv m) :
    IdInv (step_WAITING_FOR_RESPONSE e m) := by
  simp only [IdInv, hs] at hi
  have r := waiting_read_same e m
  have r' := (r.trans (waiting_count_error_same _)).trans
    (waiting_clear_same (waiting_count_error (waiting_read e m)))
  unfold step_WAITING_FOR_RESPONSE
  simp only []
  split
  · rename_i hc
    have hsz : (waiting_read e m).received_frame_size_ ≠ 0 := Nat.pos_iff_ne_zero.mp hc.1
    rcases hi with ⟨h, _⟩ | h | h | h
    · simp [IdInv, waiting_success, update_last_rx_time_, set_next_state_, r.next_state, h, hsz]
    · apply idinv_of_plain <;>
        simp [waiting_success, update_last_rx_time_, set_next_state_, r.next_state, h]
    · apply idinv_of_plain <;>
        simp [waiting_success, update_last_rx_time_, set_next_state_, r.next_state, h]
    · apply idinv_of_plain <;>
        simp [waiting_success, update_last_rx_time_, set_next_state_, r.next_state, h]
  · split
    · simp only [IdInv, r.state_, hs, r.next_state, r.mission_critical]
      exact hi
    · unfold waiting_failure
      split
      · exact idinv_abort _
      · rename_i hmc
        have hmc2 : m.reading_state_.mission_critical ≠ true := by
          rw [← r'.mission_critical]; exact hmc
        have hi2 : m.reading_state_.next_state = State.ACK_START_GET_INFO
            ∨ m.reading_state_.next_state = State.DATA_RECV
            ∨ m.reading_state_.next_state = State.SINGLE_READ_ACK := by
          rcases hi with ⟨_, h⟩ | h
          · exact absurd h hmc2
          · exact h
        split
        · simp only [IdInv, update_last_rx_time_, send_frame_prepared_, r'.state_, hs,
            r'.next_state]
          exact Or.inr hi2
        · apply idinv_of_plain <;> rcases hi2 with h | h | h <;>
            simp [set_next_state_, r'.next_state, h]

theorem idinv_OPEN_SESSION (e : Env) (m : Machine) : IdInv (step_OPEN_SESSION e m) := by
  simp [IdInv, step_OPEN_SESSION, read_reply_and_go_next_state_]

theorem idinv_GET_ID (e : Env) (m : Machine) (hi : m.received_frame_size_ ≠ 0) :
    IdInv (step_OPEN_SESSION_GET_ID e m)
    ∧ ((step_OPEN_SESSION_GET_ID e m).state_ = State.IDLE
        ∨ (step_OPEN_SESSION_GET_ID e m).state_ = State.WAIT
        ∨ (step_OPEN_SESSION_GET_ID e m).state_ = State.WAITING_FOR_RESPONSE) := by
  unfold step_OPEN_SESSION_GET_ID
  rw [if_pos hi]
  simp only []
  split
  · exact ⟨idinv_abort _, Or.inl (abort_mission_state _)⟩
  · split
    · refine ⟨idinv_delayed _ _ _ _ (Or.inl rfl), Or.inr (Or.inl ?_)⟩
      simp [set_next_state_delayed_]
    · refine ⟨?_, Or.inr (Or.inr ?_)⟩
      · simp [IdInv, read_reply_and_go_next_state_]
      · simp [read_reply_and_go_next_state_]

theorem idinv_SET_BAUD (e : Env) (m : Machine) : IdInv (step_SET_BAUD e m) := by
  unfold step_SET_BAUD
  exact idinv_delayed _ _ _ _ (Or.inr (Or.inl rfl))

theorem idinv_ACK_START_GET_INFO (m : Machine) : IdInv (step_ACK_START_GET_INFO m) := by
  unfold step_ACK_START_GET_INFO
  split
  · exact idinv_abort _
  · simp only []
    split
    · exact idinv_abort _
    · apply idinv_of_plain <;> simp [set_next_state_]

theorem idinv_DATA_ENQ (m : Machine) : IdInv (step_DATA_ENQ m) := by
  unfold step_DATA_ENQ
  split
  · apply idinv_of_plain <;> simp [set_next_state_]
  · simp [IdInv, read_reply_and_go_next_state_]

theorem step_DATA_RECV_state (f : List Nat → Nat) (e : Env) (m : Machine) :
    (step_DATA_RECV f e m).state_ = State.DATA_NEXT := by
  unfold step_DATA_RECV
  simp only []
  split
  · rfl
  · split
    · rfl
    · split
      · rfl
      · split
        · rfl
        · split <;> rfl

theorem idinv_DATA_RECV (f : List Nat → Nat) (e : Env) (m : Machine) :
    IdInv (step_DATA_RECV f e m) := by
  apply idinv_of_plain <;> rw [step_DATA_RECV_state] <;> decide

theorem idinv_DATA_NEXT (e : Env) (m : Machine) : IdInv (step_DATA_NEXT e m) := by
  unfold step_DATA_NEXT
  simp only []
  split
  · exact idinv_delayed _ _ _ _ (Or.inr (Or.inr (Or.inl rfl)))
  · exact idinv_delayed _ _ _ _ (Or.inr (Or.inr (Or.inr rfl)))

theorem idinv_PUBLISH (e : Env) (m : Machine) (hs : m.state_ = State.PUBLISH) :
    IdInv (step_PUBLISH e m) := by
  unfold step_PUBLISH
  simp only []
  split
  · apply idinv_of_plain <;> simp [update_last_rx_time_, hs]
  · apply idinv_of_plain <;> simp [set_next_state_]

theorem idinv_arrive (e : Env) (m : Machine) (hi : IdInv m) : IdInv (uart_arrive e m) := hi

/-- One call of `loop()` keeps the invariant. -/
theorem idinv_loop (f : List Nat → Nat) (e : Env) (m : Machine) (hi : IdInv m) :
    IdInv (loop f e m) := by
  have h0 : IdInv (uart_arrive e m) := idinv_arrive e m hi
  unfold loop
  simp only []
  split
  all_goals rename_i hs
  · exact h0
  · exact idinv_IDLE e _ hs
  · exact idinv_WAIT e _ hs h0
  · exact idinv_WAITING e _ hs h0
  · exact idinv_OPEN_SESSION e _
  · refine (idinv_GET_ID e _ ?_).1
    simpa [IdInv, hs] using h0
  · exact idinv_SET_BAUD e _
  · exact idinv_ACK_START_GET_INFO _
  · exact idinv_DATA_ENQ _
  · exact idinv_DATA_RECV f e _
  · exact idinv_DATA_NEXT e _
  · apply idinv_of_plain <;> simp [step_CLOSE_SESSION, set_next_state_]
  · exact idinv_PUBLISH e _ hs
  · exact h0
  · apply idinv_of_plain <;> simp [step_SINGLE_READ_ACK, set_next_state_]

theorem idinv_update (m : Machine) (hi : IdInv m) : IdInv (update m) := by
  unfold update
  split
  · exact hi
  · apply idinv_of_plain <;> simp [set_next_state_]

theorem idinv_calls (f : List Nat → Nat) (cs : List Call) :
    ∀ m, IdInv m → IdInv (calls f cs m) := by
  induction cs with
  | nil => intro m hi; exact hi
  | cons c cs ih =>
    intro m hi
    apply ih
    cases c with
    | loop e => exact idinv_loop f e m hi
    | update => exact idinv_update m hi

theorem loop_get_id (f : List Nat → Nat) (e : Env) (m : Machine)
    (hs : m.state_ = State.OPEN_SESSION_GET_ID) :
    loop f e m = step_OPEN_SESSION_GET_ID e (uart_arrive e m) := by
  have : (uart_arrive e m).state_ = State.OPEN_SESSION_GET_ID := hs
  simp [loop, this]

/-! ## A session with equal baud rates -/

theorem hsinv_abort (b : Nat) (m : Machine) (h1 : m.baud_rate_handshake_ = m.baud_rate_)
    (h2 : m.uart_baud = b) : HandshakeInv b (abort_mission_ m) := by
  have hb := abort_mission_baud m
  refine ⟨by rw [hb.baud_rate_handshake_, hb.baud_rate_]; exact h1,
    by rw [hb.uart_baud]; exact h2, ?_⟩
  rw [abort_mission_state]
  trivial

theorem hsinv_OPEN_SESSION (b : Nat) (e : Env) (m : Machine)
    (h1 : m.baud_rate_handshake_ = m.baud_rate_) (h2 : m.uart_baud = b) :
    HandshakeInv b (step_OPEN_SESSION e m) := by
  unfold step_OPEN_SESSION
  have hne : ¬ (clear_rx_buffers_ { m with
      stats_ := { m.stats_ with
        connections_tried_ := (m.stats_.connections_tried_ + 1) % 4294967296 },
      session_started_ms := e.now }).baud_rate_handshake_
      ≠ (clear_rx_buffers_ { m with
      stats_ := { m.stats_ with
        connections_tried_ := (m.stats_.connections_tried_ + 1) % 4294967296 },
      session_started_ms := e.now }).baud_rate_ := fun h => h h1
  simp only [hne, if_false]
  exact ⟨h1, h2, rfl, Or.inl rfl⟩

theorem hsinv_GET_ID (b : Nat) (e : Env) (m : Machine)
    (h1 : m.baud_rate_handshake_ = m.baud_rate_) (h2 : m.uart_baud = b)
    (h3 : m.received_frame_size_ ≠ 0) :
    HandshakeInv b (step_OPEN_SESSION_GET_ID e m) := by
  unfold step_OPEN_SESSION_GET_ID
  rw [if_pos h3]
  simp only []
  split
  · exact hsinv_abort b _ h1 h2
  · have hne : ¬ (update_last_rx_time_ e { m with
        buffers_ := (extract_meter_id_ m.received_frame_size_ m.buffers_).2 }).baud_rate_handshake_
        ≠ (update_last_rx_time_ e { m with
        buffers_ := (extract_meter_id_ m.received_frame_size_ m.buffers_).2 }).baud_rate_ :=
      fun h => h h1
    rw [if_neg hne]
    exact ⟨h1, h2, rfl, Or.inr rfl⟩

theorem hsinv_of (b : Nat) (m : Machine) (h1 : m.baud_rate_handshake_ = m.baud_rate_)
    (h2 : m.uart_baud = b)
    (h : m.state_ = State.IDLE ∨ m.state_ = State.ACK_START_GET_INFO
      ∨ m.state_ = State.OPEN_SESSION
      ∨ (m.state_ = State.OPEN_SESSION_GET_ID ∧ m.received_frame_size_ ≠ 0)
      ∨ (m.state_ = State.WAITING_FOR_RESPONSE ∧ m.reading_state_.mission_critical = true
          ∧ (m.reading_state_.next_state = State.OPEN_SESSION_GET_ID
              ∨ m.reading_state_.next_state = State.ACK_START_GET_INFO))) :
    HandshakeInv b m := by
  refine ⟨h1, h2, ?_⟩
  rcases h with h | h | h | ⟨h, h3⟩ | ⟨h, h3⟩ <;> simp only [h]
  · exact h3
  · exact h3

theorem hsinv_WAITING (b : Nat) (e : Env) (m : Machine)
    (hs : m.state_ = State.WAITING_FOR_RESPONSE) (hi : HandshakeInv b m) :
    HandshakeInv b (step_WAITING_FOR_RESPONSE e m) := by
  obtain ⟨h1, h2, h3⟩ := hi
  simp only [hs] at h3
  obtain ⟨hmc, hn⟩ := h3
  have hb := step_waiting_baud e m
  apply hsinv_of b _ (by rw [hb.baud_rate_handshake_, hb.baud_rate_]; exact h1)
    (by rw [hb.uart_baud]; exact h2)
  have r := waiting_read_same e m
  have r' := (r.trans (waiting_count_error_same _)).trans
    (waiting_clear_same (waiting_count_error (waiting_read e m)))
  unfold step_WAITING_FOR_RESPONSE
  simp only []
  split
  · rename_i hc
    have hsz : (waiting_read e m).received_frame_size_ ≠ 0 := Nat.pos_iff_ne_zero.mp hc.1
    have hst : (waiting_success e (waiting_read e m)).state_ = m.reading_state_.next_state :=
      r.next_state
    have hsize : (waiting_success e (waiting_read e m)).received_frame_size_
        = (waiting_read e m).received_frame_size_ := rfl
    rcases hn with h | h
    · exact Or.inr (Or.inr (Or.inr (Or.inl ⟨hst.trans h, by rw [hsize]; exact hsz⟩)))
    · exact Or.inr (Or.inl (hst.trans h))
  · split
    · refine Or.inr (Or.inr (Or.inr (Or.inr ⟨r.state_.trans hs, ?_, ?_⟩)))
      · rw [r.mission_critical]; exact hmc
      · rw [r.next_state]; exact hn
    · unfold waiting_failure
      rw [if_pos (by rw [r'.mission_critical]; exact hmc)]
      exact Or.inl (abort_mission_state _)

/-- One call of `loop()` between `OPEN_SESSION` and `ACK_START_GET_INFO`. -/
theorem hsinv_loop (b : Nat) (f : List Nat → Nat) (e : Env) (m : Machine)
    (hi : HandshakeInv b m) (hn1 : m.state_ ≠ State.ACK_START_GET_INFO)
    (hn2 : m.state_ ≠ State.IDLE) : HandshakeInv b (loop f e m) := by
  have h0 : HandshakeInv b (uart_arrive e m) := hi
  obtain ⟨h1, h2, h3⟩ := h0
  have g1 : (uart_arrive e m).state_ ≠ State.ACK_START_GET_INFO := hn1
  have g2 : (uart_arrive e m).state_ ≠ State.IDLE := hn2
  unfold loop
  simp only []
  split
  all_goals rename_i hs
  all_goals try (simp only [hs] at h3)
  · exact absurd hs g2
  · exact hsinv_WAITING b e _ hs ⟨h1, h2, by simp only [hs]; exact h3⟩
  · exact hsinv_OPEN_SESSION b e _ h1 h2
  · exact hsinv_GET_ID b e _ h1 h2 h3
  · exact absurd hs g1

theorem hsinv_run (b : Nat) (f : List Nat → Nat) (envs : List Env) :
    ∀ m, HandshakeInv b m →
      (∀ k, k < envs.length →
        (run f (envs.take k) m).state_ ≠ State.ACK_START_GET_INFO
        ∧ (run f (envs.take k) m).state_ ≠ State.IDLE) →
      HandshakeInv b (run f envs m) := by
  induction envs with
  | nil => intro m hi _; exact hi
  | cons e es ih =>
    intro m hi hrun
    have h0 := hrun 0 (by simp)
    apply ih (loop f e m) (hsinv_loop b f e m hi h0.1 h0.2)
    intro k hk
    exact hrun (k + 1) (by simp; omega)

/-! ## The steps of the handshake one by one -/

theorem loop_get_id_one_baud (f : List Nat → Nat) (e : Env) (m : Machine) (p : Nat)
    (hs : m.state_ = State.OPEN_SESSION_GET_ID) (hsize : m.received_frame_size_ ≠ 0)
    (hid : (extract_meter_id_ m.received_frame_size_ m.buffers_).1 = some p)
    (hb : m.baud_rate_handshake_ = m.baud_rate_) :
    loop f e m
      = read_reply_and_go_next_state_ (ReadFunction.prog SOH false) State.ACK_START_GET_INFO 3
          true true
          (send_frame_ CMD_ACK_SET_BAUD_AND_MODE
            (update_last_rx_time_ e { uart_arrive e m with
              buffers_ := (extract_meter_id_ m.received_frame_size_ m.buffers_).2 })) := by
  rw [loop_get_id f e m hs]
  unfold step_OPEN_SESSION_GET_ID
  have h1 : (uart_arrive e m).received_frame_size_ ≠ 0 := hsize
  have h2 : (extract_meter_id_ (uart_arrive e m).received_frame_size_
      (uart_arrive e m).buffers_).1 = some p := hid
  rw [if_pos h1]
  simp only [h2]
  split
  · rename_i hne
    exact absurd hb hne
  · rfl

theorem loop_get_id_two_bauds (f : List Nat → Nat) (e : Env) (m : Machine) (p : Nat)
    (hs : m.state_ = State.OPEN_SESSION_GET_ID) (hsize : m.received_frame_size_ ≠ 0)
    (hid : (extract_meter_id_ m.received_frame_size_ m.buffers_).1 = some p)
    (hb : m.baud_rate_handshake_ ≠ m.baud_rate_) :
    loop f e m
      = { send_frame_prepared_
            { update_last_rx_time_ e { uart_arrive e m with
                buffers_ := (extract_meter_id_ m.received_frame_size_ m.buffers_).2 } with
              buffers_ :=
                { prepare_frame_ CMD_ACK_SET_BAUD_AND_MODE
                    (extract_meter_id_ m.received_frame_size_ m.buffers_).2 with
                  out := (prepare_frame_ CMD_ACK_SET_BAUD_AND_MODE
                    (extract_meter_id_ m.received_frame_size_ m.buffers_).2).out.set 2
                      (baud_rate_to_byte m.baud_rate_) } } with
          state_ := State.WAIT, wait_ := ⟨e.now, 250, State.SET_BAUD⟩ } := by
  rw [loop_get_id f e m hs]
  unfold step_OPEN_SESSION_GET_ID
  have h1 : (uart_arrive e m).received_frame_size_ ≠ 0 := hsize
  have h2 : (extract_meter_id_ (uart_arrive e m).received_frame_size_
      (uart_arrive e m).buffers_).1 = some p := hid
  rw [if_pos h1]
  simp only [h2]
  split
  · rfl
  · rename_i hne
    exact absurd hb hne

theorem loop_wait_elapsed (f : List Nat → Nat) (e : Env) (m : Machine)
    (hs : m.state_ = State.WAIT) (ht : check_wait_timeout_ e m = true) :
    loop f e m = update_last_rx_time_ e (set_next_state_ m.wait_.next_state (uart_arrive e m)) := by
  have h : (uart_arrive e m).state_ = State.WAIT := hs
  have hl : loop f e m = step_WAIT e (uart_arrive e m) := by
    simp [loop, h]
  have ht2 : check_wait_timeout_ e (uart_arrive e m) = true := ht
  rw [hl]
  unfold step_WAIT
  rw [if_pos ht2]
  rfl

theorem loop_set_baud (f : List Nat → Nat) (e : Env) (m : Machine)
    (hs : m.state_ = State.SET_BAUD) :
    loop f e m
      = { update_last_rx_time_ e (uart_arrive e m) with
          uart_baud := m.baud_rate_,
          state_ := State.WAIT, wait_ := ⟨e.now, 150, State.ACK_START_GET_INFO⟩ } := by
  have h : (uart_arrive e m).state_ = State.SET_BAUD := hs
  have hl : loop f e m = step_SET_BAUD e (uart_arrive e m) := by
    simp [loop, h]
  rw [hl]
  rfl

theorem loop_ack_start (f : List Nat → Nat) (e : Env) (m : Machine)
    (hs : m.state_ = State.ACK_START_GET_INFO) :
    loop f e m = step_ACK_START_GET_INFO (uart_arrive e m) := by
  have h : (uart_arrive e m).state_ = State.ACK_START_GET_INFO := hs
  simp [loop, h]

/-- The baud selection sent when the two baud rates differ. -/
theorem baud_select_frame (baud : Nat) (b : Buffers) :
    prepared_frame
      { prepare_frame_ CMD_ACK_SET_BAUD_AND_MODE b with
        out := (prepare_frame_ CMD_ACK_SET_BAUD_AND_MODE b).out.set 2 baud }
      = [ACK, 0x30, baud, 0x31, CR, LF] := by
  simp [prepared_frame, prepare_frame_, CMD_ACK_SET_BAUD_AND_MODE]

/-- What the end of a wait leaves alone. -/
theorem loop_wait_elapsed_fields (f : List Nat → Nat) (e : Env) (m : Machine)
    (hs : m.state_ = State.WAIT) (ht : check_wait_timeout_ e m = true) :
    (loop f e m).state_ = m.wait_.next_state
    ∧ (loop f e m).uart_tx = m.uart_tx
    ∧ (loop f e m).uart_baud = m.uart_baud
    ∧ (loop f e m).uart_rx = m.uart_rx ++ e.arrive
    ∧ (loop f e m).received_frame_size_ = m.received_frame_size_
    ∧ (loop f e m).buffers_ = m.buffers_
    ∧ (loop f e m).baud_rate_ = m.baud_rate_ := by
  rw [loop_wait_elapsed f e m hs ht]
  exact ⟨rfl, rfl, rfl, rfl, rfl, rfl, rfl⟩

/-- What the `SET_BAUD` step does. -/
theorem loop_set_baud_fields (f : List Nat → Nat) (e : Env) (m : Machine)
    (hs : m.state_ = State.SET_BAUD) :
    (loop f e m).state_ = State.WAIT
    ∧ (loop f e m).wait_ = ⟨e.now, 150, State.ACK_START_GET_INFO⟩
    ∧ (loop f e m).uart_tx = m.uart_tx
    ∧ (loop f e m).uart_baud = m.baud_rate_
    ∧ (loop f e m).uart_rx = m.uart_rx ++ e.arrive
    ∧ (loop f e m).received_frame_size_ = m.received_frame_size_
    ∧ (loop f e m).buffers_ = m.buffers_ := by
  rw [loop_set_baud f e m hs]
  exact ⟨rfl, rfl, rfl, rfl, rfl, rfl, rfl⟩

/-- What the identification step does when the two baud rates differ. -/
theorem loop_get_id_two_bauds_fields (f : List Nat → Nat) (e : Env) (m : Machine) (p : Nat)
    (hs : m.state_ = State.OPEN_SESSION_GET_ID) (hsize : m.received_frame_size_ ≠ 0)
    (hid : (extract_meter_id_ m.received_frame_size_ m.buffers_).1 = some p)
    (hb : m.baud_rate_handshake_ ≠ m.baud_rate_) :
    (loop f e m).state_ = State.WAIT
    ∧ (loop f e m).wait_ = ⟨e.now, 250, State.SET_BAUD⟩
    ∧ (loop f e m).uart_tx
        = m.uart_tx ++ [[ACK, 0x30, baud_rate_to_byte m.baud_rate_, 0x31, CR, LF]]
    ∧ (loop f e m).uart_rx = m.uart_rx ++ e.arrive
    ∧ (loop f e m).received_frame_size_ = m.received_frame_size_
    ∧ (loop f e m).buffers_.in_ = (extract_meter_id_ m.received_frame_size_ m.buffers_).2.in_
    ∧ (loop f e m).baud_rate_ = m.baud_rate_ := by
  rw [loop_get_id_two_bauds f e m p hs hsize hid hb]
  refine ⟨rfl, rfl, ?_, rfl, rfl, rfl, rfl⟩
  show m.uart_tx ++ [prepared_frame _] = _
  rw [baud_select_frame]

/-- What the `ACK_START_GET_INFO` step does on a non-empty frame. -/
theorem loop_ack_start_fields (f : List Nat → Nat) (e : Env) (m : Machine)
    (hs : m.state_ = State.ACK_START_GET_INFO) (hsize : m.received_frame_size_ ≠ 0) :
    (loop f e m).state_
        = (if (get_values_from_brackets_ (m.buffers_.in_.drop 1)).1 = 0 then State.IDLE
            else State.DATA_ENQ)
    ∧ (loop f e m).uart_rx = m.uart_rx ++ e.arrive := by
  rw [loop_ack_start f e m hs]
  unfold step_ACK_START_GET_INFO
  have h1 : ¬ (uart_arrive e m).received_frame_size_ = 0 := hsize
  have hcount : (parse_in_param (uart_arrive e m)).1
      = (get_values_from_brackets_ (m.buffers_.in_.drop 1)).1 := rfl
  have hrx : ∀ x : Machine, (abort_mission_ x).uart_rx = x.uart_rx := by
    intro x
    simp only [abort_mission_, report_failure, set_next_state_, send_frame_,
      send_frame_prepared_, Bool.not_true, Bool.false_eq_true, if_false]
    split <;> rfl
  rw [if_neg h1]
  simp only [hcount]
  split
  · exact ⟨abort_mission_state _, by rw [hrx]; rfl⟩
  · exact ⟨rfl, rfl⟩

/-! ## Lemmas on lines without a pair of brackets -/

theorem bp_nil : ¬ BracketPair [] := by
  rintro ⟨pre, post, h, _⟩
  have : c_str [] = [] := rfl
  rw [this] at h
  cases pre <;> simp at h

theorem bp_zero (l : List Nat) : ¬ BracketPair (0 :: l) := by
  rintro ⟨pre, post, h, _⟩
  rw [c_str_cons_zero] at h
  cases pre <;> simp at h

theorem bp_mem (l : List Nat) (h : BracketPair l) : 0x29 ∈ c_str l := by
  obtain ⟨pre, post, h1, h2⟩ := h
  rw [h1]
  exact List.mem_append_right _ (List.mem_cons_of_mem _ h2)

theorem bp_skip (b : Nat) (l : List Nat) (hb0 : b ≠ 0) (hb : b ≠ 0x28) :
    BracketPair (b :: l) ↔ BracketPair l := by
  constructor
  · rintro ⟨pre, post, h1, h2⟩
    rw [c_str_cons b l hb0] at h1
    cases pre with
    | nil =>
      simp only [List.nil_append, List.cons.injEq] at h1
      exact absurd h1.1 hb
    | cons x pre =>
      simp only [List.cons_append, List.cons.injEq] at h1
      exact ⟨pre, post, h1.2, h2⟩
  · rintro ⟨pre, post, h1, h2⟩
    refine ⟨b :: pre, post, ?_, h2⟩
    rw [c_str_cons b l hb0, h1]
    rfl

theorem bp_open (l : List Nat) : BracketPair (0x28 :: l) ↔ 0x29 ∈ c_str l := by
  have h28 : (0x28 : Nat) ≠ 0 := by decide
  constructor
  · rintro ⟨pre, post, h1, h2⟩
    rw [c_str_cons 0x28 l h28] at h1
    cases pre with
    | nil =>
      simp only [List.nil_append, List.cons.injEq, true_and] at h1
      rw [h1]; exact h2
    | cons x pre =>
      simp only [List.cons_append, List.cons.injEq] at h1
      rw [h1.2]
      exact List.mem_append_right _ (List.mem_cons_of_mem _ h2)
  · intro h
    exact ⟨[], c_str l, by rw [c_str_cons 0x28 l h28]; rfl, h⟩

theorem drop_of_getD_ne (mem : List Nat) (p : Nat) (h : mem.getD p 0 ≠ 0) :
    mem.drop p = mem.getD p 0 :: mem.drop (p + 1) := by
  have hp : p < mem.length := by
    by_contra hge
    apply h
    rw [List.getD_eq_getElem?_getD, List.getElem?_eq_none (by omega)]
    rfl
  rw [List.drop_eq_getElem_cons hp]
  congr 1
  rw [List.getD_eq_getElem?_getD, List.getElem?_eq_getElem hp]
  rfl

theorem bp_getD (mem : List Nat) (p : Nat) (h : BracketPair (mem.drop p)) :
    mem.getD p 0 ≠ 0 := by
  intro h0
  by_cases hp : p < mem.length
  · rw [List.drop_eq_getElem_cons hp] at h
    have : mem[p] = 0 := by
      rw [List.getD_eq_getElem?_getD, List.getElem?_eq_getElem hp] at h0
      exact h0
    rw [this] at h
    exact bp_zero _ h
  · rw [List.drop_eq_nil_of_le (by omega)] at h
    exact bp_nil h

/-- The count returned by the loop never goes below the count it starts with. -/
theorem brackets_loop_mono :
    ∀ (fuel : Nat) (mem : List Nat) (p idx : Nat) (got : Bool) (vals : List (Option Nat)),
      idx ≤ (brackets_loop fuel mem p idx got vals).1 := by
  intro fuel
  induction fuel with
  | zero => intro mem p idx got vals; exact Nat.le_refl _
  | succ fuel ih =>
    intro mem p idx got vals
    rw [brackets_loop]
    by_cases hc : mem.getD p 0 ≠ 0 ∧ idx < VAL_NUM
    · rw [if_pos hc]
      by_cases h28 : mem.getD p 0 = 0x28
      · rw [if_pos h28]
        generalize (if got = true then mem else mem.set p 0) = mem1
        cases hstr : strchr_ mem1 (p + 1) 0x29 with
        | none =>
          simp only [hstr]
          exact ih _ _ _ _ _
        | some e =>
          simp only [hstr]
          rw [if_pos hc.2]
          exact Nat.le_trans (Nat.le_succ idx) (ih _ _ _ _ _)
      · rw [if_neg h28]
        exact ih _ _ _ _ _
    · rw [if_neg hc]

/-- Without a pair of brackets ahead the loop stores nothing more. -/
theorem brackets_loop_none :
    ∀ (fuel : Nat) (mem : List Nat) (p idx : Nat) (got : Bool) (vals : List (Option Nat)),
      ¬ BracketPair (mem.drop p) →
      (brackets_loop fuel mem p idx got vals).1 = idx := by
  intro fuel
  induction fuel with
  | zero => intro mem p idx got vals _; rfl
  | succ fuel ih =>
    intro mem p idx got vals hno
    rw [brackets_loop]
    by_cases hc : mem.getD p 0 ≠ 0 ∧ idx < VAL_NUM
    · rw [if_pos hc]
      have hd := drop_of_getD_ne mem p hc.1
      by_cases h28 : mem.getD p 0 = 0x28
      · rw [if_pos h28]
        rw [hd, h28, bp_open] at hno
        generalize hmem1 : (if got = true then mem else mem.set p 0) = mem1
        have hdrop : mem1.drop (p + 1) = mem.drop (p + 1) := by
          rw [← hmem1]
          split
          · rfl
          · exact List.drop_set_of_lt 0 mem (Nat.lt_succ_self p)
        have hstr : strchr_ mem1 (p + 1) 0x29 = none := by
          unfold strchr_
          rw [hdrop]
          exact strchr_from_none 0x29 (by decide) _ _ hno
        simp only [hstr]
        apply ih
        rw [hdrop]
        exact fun hbp => hno (bp_mem _ hbp)
      · rw [if_neg h28]
        apply ih
        rw [hd, bp_skip _ _ hc.1 h28] at hno
        exact hno
    · rw [if_neg hc]

/-- With a pair of brackets ahead, room for a value and enough fuel the loop
stores at least one more value. -/
theorem brackets_loop_some :
    ∀ (fuel : Nat) (mem : List Nat) (p idx : Nat) (got : Bool) (vals : List (Option Nat)),
      BracketPair (mem.drop p) → idx < VAL_NUM → mem.length ≤ p + fuel →
      idx < (brackets_loop fuel mem p idx got vals).1 := by
  intro fuel
  induction fuel with
  | zero =>
    intro mem p idx got vals hbp _ hlen
    exfalso
    rw [List.drop_eq_nil_of_le (by omega)] at hbp
    exact bp_nil hbp
  | succ fuel ih =>
    intro mem p idx got vals hbp hidx hlen
    have hne := bp_getD mem p hbp
    have hd := drop_of_getD_ne mem p hne
    rw [brackets_loop, if_pos ⟨hne, hidx⟩]
    by_cases h28 : mem.getD p 0 = 0x28
    · rw [if_pos h28]
      rw [hd, h28, bp_open] at hbp
      generalize hmem1 : (if got = true then mem else mem.set p 0) = mem1
      have hdrop : mem1.drop (p + 1) = mem.drop (p + 1) := by
        rw [← hmem1]
        split
        · rfl
        · exact List.drop_set_of_lt 0 mem (Nat.lt_succ_self p)
      obtain ⟨e, he⟩ : ∃ e, strchr_ mem1 (p + 1) 0x29 = some e := by
        unfold strchr_
        rw [hdrop]
        exact strchr_from_some 0x29 _ _ hbp
      simp only [he]
      rw [if_pos hidx]
      exact Nat.lt_of_lt_of_le (Nat.lt_succ_self idx) (brackets_loop_mono _ _ _ _ _ _)
    · rw [if_neg h28]
      apply ih _ _ _ _ _ _ hidx (by omega)
      rw [hd, bp_skip _ _ hne h28] at hbp
      exact hbp

/-! ## Lemmas on fields that may be empty -/

/-- The function `strtok` steps over a comma at its starting position. -/
theorem strtok_skip_comma (pre r : List Nat) :
    strtok_ (pre ++ 0x2C :: r) pre.length 0x2C
      = strtok_ ((pre ++ [0x2C]) ++ r) (pre ++ [0x2C]).length 0x2C := by
  have e : (pre ++ [0x2C]) ++ r = pre ++ 0x2C :: r := by simp
  have h1 : (pre ++ 0x2C :: r).drop pre.length = 0x2C :: r := List.drop_left' rfl
  have h2 : (pre ++ 0x2C :: r).drop (pre ++ [0x2C]).length = r := by
    rw [← e]; exact List.drop_left' rfl
  have h3 : skip_delims (0x2C :: r) 0x2C pre.length
      = skip_delims r 0x2C (pre ++ [0x2C]).length := by
    rw [skip_delims]
    simp
  rw [e]
  unfold strtok_
  rw [h1, h2, h3]

theorem csv_loop_null (k : Nat) (mem : List Nat) (s i : Nat) :
    csv_loop k mem none s i = (none, mem) := by
  cases k <;> rfl

theorem filter_nonempty_length (fs : List (List Nat)) :
    (fs.filter (fun g => decide (g ≠ []))).length ≤ (comma_joined fs).length := by
  induction fs with
  | nil => simp [comma_joined]
  | cons g gs ih =>
    cases gs with
    | nil =>
      cases g with
      | nil => simp [comma_joined]
      | cons b g => simp [comma_joined]
    | cons h hs =>
      have hf : ((g :: h :: hs).filter (fun g => decide (g ≠ []))).length
          ≤ ((h :: hs).filter (fun g => decide (g ≠ []))).length + g.length := by
        cases g with
        | nil => simp
        | cons b g => simp [List.filter_cons]
      simp only [comma_joined, List.length_append, List.length_cons] at ih ⊢
      omega

/-- The loop of `get_nth_value_from_csv_` entered with the call of `strtok` that
looks for the next token: it ends on the `idx`-th non-empty field ahead. -/
theorem csv_loop_skips_empty (fs : List (List Nat)) :
    ∀ (pre : List Nat) (idx fuel : Nat),
      (∀ g ∈ fs, 0 ∉ g ∧ 0x2C ∉ g) → 1 ≤ idx → idx < 256 →
      (fs.filter (fun g => decide (g ≠ []))).length ≤ fuel →
      csv_str (csv_loop fuel (strtok_ (pre ++ comma_joined fs) pre.length 0x2C).2.1
          (strtok_ (pre ++ comma_joined fs) pre.length 0x2C).1
          (strtok_ (pre ++ comma_joined fs) pre.length 0x2C).2.2 idx)
        = (fs.filter (fun g => decide (g ≠ [])))[idx - 1]? := by
  induction fs with
  | nil =>
    intro pre idx fuel _ _ _ _
    have h := strtok_at_end pre 0x2C
    simp only [comma_joined, List.append_nil, h, csv_loop_null]
    simp [csv_str]
  | cons g gs ih =>
    intro pre idx fuel hclean h1 h256 hfuel
    have hg := hclean g (by simp)
    have hrest : ∀ x ∈ gs, 0 ∉ x ∧ 0x2C ∉ x :=
      fun x hx => hclean x (List.mem_cons_of_mem _ hx)
    by_cases hne : g = []
    · subst hne
      have hfil : ([] :: gs).filter (fun g => decide (g ≠ []))
          = gs.filter (fun g => decide (g ≠ [])) := by simp
      rw [hfil] at hfuel ⊢
      cases gs with
      | nil =>
        have h := strtok_at_end pre 0x2C
        simp only [comma_joined, List.append_nil, h, csv_loop_null]
        simp [csv_str]
      | cons h hs =>
        have e : pre ++ comma_joined ([] :: h :: hs) = pre ++ 0x2C :: comma_joined (h :: hs) := by
          simp [comma_joined]
        rw [e, strtok_skip_comma]
        exact ih (pre ++ [0x2C]) idx fuel hrest h1 h256 hfuel
    · have hfil : (g :: gs).filter (fun g => decide (g ≠ []))
          = g :: gs.filter (fun g => decide (g ≠ [])) := by simp [List.filter_cons, hne]
      rw [hfil] at hfuel ⊢
      obtain ⟨fuel, rfl⟩ : ∃ k, fuel = k + 1 := ⟨fuel - 1, by simp at hfuel; omega⟩
      rw [strtok_field pre g gs hne hg.1 hg.2]
      simp only []
      rw [csv_loop]
      by_cases hidx : idx = 1
      · subst hidx
        simp only [if_true, csv_str, Option.map_some']
        rw [List.append_assoc, List.drop_left' rfl]
        cases gs with
        | nil => simp [csv_tail, c_str_of_no_nul g hg.1]
        | cons h hs =>
          simp only [csv_tail]
          rw [c_str_append_nul g _ hg.1]
          simp
      · simp only [hidx, if_false]
        have hdec : (idx + 255) % 256 = idx - 1 := by omega
        obtain ⟨j, hj⟩ : ∃ j, idx - 1 = j + 1 := ⟨idx - 2, by omega⟩
        rw [hdec]
        cases gs with
        | nil =>
          have e : pre ++ g ++ csv_tail [] = (pre ++ g) ++ comma_joined [] := by
            simp [csv_tail, comma_joined]
          have l : csv_save pre g [] = (pre ++ g).length := by
            simp [csv_save]
          rw [e, l, ih (pre ++ g) (idx - 1) fuel hrest (by omega) (by omega)
            (by simp)]
          rw [hj]
          simp
        | cons h hs =>
          have e : pre ++ g ++ csv_tail (h :: hs)
              = (pre ++ g ++ [0]) ++ comma_joined (h :: hs) := by
            simp [csv_tail]
          have l : csv_save pre g (h :: hs) = (pre ++ g ++ [0]).length := by
            simp only [csv_save, List.length_append, List.length_singleton]
          rw [e, l, ih (pre ++ g ++ [0]) (idx - 1) fuel hrest (by omega) (by omega)
            (by simp only [List.length_cons] at hfuel; omega)]
          rw [hj]
          simp

/-! ## Lemmas on the bytes behind a NUL -/

theorem c_str_append_tail (y t : List Nat) : c_str (y ++ 0 :: t) = c_str y := by
  induction y with
  | nil => rw [List.nil_append, c_str_cons_zero]; rfl
  | cons b y ih =>
    by_cases hb : b = 0
    · subst hb
      rw [List.cons_append, c_str_cons_zero, c_str_cons_zero]
    · rw [List.cons_append, c_str_cons b _ hb, c_str_cons b _ hb, ih]

theorem getD_append_tail (a t : List Nat) (p : Nat) (hp : p ≤ a.length) :
    (a ++ 0 :: t).getD p 0 = a.getD p 0 := by
  rw [List.getD_eq_getElem?_getD, List.getD_eq_getElem?_getD]
  rcases Nat.lt_or_ge p a.length with h | h
  · rw [List.getElem?_append_left h]
  · have e : p = a.length := by omega
    subst e
    rw [List.getElem?_append_right (Nat.le_refl _), List.getElem?_eq_none (Nat.le_refl _)]
    simp

/-- The search `strchr` never looks behind a NUL. -/
theorem strchr_from_append_tail (c : Nat) (hc : c ≠ 0) (t : List Nat) :
    ∀ (a : List Nat) (i : Nat), strchr_from (a ++ 0 :: t) c i = strchr_from a c i := by
  intro a
  induction a with
  | nil =>
    intro i
    have h0 : ¬ (0 = c) := fun h => hc h.symm
    simp [strchr_from, h0, hc]
  | cons b a ih =>
    intro i
    rw [List.cons_append, strchr_from, strchr_from, ih]

/-- A byte found by `strchr` lies in the list searched. -/
theorem strchr_from_lt (c : Nat) (hc : c ≠ 0) :
    ∀ (a : List Nat) (i e : Nat), strchr_from a c i = some e → e < i + a.length := by
  intro a
  induction a with
  | nil =>
    intro i e h
    simp [strchr_from, hc] at h
  | cons b a ih =>
    intro i e h
    rw [strchr_from] at h
    split at h
    · cases h
      simp
    · split at h
      · cases h
      · have := ih (i + 1) e h
        simp only [List.length_cons]
        omega

theorem strchr_append_tail (s t : List Nat) (p : Nat) (hp : p ≤ s.length) :
    strchr_ (s ++ 0 :: t) p 0x29 = strchr_ s p 0x29 := by
  unfold strchr_
  rw [List.drop_append_of_le_length hp]
  exact strchr_from_append_tail 0x29 (by decide) t _ _

theorem strchr_lt (s : List Nat) (p e : Nat) (hp : p ≤ s.length)
    (h : strchr_ s p 0x29 = some e) : e < s.length := by
  unfold strchr_ at h
  have := strchr_from_lt 0x29 (by decide) _ _ _ h
  rw [List.length_drop] at this
  omega

theorem lt_of_getD_ne (s : List Nat) (p : Nat) (h : s.getD p 0 ≠ 0) : p < s.length := by
  by_contra hge
  apply h
  rw [List.getD_eq_getElem?_getD, List.getElem?_eq_none (by omega)]
  rfl

/-- The loop of `get_values_from_brackets_` never looks behind a NUL: on a
buffer continued by `0 :: t` it does what it does on the buffer alone. -/
theorem brackets_loop_tail (t : List Nat) :
    ∀ (fuel : Nat) (s : List Nat) (p idx : Nat) (got : Bool) (vals : List (Option Nat)),
      p ≤ s.length →
      brackets_loop fuel (s ++ 0 :: t) p idx got vals
        = with_tail t (brackets_loop fuel s p idx got vals) := by
  intro fuel
  induction fuel with
  | zero => intro s p idx got vals _; rfl
  | succ fuel ih =>
    intro s p idx got vals hp
    have hg := getD_append_tail s t p hp
    rw [brackets_loop, brackets_loop, hg]
    by_cases hc : s.getD p 0 ≠ 0 ∧ idx < VAL_NUM
    · have hlt := lt_of_getD_ne s p hc.1
      rw [if_pos hc, if_pos hc]
      by_cases h28 : s.getD p 0 = 0x28
      · rw [if_pos h28, if_pos h28]
        have hm : (if got = true then s ++ 0 :: t else (s ++ 0 :: t).set p 0)
            = (if got = true then s else s.set p 0) ++ 0 :: t := by
          split
          · rfl
          · exact List.set_append_left p 0 hlt
        simp only [hm]
        generalize hmem1 : (if got = true then s else s.set p 0) = mem1
        have hlen1 : mem1.length = s.length := by
          rw [← hmem1]; split <;> simp
        rw [strchr_append_tail mem1 t (p + 1) (by omega)]
        cases hstr : strchr_ mem1 (p + 1) 0x29 with
        | none =>
          simp only []
          exact ih mem1 (p + 1) idx true vals (by omega)
        | some e =>
          have he := strchr_lt mem1 (p + 1) e (by omega) hstr
          simp only []
          rw [if_pos hc.2, if_pos hc.2, List.set_append_left e 0 he]
          exact ih (mem1.set e 0) (e + 1) (idx + 1) true _ (by rw [List.length_set]; omega)
      · rw [if_neg h28, if_neg h28]
        exact ih s (p + 1) idx got vals (by omega)
    · rw [if_neg hc, if_neg hc]
      rfl

theorem get_values_tail (s t : List Nat) :
    get_values_from_brackets_ (s ++ 0 :: t) = with_tail t (get_values_from_brackets_ s) := by
  unfold get_values_from_brackets_
  rw [brackets_loop_tail t _ s 0 0 false _ (Nat.zero_le _)]
  have hl : (s ++ 0 :: t).length + 1 = (s.length + 1) + (t.length + 1) := by
    simp only [List.length_append, List.length_cons]
    omega
  rw [hl, brackets_loop_fuel (s.length + 1) (t.length + 1) s 0 0 false _ (by omega)]

/-- The buffer keeps its length, and every value slot points into it. -/
theorem brackets_loop_slots :
    ∀ (fuel : Nat) (mem : List Nat) (p idx : Nat) (got : Bool) (vals : List (Option Nat)),
      (∀ off, some off ∈ vals → off ≤ mem.length) →
      (brackets_loop fuel mem p idx got vals).2.1.length = mem.length
      ∧ ∀ off, some off ∈ (brackets_loop fuel mem p idx got vals).2.2 → off ≤ mem.length := by
  intro fuel
  induction fuel with
  | zero => intro mem p idx got vals h; exact ⟨rfl, h⟩
  | succ fuel ih =>
    intro mem p idx got vals h
    rw [brackets_loop]
    by_cases hc : mem.getD p 0 ≠ 0 ∧ idx < VAL_NUM
    · have hlt := lt_of_getD_ne mem p hc.1
      rw [if_pos hc]
      by_cases h28 : mem.getD p 0 = 0x28
      · rw [if_pos h28]
        generalize hmem1 : (if got = true then mem else mem.set p 0) = mem1
        have hlen1 : mem1.length = mem.length := by
          rw [← hmem1]; split <;> simp
        cases hstr : strchr_ mem1 (p + 1) 0x29 with
        | none =>
          simp only [hstr]
          have := ih mem1 (p + 1) idx true vals (by rw [hlen1]; exact h)
          rw [hlen1] at this
          exact this
        | some e =>
          simp only [hstr]
          rw [if_pos hc.2]
          have := ih (mem1.set e 0) (e + 1) (idx + 1) true (vals.set idx (some (p + 1)))
            (by
              intro off hoff
              rw [List.length_set, hlen1]
              rcases List.mem_or_eq_of_mem_set hoff with hm | he
              · exact h off hm
              · cases he; omega)
          rw [List.length_set, hlen1] at this
          exact this
      · rw [if_neg h28]
        exact ih mem (p + 1) idx got vals h
    · rw [if_neg hc]
      exact ⟨rfl, h⟩

theorem get_values_slots (line : List Nat) (i off : Nat)
    (h : (get_values_from_brackets_ line).2.2.getD i none = some off) :
    off ≤ (get_values_from_brackets_ line).2.1.length := by
  unfold get_values_from_brackets_ at h ⊢
  obtain ⟨h1, h2⟩ := brackets_loop_slots (line.length + 1) line 0 0 false
    (List.replicate VAL_NUM none) (by
      intro off hoff
      have := List.eq_of_mem_replicate hoff
      cases this)
  rw [h1]
  apply h2
  rw [List.getD_eq_getElem?_getD] at h
  cases hq : (brackets_loop (line.length + 1) line 0 0 false (List.replicate VAL_NUM none)).2.2[i]? with
  | none => rw [hq] at h; cases h
  | some v =>
    rw [hq] at h
    have hv : v = some off := h
    rw [← hv]
    exact List.getElem?_mem hq

/-- The string a value slot denotes is not changed by bytes behind a NUL. -/
theorem slot_str_tail (buf t : List Nat) (v : Option Nat)
    (hv : ∀ off, v = some off → off ≤ buf.length) :
    slot_str (buf ++ 0 :: t) v = slot_str buf v := by
  cases v with
  | none => rfl
  | some off =>
    show c_str ((buf ++ 0 :: t).drop off) = c_str (buf.drop off)
    rw [List.drop_append_of_le_length (hv off rfl), c_str_append_tail]

set_option maxRecDepth 100000

/-! ## Claims C1 and C2 -/

/-- C1: for every frame buffer and every length of at least 2 lying inside it,
writing the checksum with `calculate_crc_prog_frame_ (set_crc = true)` and then
calling `check_crc_prog_frame_` on the result returns true. -/
theorem c1_crc_set_then_check (F : List Nat) (length : Nat)
    (h2 : 2 ≤ length) (hlen : length ≤ F.length) :
    check_crc_prog_frame_ (calculate_crc_prog_frame_ F length true).2 length = true := by
  have hnl : ¬ length < 2 := by omega
  simp only [check_crc_prog_frame_, calculate_crc_prog_frame_, hnl, if_false, if_true]
  rw [crc_loop_set_outside F length (length - 1) _ (Or.inr (Nat.le_refl _))]
  rw [getD_set_self F (length - 1) _ (by omega)]
  simp

theorem c1_crc_set_then_check_witness :
    2 ≤ 5 ∧ 5 ≤ [SOH, 0x42, 0x30, ETX, 0xFF].length ∧
    check_crc_prog_frame_
      (calculate_crc_prog_frame_ [SOH, 0x42, 0x30, ETX, 0xFF] 5 true).2 5 = true :=
  ⟨by decide, by decide,
   c1_crc_set_then_check [SOH, 0x42, 0x30, ETX, 0xFF] 5 (by decide) (by decide)⟩

/-- C2: on a byte sequence of length n, `calculate_crc_prog_frame_` returns 0 when
n < 2 and otherwise the sum modulo 128 of the bytes at indices 1 .. n-2; with
`set_crc = false` the sequence is left unchanged. -/
theorem c2_crc_value (data : List Nat) (set_crc : Bool) :
    (calculate_crc_prog_frame_ data data.length set_crc).1
        = (if data.length < 2 then 0
           else ((data.drop 1).take (data.length - 2)).sum % 128)
      ∧ (calculate_crc_prog_frame_ data data.length false).2 = data := by
  constructor
  · by_cases h : data.length < 2
    · simp [calculate_crc_prog_frame_, h]
    · simp only [calculate_crc_prog_frame_, h, if_false]
      exact crc_loop_eq data data.length
  · by_cases h : data.length < 2 <;> simp [calculate_crc_prog_frame_, h]

/-! ## Claims C3 and C4 -/

/-- C3: for every request string (a C string, so without NUL) of length at most 78,
`prepare_prog_frame_` sets `amount_out` to the request length plus 6, the prepared
frame is exactly SOH 'R' '1' STX request ETX c with c the sum of 'R', '1', STX, the
request bytes and ETX modulo 128, and the frame passes `check_crc_prog_frame_`. -/
theorem c3_prepare_prog_frame (request : List Nat) (b : Buffers)
    (hlen : request.length ≤ 78) (hnul : 0 ∉ request) :
    (prepare_prog_frame_ request b).amount_out = request.length + 6
    ∧ prepared_frame (prepare_prog_frame_ request b)
        = [SOH, 0x52, 0x31, STX] ++ request
            ++ [ETX, (0x52 + 0x31 + STX + request.sum + ETX) % 128]
    ∧ check_crc_prog_frame_ (prepare_prog_frame_ request b).out
        (prepare_prog_frame_ request b).amount_out = true := by
  obtain ⟨rest, hout, hn⟩ := prepare_prog_frame_shape request b hlen hnul
  have hsum : ([0x52, 0x31, STX] ++ request ++ [ETX]).sum
      = 0x52 + 0x31 + STX + request.sum + ETX := by
    simp only [List.sum_append, List.sum_cons, List.sum_nil]; omega
  refine ⟨hn, ?_, ?_⟩
  · rw [prog_frame_closed request b hlen hnul, hsum]; simp
  · rw [hout, hn]
    have hl : request.length + 6 = ([0x52, 0x31, STX] ++ request ++ [ETX]).length + 2 := by
      simp
    rw [hl]
    exact check_crc_frame SOH _ rest

theorem c3_prepare_prog_frame_witness :
    [0x56, 0x28, 0x29].length ≤ 78 ∧ 0 ∉ [0x56, 0x28, 0x29] ∧
    (prepare_prog_frame_ [0x56, 0x28, 0x29] ⟨[], 0, List.replicate 84 0, 0⟩).amount_out
      = [0x56, 0x28, 0x29].length + 6 :=
  ⟨by decide, by decide,
   (c3_prepare_prog_frame [0x56, 0x28, 0x29] ⟨[], 0, List.replicate 84 0, 0⟩
      (by decide) (by decide)).1⟩

/-- C4: for every meter address without SOH and every request such that the whole
frame fits the outbound buffer (both C strings, so without NUL),
`prepare_non_session_prog_frame_` produces '/' '?' address '!' followed by exactly
the frame `prepare_prog_frame_` produces for the same request; its last byte, the
checksum, is the sum from SOH onward only and does not depend on the address. -/
theorem c4_prepare_non_session_prog_frame (address request : List Nat) (b : Buffers)
    (hfit : address.length + request.length + 9 ≤ MAX_OUT_BUF_SIZE)
    (hsoh : SOH ∉ address) (hanul : 0 ∉ address) (hnul : 0 ∉ request) :
    prepared_frame (prepare_non_session_prog_frame_ address request b)
        = [0x2F, 0x3F] ++ address ++ [0x21] ++ prepared_frame (prepare_prog_frame_ request b)
    ∧ (prepared_frame (prepare_non_session_prog_frame_ address request b)).getLast?
        = some ((0x52 + 0x31 + STX + request.sum + ETX) % 128) := by
  have h84 : MAX_OUT_BUF_SIZE = 84 := rfl
  rw [h84] at hfit
  obtain ⟨rest, hout, hn⟩ := prepare_non_session_shape address request b hfit hsoh hanul hnul
  have h3 := prog_frame_closed request b (by omega) hnul
  have hns := prepared_frame_of_shape (prepare_non_session_prog_frame_ address request b)
      ([0x2F, 0x3F] ++ address ++ [0x21]) _ rest SOH _ _ hout hn rfl
  have hsum : ([0x52, 0x31, STX] ++ request ++ [ETX]).sum
      = 0x52 + 0x31 + STX + request.sum + ETX := by
    simp only [List.sum_append, List.sum_cons, List.sum_nil]; omega
  constructor
  · rw [hns, h3, hsum]
  · rw [hns, hsum]
    have e : [0x2F, 0x3F] ++ address ++ [0x21] ++
        SOH :: ([0x52, 0x31, STX] ++ request ++ [ETX]
          ++ [(0x52 + 0x31 + STX + request.sum + ETX) % 128])
        = ([0x2F, 0x3F] ++ address ++ [0x21] ++
            SOH :: ([0x52, 0x31, STX] ++ request ++ [ETX]))
          ++ [(0x52 + 0x31 + STX + request.sum + ETX) % 128] := by simp
    rw [e, List.getLast?_concat]

theorem c4_prepare_non_session_prog_frame_witness :
    [0x31, 0x32].length + [0x56, 0x28, 0x29].length + 9 ≤ MAX_OUT_BUF_SIZE
    ∧ SOH ∉ [0x31, 0x32] ∧ 0 ∉ [0x31, 0x32] ∧ 0 ∉ [0x56, 0x28, 0x29]
    ∧ prepared_frame (prepare_non_session_prog_frame_ [0x31, 0x32] [0x56, 0x28, 0x29]
          ⟨[], 0, List.replicate 84 0, 0⟩)
        = [0x2F, 0x3F] ++ [0x31, 0x32] ++ [0x21]
            ++ prepared_frame (prepare_prog_frame_ [0x56, 0x28, 0x29]
                ⟨[], 0, List.replicate 84 0, 0⟩) :=
  ⟨by decide, by decide, by decide, by decide,
   (c4_prepare_non_session_prog_frame [0x31, 0x32] [0x56, 0x28, 0x29]
      ⟨[], 0, List.replicate 84 0, 0⟩ (by decide) (by decide) (by decide) (by decide)).1⟩

/-! ## Claim C5 -/

/-- C5: for every function name without '(' and every non-empty list of values
without ')' (all of them C strings, so without NUL),
`get_values_from_brackets_` on `name(v1)...(vk)` returns the count min(k, 12),
leaves the name as the NUL-terminated prefix of the line, sets the value slots to
v1 .. v_min(k,12) in order and leaves every remaining slot the empty string;
brackets beyond the twelfth are ignored. -/
theorem c5_get_values_from_brackets (name : List Nat) (vs : List (List Nat))
    (hk : vs ≠ []) (hname : ∀ b ∈ name, b ≠ 0 ∧ b ≠ 0x28)
    (hvs : ∀ v ∈ vs, 0 ∉ v ∧ 0x29 ∉ v) :
    (get_values_from_brackets_ (name ++ bracketed vs)).1 = min vs.length 12
    ∧ c_str (get_values_from_brackets_ (name ++ bracketed vs)).2.1 = name
    ∧ (get_values_from_brackets_ (name ++ bracketed vs)).2.2.map
          (slot_str (get_values_from_brackets_ (name ++ bracketed vs)).2.1)
        = vs.take 12 ++ List.replicate (12 - vs.length) [] := by
  have hrun : get_values_from_brackets_ (name ++ bracketed vs)
      = (min vs.length 12, name ++ brackets_done 12 false vs,
          brackets_ptrs 12 name.length vs ++ List.replicate (12 - vs.length) none) := by
    unfold get_values_from_brackets_
    have hf : (name ++ bracketed vs).length + 1 = ((bracketed vs).length + 1) + name.length := by
      simp; omega
    have hskip := brackets_loop_skip name [] (bracketed vs) ((bracketed vs).length + 1) 0 false
      (List.replicate VAL_NUM none) hname (by decide)
    simp only [List.nil_append, List.length_nil, Nat.zero_add] at hskip
    rw [hf, hskip]
    have hb := brackets_loop_blocks vs name [] false ((bracketed vs).length + 1) 12
      (by decide) (by omega) hvs
    simp only [List.nil_append, List.length_nil, Nat.zero_add] at hb
    exact hb
  have h0 : 0 ∉ name := fun h => (hname 0 h).1 rfl
  rw [hrun]
  refine ⟨rfl, ?_, ?_⟩
  · obtain ⟨v, vs', rfl⟩ := List.exists_cons_of_ne_nil hk
    simp only [brackets_done, Bool.false_eq_true, if_false]
    exact c_str_append_nul name _ h0
  · simp only [List.map_append, List.map_replicate, slot_str]
    rw [brackets_ptrs_str vs name 12 false hvs]

theorem c5_get_values_from_brackets_witness :
    ([[0x31], [0x32]] : List (List Nat)) ≠ []
    ∧ (∀ b ∈ [0x56], b ≠ 0 ∧ b ≠ 0x28)
    ∧ (∀ v ∈ ([[0x31], [0x32]] : List (List Nat)), 0 ∉ v ∧ 0x29 ∉ v)
    ∧ (get_values_from_brackets_ ([0x56] ++ bracketed [[0x31], [0x32]])).1
        = min ([[0x31], [0x32]] : List (List Nat)).length 12 :=
  ⟨by decide, by decide, by decide,
   (c5_get_values_from_brackets [0x56] [[0x31], [0x32]] (by decide) (by decide)
      (by decide)).1⟩

/-! ## Claim C6 -/

/-- C6: for every non-empty list of non-empty comma-free fields (C strings, so
without NUL) joined by commas into a string s, `get_nth_value_from_csv_(s, n)`
returns the n-th field for 1 <= n <= k and null for n > k (n is a `uint8_t`); and
for every string s, `get_nth_value_from_csv_(s, 0)` returns s whole and
unmodified. -/
theorem c6_get_nth_value_from_csv (fs : List (List Nat)) (n : Nat)
    (hk : fs ≠ []) (hclean : ∀ f ∈ fs, f ≠ [] ∧ 0 ∉ f ∧ 0x2C ∉ f)
    (hn1 : 1 ≤ n) (hn : n < 256) :
    csv_str (get_nth_value_from_csv_ (comma_joined fs) n) = fs[n - 1]?
    ∧ ∀ s : List Nat, get_nth_value_from_csv_ s 0 = (some 0, s) := by
  constructor
  · obtain ⟨f, fs', rfl⟩ := List.exists_cons_of_ne_nil hk
    have hf := hclean f (by simp)
    have hrest : ∀ x ∈ fs', x ≠ [] ∧ 0 ∉ x ∧ 0x2C ∉ x :=
      fun x hx => hclean x (List.mem_cons_of_mem _ hx)
    have hn0 : n ≠ 0 := by omega
    unfold get_nth_value_from_csv_
    simp only [hn0, if_false]
    have hs := strtok_field [] f fs' hf.1 hf.2.1 hf.2.2
    simp only [List.nil_append, List.length_nil] at hs
    rw [hs]
    have hl := csv_loop_fields fs' f [] n ((comma_joined (f :: fs')).length + 1) hf.2.1 hrest
      hn1 hn (by have := comma_joined_length f fs'; omega)
    simp only [List.nil_append, List.length_nil] at hl
    exact hl
  · intro s
    simp [get_nth_value_from_csv_]

theorem c6_get_nth_value_from_csv_witness :
    ([[0x61], [0x62, 0x63]] : List (List Nat)) ≠ []
    ∧ (∀ f ∈ ([[0x61], [0x62, 0x63]] : List (List Nat)), f ≠ [] ∧ 0 ∉ f ∧ 0x2C ∉ f)
    ∧ 1 ≤ 2 ∧ 2 < 256
    ∧ csv_str (get_nth_value_from_csv_ (comma_joined [[0x61], [0x62, 0x63]]) 2)
        = ([[0x61], [0x62, 0x63]] : List (List Nat))[2 - 1]? :=
  ⟨by decide, by decide, by decide, by decide,
   (c6_get_nth_value_from_csv [[0x61], [0x62, 0x63]] 2 (by decide) (by decide)
      (by decide) (by decide)).1⟩

/-! ## Claim C7 -/

/-- C7: in every session (a run of `loop()` calls from `OPEN_SESSION`) that is not
aborted and reaches `CLOSE_SESSION`, the requests for which `DATA_ENQ` builds and
sends a session frame are the registered request strings in strictly ascending
key order, each exactly once however many bindings share it; a `DATA_ENQ` step
with a request left sends the session frame of the request under the cursor, and
once the cursor has passed the last key the machine proceeds to `CLOSE_SESSION`. -/
theorem c7_enquiry_sequence (strtof_end : List Nat → Nat) (envs : List Env) (m : Machine)
    (hstart : m.state_ = State.OPEN_SESSION)
    (hsorted : KeysSorted (keys m))
    (hlive : NotAborted strtof_end envs m = true)
    (hfin : (run strtof_end envs m).state_ = State.CLOSE_SESSION) :
    (enquired strtof_end envs m).Pairwise (fun a b => str_lt a b = true)
    ∧ (enquired strtof_end envs m).Nodup
    ∧ (∀ k, k ∈ enquired strtof_end envs m ↔ k ∈ keys m)
    ∧ (∀ (e : Env) (m' : Machine), m'.state_ = State.DATA_ENQ →
        m'.request_iter ≠ m'.sensors_.length →
        (loop strtof_end e m').uart_tx = m'.uart_tx ++
          [prepared_frame (prepare_prog_frame_ (key_at m'.sensors_ m'.request_iter)
            m'.buffers_)])
    ∧ (∀ (e : Env) (m' : Machine), m'.state_ = State.DATA_ENQ →
        m'.request_iter = m'.sensors_.length →
        (loop strtof_end e m').state_ = State.CLOSE_SESSION)
    ∧ (∀ (e : Env) (m' : Machine), m'.state_ = State.DATA_NEXT →
        (loop strtof_end e m').request_iter = (loop strtof_end e m').sensors_.length →
        (loop strtof_end e m').state_ = State.CLOSE_SESSION
        ∨ ((loop strtof_end e m').state_ = State.WAIT
            ∧ (loop strtof_end e m').wait_.next_state = State.CLOSE_SESSION)) := by
  have hinv : SessionInv m := by simp [SessionInv, hstart]
  have hexp := session_visits strtof_end envs m hinv hlive hfin
  have hvis : Visits (keys m) 0 (enquired strtof_end envs m) := by
    simpa [Expect, Target, hstart] using hexp
  obtain ⟨hp, hm⟩ := visits_sorted (keys m) hsorted 0 _ hvis
  refine ⟨hp, ?_, ?_, ?_, ?_, ?_⟩
  · refine hp.imp ?_
    intro a b hab heq
    rw [heq, str_lt_irrefl] at hab
    exact Bool.noConfusion hab
  · intro k
    rw [hm k, List.mem_iff_getElem]
    constructor
    · rintro ⟨j, _, hj, hk⟩
      exact ⟨j, hj, by rw [← hk, key_of_eq _ _ hj]⟩
    · rintro ⟨j, hj, hk⟩
      exact ⟨j, Nat.zero_le _, hj, by rw [← hk, key_of_eq _ _ hj]⟩
  · intro e m' hs hne
    simp [loop, uart_arrive, hs, step_DATA_ENQ, hne, read_reply_and_go_next_state_,
      send_frame_prepared_]
  · intro e m' hs heq
    simp [loop, uart_arrive, hs, step_DATA_ENQ, heq, set_next_state_]
  · intro e m' hs
    simp only [loop, uart_arrive, hs, step_DATA_NEXT, set_next_state_delayed_]
    split
    · split <;> simp_all [set_next_state_]
    · split <;> simp [set_next_state_]

theorem c7_enquiry_sequence_witness :
    (update sample_registered).state_ = State.OPEN_SESSION
    ∧ KeysSorted (keys (update sample_registered))
    ∧ NotAborted sample_strtof_end sample_session (update sample_registered) = true
    ∧ (run sample_strtof_end sample_session (update sample_registered)).state_
        = State.CLOSE_SESSION
    ∧ (enquired sample_strtof_end sample_session (update sample_registered)).Pairwise
        (fun a b => str_lt a b = true) :=
  ⟨by decide, by decide, by decide, by decide,
   (c7_enquiry_sequence sample_strtof_end sample_session (update sample_registered)
      (by decide) (by decide) (by decide) (by decide)).1⟩

/-! ## Claim C8 -/

/-- C8: for every recoverable (not mission-critical) reading policy with retry cap
n that checks CRC, armed right after the prepared frame has been sent, if every
reply fails (each received frame fails the CRC check, or the receive timeout
elapses) then after the (n+1)-th failure the prepared frame has been transmitted
exactly n + 1 times in total (1 original + n retries) and the machine is in the
policy's next state with `received_frame_size_ = 0`. -/
theorem c8_recoverable_retries (strtof_end : List Nat → Nat) (read_fn : ReadFunction)
    (next_state : State) (n : Nat) (envs : List Env) (m : Machine)
    (hn : n < 256)
    (hrun : FailingReplies strtof_end envs (n + 1)
      (read_reply_and_go_next_state_ read_fn next_state n false true
        (send_frame_prepared_ m)) = true) :
    (run strtof_end envs (read_reply_and_go_next_state_ read_fn next_state n false true
        (send_frame_prepared_ m))).state_ = next_state
    ∧ (run strtof_end envs (read_reply_and_go_next_state_ read_fn next_state n false true
        (send_frame_prepared_ m))).received_frame_size_ = 0
    ∧ (run strtof_end envs (read_reply_and_go_next_state_ read_fn next_state n false true
        (send_frame_prepared_ m))).uart_tx
        = m.uart_tx ++ List.replicate (n + 1) (prepared_frame m.buffers_) := by
  have h := failing_replies_run strtof_end envs (n + 1)
    (read_reply_and_go_next_state_ read_fn next_state n false true (send_frame_prepared_ m))
    rfl rfl (by omega) (by simp [read_reply_and_go_next_state_]) hn hrun
  refine ⟨h.1, h.2.1, ?_⟩
  rw [h.2.2]
  simp [read_reply_and_go_next_state_, send_frame_prepared_, List.replicate_succ]

theorem c8_recoverable_retries_witness :
    3 < 256
    ∧ FailingReplies sample_strtof_end sample_bad_replies (3 + 1)
        (read_reply_and_go_next_state_ (ReadFunction.prog STX false) State.DATA_RECV 3 false
          true (send_frame_prepared_ sample_registered)) = true
    ∧ (run sample_strtof_end sample_bad_replies
        (read_reply_and_go_next_state_ (ReadFunction.prog STX false) State.DATA_RECV 3 false
          true (send_frame_prepared_ sample_registered))).uart_tx
        = sample_registered.uart_tx
            ++ List.replicate (3 + 1) (prepared_frame sample_registered.buffers_) :=
  ⟨by decide, by decide,
   (c8_recoverable_retries sample_strtof_end (ReadFunction.prog STX false) State.DATA_RECV 3
      sample_bad_replies sample_registered (by decide) (by decide)).2.2⟩

/-! ## Claim C9 -/

/-- C9 (as amended): in `WAITING_FOR_RESPONSE` under a mission-critical policy the
first failure (a frame whose CRC check fails, or no frame once the receive timeout
has elapsed) aborts the session whatever the retry cap and retry counter are: the
only frame transmitted is the close-session frame, the state becomes `IDLE`, and
the 8-bit consecutive-failure counter is incremented by 1 modulo 256. -/
theorem c9_mission_critical_abort (strtof_end : List Nat → Nat) (e : Env) (m : Machine)
    (hs : m.state_ = State.WAITING_FOR_RESPONSE)
    (hmc : m.reading_state_.mission_critical = true)
    (hf : (reply_crc_failed e m || reply_timed_out e m) = true) :
    (loop strtof_end e m).uart_tx = m.uart_tx ++ [CMD_CLOSE_SESSION]
    ∧ (loop strtof_end e m).state_ = State.IDLE
    ∧ (loop strtof_end e m).stats_.failures_ = (m.stats_.failures_ + 1) % 256 := by
  have hsame := failed_same e m
  obtain ⟨a1, a2, a3⟩ := waiting_failure_abort e
    (waiting_clear (waiting_count_error (poll e m))) (hsame.mission_critical.trans hmc)
  rw [loop_waiting_failed strtof_end e m hs hf]
  exact ⟨by rw [a2, hsame.uart_tx], a1, by rw [a3, hsame.failures_]⟩

theorem c9_mission_critical_abort_witness :
    (sample_waiting_id 2).state_ = State.WAITING_FOR_RESPONSE
    ∧ (sample_waiting_id 2).reading_state_.mission_critical = true
    ∧ (reply_crc_failed ⟨600, [], 100⟩ (sample_waiting_id 2)
        || reply_timed_out ⟨600, [], 100⟩ (sample_waiting_id 2)) = true
    ∧ (loop sample_strtof_end ⟨600, [], 100⟩ (sample_waiting_id 2)).stats_.failures_
        = ((sample_waiting_id 2).stats_.failures_ + 1) % 256 :=
  ⟨by decide, by decide, by decide,
   (c9_mission_critical_abort sample_strtof_end ⟨600, [], 100⟩ (sample_waiting_id 2)
      (by decide) (by decide) (by decide)).2.2⟩

/-- C9 as stated fails: after 255 consecutive failed sessions with the reboot
threshold disabled, a receive timeout under the mission-critical policy of
`OPEN_SESSION` leaves the consecutive-failure counter at 0, not at 256. -/
theorem c9_counterexample :
    (sample_waiting_id 255).state_ = State.WAITING_FOR_RESPONSE
    ∧ (sample_waiting_id 255).reading_state_.mission_critical = true
    ∧ reply_timed_out ⟨600, [], 100⟩ (sample_waiting_id 255) = true
    ∧ (sample_waiting_id 255).stats_.failures_ = 255
    ∧ (loop sample_strtof_end ⟨600, [], 100⟩ (sample_waiting_id 255)).stats_.failures_ = 0
    ∧ ¬ ((loop sample_strtof_end ⟨600, [], 100⟩ (sample_waiting_id 255)).stats_.failures_
          = (sample_waiting_id 255).stats_.failures_ + 1) := by
  decide

/-! ## Claim C10 -/

/-- C10: in a `DATA_RECV` step, whenever the received frame size is 0, or no
bracketed value is parsed, or the decoded function name is empty, or it differs
from the function name of the enquired request, the sensor entries are left
exactly as they were (no stored value, has-value flag or failure count changes),
the state after the step is `DATA_NEXT` with the cursor where it was, and the
following step moves the cursor to the upper bound of the current key. -/
theorem c10_data_recv_discard (strtof_end : List Nat → Nat) (e e' : Env) (m : Machine)
    (hs : m.state_ = State.DATA_RECV)
    (hbuf : m.buffers_.in_.length = MAX_IN_BUF_SIZE)
    (hcond : m.received_frame_size_ = 0 ∨ (decoded m).1 = 0 ∨ c_str (decoded m).2.1 = []
      ∨ ∃ entry, m.sensors_[m.request_iter]? = some entry
          ∧ entry.2.function_ ≠ c_str (decoded m).2.1) :
    (loop strtof_end e m).sensors_ = m.sensors_
    ∧ (loop strtof_end e m).state_ = State.DATA_NEXT
    ∧ (loop strtof_end e m).request_iter = m.request_iter
    ∧ (loop strtof_end e' (loop strtof_end e m)).request_iter
        = upper_bound m.sensors_ (key_at m.sensors_ m.request_iter) := by
  have hloop := loop_data_recv strtof_end e m hs
  have hb1 : 1 ≤ (uart_arrive e m).buffers_.in_.length := by
    show 1 ≤ m.buffers_.in_.length
    rw [hbuf]; decide
  obtain ⟨h1, h2, h3⟩ := data_recv_sensors strtof_end e (uart_arrive e m) hb1
  have hsens : (loop strtof_end e m).sensors_ = m.sensors_ := by
    rw [hloop]
    rcases h3 with h3 | ⟨n1, n2, n3, n4⟩
    · exact h3
    · exfalso
      rcases hcond with c | c | c | ⟨entry, c1, c2⟩
      · exact n1 c
      · exact n2 c
      · exact n3 c
      · exact c2 (n4 entry c1)
  have hst : (loop strtof_end e m).state_ = State.DATA_NEXT := by rw [hloop]; exact h1
  have hit : (loop strtof_end e m).request_iter = m.request_iter := by rw [hloop]; exact h2
  refine ⟨hsens, hst, hit, ?_⟩
  rw [loop_data_next strtof_end e' _ hst, step_data_next_iter]
  show upper_bound (loop strtof_end e m).sensors_
      (key_at (loop strtof_end e m).sensors_ (loop strtof_end e m).request_iter) = _
  rw [hsens, hit]

theorem c10_data_recv_discard_witness :
    sample_data_recv.state_ = State.DATA_RECV
    ∧ sample_data_recv.buffers_.in_.length = MAX_IN_BUF_SIZE
    ∧ (∃ entry, sample_data_recv.sensors_[sample_data_recv.request_iter]? = some entry
          ∧ entry.2.function_ ≠ c_str (decoded sample_data_recv).2.1)
    ∧ (loop sample_strtof_end ⟨7, [], 100⟩ sample_data_recv).sensors_
        = sample_data_recv.sensors_ :=
  ⟨by decide, by decide,
   ⟨(sample_data_recv.sensors_.getD 1 ([], sample_sensor [] [])), by decide, by decide⟩,
   (c10_data_recv_discard sample_strtof_end ⟨7, [], 100⟩ ⟨8, [], 100⟩ sample_data_recv
      (by decide) (by decide)
      (Or.inr (Or.inr (Or.inr
        ⟨(sample_data_recv.sensors_.getD 1 ([], sample_sensor [] [])),
          by decide, by decide⟩)))).1⟩

/-! ## Claim C11 -/

/-- C11: `update()` called in any state other than `IDLE` leaves the whole
component unchanged; called in `IDLE` it sets the state to `OPEN_SESSION` and
changes nothing else. -/
theorem c11_update (m : Machine) :
    update m = if m.state_ = State.IDLE then { m with state_ := State.OPEN_SESSION } else m := by
  unfold update set_next_state_
  by_cases h : m.state_ = State.IDLE <;> simp [h]

/-! ## Claim C14 -/

/-- C14: the stop predicate of `receive_prog_frame_` is true exactly when (the
accept flag is set, s = 1 and b[0] is ACK or NAK) or (s > 3, b[0] is the start
byte and b[s-2] is ETX); so with acceptance enabled a lone ACK byte read into an
empty buffer stops the reader at once with size 1, and with acceptance disabled a
single byte never stops it. -/
theorem c14_prog_frame_stop (b : List Nat) (s start_byte : Nat) (accept : Bool)
    (bf : Buffers) (fifo : List Nat) (count x : Nat)
    (hempty : bf.amount_in = 0) (hin : bf.in_.length = MAX_IN_BUF_SIZE) :
    (frame_end_check_iec start_byte accept b s = true ↔
        (accept = true ∧ s = 1 ∧ (b.getD 0 0 = ACK ∨ b.getD 0 0 = NAK))
        ∨ (s > 3 ∧ b.getD 0 0 = start_byte ∧ b.getD (s - 2) 0 = ETX))
    ∧ (receive_loop (frame_end_check_iec start_byte true) (count + 1) (ACK :: fifo) bf).1 = 1
    ∧ (receive_loop (frame_end_check_iec start_byte true) (count + 1) (ACK :: fifo) bf).2.1
        = fifo
    ∧ frame_end_check_iec start_byte false b 1 = false
    ∧ (receive_loop (frame_end_check_iec start_byte false) 1 [x] bf).1 = 0 := by
  have hlt : bf.amount_in < MAX_IN_BUF_SIZE := by rw [hempty]; decide
  have hst : ∀ y, store_byte y bf = { bf with in_ := bf.in_.set 0 y, amount_in := 1 } := by
    intro y
    unfold store_byte
    rw [if_pos hlt, hempty]
  have hget : (bf.in_.set 0 ACK).getD 0 0 = ACK :=
    getD_set_self _ _ _ (by rw [hin]; decide)
  have hstop : frame_end_check_iec start_byte true (bf.in_.set 0 ACK) 1 = true := by
    unfold frame_end_check_iec
    rw [hget]
    simp
  have hone : ∀ (l : List Nat), frame_end_check_iec start_byte false l 1 = false := by
    intro l
    simp [frame_end_check_iec]
  refine ⟨?_, ?_, ?_, hone b, ?_⟩
  · cases accept <;>
      simp [frame_end_check_iec, and_assoc]
    tauto
  · rw [receive_loop, hst]
    simp only [hstop, if_true]
  · rw [receive_loop, hst]
    simp only [hstop, if_true]
  · rw [receive_loop, hst]
    simp only [hone, Bool.false_eq_true, if_false]
    rfl

theorem c14_prog_frame_stop_witness :
    sample_machine.buffers_.amount_in = 0
    ∧ sample_machine.buffers_.in_.length = MAX_IN_BUF_SIZE
    ∧ (receive_loop (frame_end_check_iec STX true) (0 + 1) (ACK :: []) sample_machine.buffers_).1
        = 1 :=
  ⟨by decide, by decide,
   (c14_prog_frame_stop [] 0 STX true sample_machine.buffers_ [] 0 0 (by decide)
      (by decide)).2.1⟩

/-! ## Claim C16 -/

/-- C16: for every k from 0 to 6, `baud_rate_to_byte(300 * 2^k)` is the ASCII
digit '0' + k, and for every baud value the result is an ASCII digit between '0'
and '6'. -/
theorem c16_baud_rate_to_byte (k : Nat) (hk : k ≤ 6) :
    baud_rate_to_byte (300 * 2 ^ k) = 0x30 + k
    ∧ ∀ baud : Nat, 0x30 ≤ baud_rate_to_byte baud ∧ baud_rate_to_byte baud ≤ 0x36 := by
  constructor
  · interval_cases k <;> decide
  · intro baud
    unfold baud_rate_to_byte
    cases h : (List.range 7).find? (fun i => baud == 300 * 2 ^ i) with
    | none => simp
    | some i =>
      have hi : i ∈ List.range 7 := List.mem_of_find?_eq_some h
      have : i < 7 := List.mem_range.mp hi
      simp only []
      omega

theorem c16_baud_rate_to_byte_witness :
    5 ≤ 6 ∧ baud_rate_to_byte (300 * 2 ^ 5) = 0x30 + 5 :=
  ⟨by decide, (c16_baud_rate_to_byte 5 (by decide)).1⟩

/-! ## Claim C17 -/

/-- C17 (as amended): `baud_rate_to_byte` does not clamp.  Every baud rate at or
below 300, and every baud rate that is not exactly 300 * 2^k for some k from 0 to
6 (so every baud rate above 19200, for example 38400 or 115200), encodes as '0';
19200 itself encodes as '6'. -/
theorem c17_baud_rate_default (baud : Nat)
    (h : baud ≤ 300 ∨ ∀ k, k ≤ 6 → baud ≠ 300 * 2 ^ k) :
    baud_rate_to_byte baud = 0x30
    ∧ baud_rate_to_byte 19200 = 0x36 := by
  refine ⟨?_, by decide⟩
  unfold baud_rate_to_byte
  cases hf : (List.range 7).find? (fun i => baud == 300 * 2 ^ i) with
  | none => rfl
  | some i =>
    have hi : i < 7 := List.mem_range.mp (List.mem_of_find?_eq_some hf)
    have hb : baud = 300 * 2 ^ i := by
      have := List.find?_some hf
      simpa using this
    rcases h with h | h
    · have hi0 : i = 0 := by
        by_contra hne
        have : 2 ≤ 2 ^ i := by
          calc 2 = 2 ^ 1 := rfl
            _ ≤ 2 ^ i := Nat.pow_le_pow_right (by decide) (by omega)
        omega
      subst hi0
      rfl
    · exact absurd hb (h i (by omega))

theorem c17_baud_rate_default_witness :
    (38400 ≤ 300 ∨ ∀ k, k ≤ 6 → 38400 ≠ 300 * 2 ^ k)
    ∧ baud_rate_to_byte 38400 = 0x30 :=
  ⟨Or.inr (by decide),
   (c17_baud_rate_default 38400 (Or.inr (by decide))).1⟩

/-- C17 as stated fails: 38400 and 115200 are at or above 19200, yet both encode
as '0' and not as '6'. -/
theorem c17_counterexample :
    19200 ≤ 38400 ∧ baud_rate_to_byte 38400 = 0x30 ∧ baud_rate_to_byte 38400 ≠ 0x36
    ∧ baud_rate_to_byte 115200 = 0x30 := by
  decide

/-! ## Claim C18 -/

/-- C18: the close-session frame `CMD_CLOSE_SESSION` is exactly the five bytes
0x01 0x42 0x30 0x03 0x75, its last byte equals the checksum
`calculate_crc_prog_frame_` computes for it, and `check_crc_prog_frame_` accepts
the frame. -/
theorem c18_close_session_frame :
    CMD_CLOSE_SESSION = [0x01, 0x42, 0x30, 0x03, 0x75]
    ∧ (calculate_crc_prog_frame_ CMD_CLOSE_SESSION CMD_CLOSE_SESSION.length false).1
        = CMD_CLOSE_SESSION.getD 4 0
    ∧ check_crc_prog_frame_ CMD_CLOSE_SESSION CMD_CLOSE_SESSION.length = true := by
  decide

/-! ## Claim C19 -/

/-- C19 (what the code does): `extract_meter_id_` fails whenever no '/' lies
before the trailing CR LF of the frame, but it accepts the 7-byte frame `ABCD/`
CR LF, whose identification after the '/' is empty: the window of 7 bytes is
measured up to the end of the 256-byte buffer and not up to the end of the
frame. -/
theorem c19_extract_meter_id (frame_size : Nat) (bf : Buffers)
    (hno : ∀ i, i < frame_size - 2 → bf.in_.getD i 0 ≠ 0x2F) :
    (extract_meter_id_ frame_size bf).1 = none
    ∧ (extract_meter_id_ 7 sample_short_id).1 = some 4
    ∧ c_str ((extract_meter_id_ 7 sample_short_id).2.in_.drop 4) = [0x2F] := by
  refine ⟨?_, by decide, by decide⟩
  have hloop : ∀ n, n ≤ frame_size - 2 → extract_loop bf.in_ n = none := by
    intro n
    induction n with
    | zero => intro _; rfl
    | succ n ih =>
      intro hn
      rw [extract_loop, if_neg (hno n (by omega))]
      exact ih (by omega)
  unfold extract_meter_id_
  split
  · rfl
  · rw [hloop _ (Nat.le_refl _)]

theorem c19_extract_meter_id_witness :
    (∀ i, i < 9 - 2 → sample_machine.buffers_.in_.getD i 0 ≠ 0x2F)
    ∧ (extract_meter_id_ 9 sample_machine.buffers_).1 = none :=
  ⟨by decide, (c19_extract_meter_id 9 sample_machine.buffers_ (by decide)).1⟩

/-! ## Claim C15 -/

/-- C15: when the reader consumes the n bytes waiting in the UART queue and the
stop condition fires on none of them, it returns 0 with the queue empty, the
inbound length is min(n, 256), the buffer keeps its 256 slots and holds the last
min(n, 256) bytes in arrival order; the same buffers result when the bytes
arrive one per call; and once n has reached 256 a further byte drops the oldest
byte held and is appended after the others. -/
theorem c15_sliding_buffer (stop_fn : List Nat → Nat → Bool) (e : Env) (m : Machine)
    (hin : m.buffers_.in_.length = MAX_IN_BUF_SIZE) (hempty : m.buffers_.amount_in = 0)
    (hlim : m.uart_rx.length ≤ e.read_limit)
    (hstop : ∀ k, k < m.uart_rx.length →
      stop_fn (stored (m.uart_rx.take (k + 1)) m.buffers_).in_
        (stored (m.uart_rx.take (k + 1)) m.buffers_).amount_in = false) :
    (receive_frame_ stop_fn e m).1 = 0
    ∧ (receive_frame_ stop_fn e m).2.uart_rx = []
    ∧ (receive_frame_ stop_fn e m).2.buffers_
        = (feed_one_at_a_time stop_fn m.uart_rx m.buffers_).2
    ∧ (receive_frame_ stop_fn e m).2.buffers_.in_.length = MAX_IN_BUF_SIZE
    ∧ (receive_frame_ stop_fn e m).2.buffers_.amount_in = min m.uart_rx.length MAX_IN_BUF_SIZE
    ∧ content (receive_frame_ stop_fn e m).2.buffers_
        = m.uart_rx.drop (m.uart_rx.length - MAX_IN_BUF_SIZE)
    ∧ ∀ b, MAX_IN_BUF_SIZE ≤ m.uart_rx.length →
        (store_byte b (receive_frame_ stop_fn e m).2.buffers_).amount_in = MAX_IN_BUF_SIZE
        ∧ content (store_byte b (receive_frame_ stop_fn e m).2.buffers_)
            = (content (receive_frame_ stop_fn e m).2.buffers_).drop 1 ++ [b] := by
  have hloop := receive_loop_no_stop stop_fn m.uart_rx m.buffers_ [] hstop
  rw [List.append_nil] at hloop
  have hfeed := feed_no_stop stop_fn m.uart_rx m.buffers_ [] hstop
  rw [List.append_nil] at hfeed
  have hmin : min m.uart_rx.length e.read_limit = m.uart_rx.length := Nat.min_eq_left hlim
  have h1 : (receive_frame_ stop_fn e m).1 = 0 := by
    unfold receive_frame_
    simp only [hmin, hloop]
  have h2 : (receive_frame_ stop_fn e m).2.uart_rx = [] := by
    unfold receive_frame_
    simp only [hmin, hloop]
  have h3 : (receive_frame_ stop_fn e m).2.buffers_ = stored m.uart_rx m.buffers_ := by
    unfold receive_frame_
    simp only [hmin, hloop]
  obtain ⟨s1, s2, s3⟩ := stored_content m.uart_rx m.buffers_ hin
    (by rw [hempty]; exact Nat.zero_le _)
  have hc : content m.buffers_ = [] := by unfold content; rw [hempty]; rfl
  rw [hempty, Nat.zero_add] at s2 s3
  rw [hc, List.nil_append] at s3
  refine ⟨h1, h2, ?_, ?_, ?_, ?_, ?_⟩
  · rw [h3, hfeed]
    rfl
  · rw [h3]; exact s1
  · rw [h3]; exact s2
  · rw [h3]; exact s3
  · intro b hfull
    rw [h3]
    have hle : (stored m.uart_rx m.buffers_).amount_in ≤ MAX_IN_BUF_SIZE := by
      rw [s2]; exact Nat.min_le_right _ _
    have ha : (stored m.uart_rx m.buffers_).amount_in = MAX_IN_BUF_SIZE := by
      rw [s2]; exact Nat.min_eq_right hfull
    obtain ⟨_, t2, t3⟩ := store_byte_content b (stored m.uart_rx m.buffers_) s1 hle
    refine ⟨?_, ?_⟩
    · rw [t2, ha]; exact Nat.min_eq_right (Nat.le_succ _)
    · rw [t3, ha]
      have e1 : MAX_IN_BUF_SIZE + 1 - MAX_IN_BUF_SIZE = 1 := by decide
      have hlen : 1 ≤ (content (stored m.uart_rx m.buffers_)).length := by
        unfold content
        rw [List.length_take, ha, s1]
        decide
      rw [e1, List.drop_append_of_le_length hlen]

theorem c15_sliding_buffer_witness :
    sample_machine.buffers_.in_.length = MAX_IN_BUF_SIZE
    ∧ sample_machine.buffers_.amount_in = 0
    ∧ (receive_frame_ frame_end_check_crlf ⟨5, [], 3⟩
        { sample_machine with uart_rx := [0x41, 0x42, 0x43] }).2.buffers_.amount_in
        = min 3 MAX_IN_BUF_SIZE
    ∧ content (receive_frame_ frame_end_check_crlf ⟨5, [], 3⟩
        { sample_machine with uart_rx := [0x41, 0x42, 0x43] }).2.buffers_
        = [0x41, 0x42, 0x43] :=
  ⟨by decide, by decide,
   (c15_sliding_buffer frame_end_check_crlf ⟨5, [], 3⟩
      { sample_machine with uart_rx := [0x41, 0x42, 0x43] }
      (by decide) (by decide) (by decide) (by decide)).2.2.2.2.1,
   (c15_sliding_buffer frame_end_check_crlf ⟨5, [], 3⟩
      { sample_machine with uart_rx := [0x41, 0x42, 0x43] }
      (by decide) (by decide) (by decide) (by decide)).2.2.2.2.2.1⟩

/-! ## Claim C13 -/

/-- C13 (corrected): for every non-empty payload without an ETX byte that fits
the inbound buffer together with its three framing bytes, and every final byte
c, the calls of `receive_prog_frame_(STX)` that receive STX, payload, ETX, c one
byte at a time into an empty inbound buffer return 0 for each of the first
len(payload) + 2 bytes and return len(payload) + 3, the length of the buffer,
on the last one. -/
theorem c13_prog_frame_length (payload : List Nat) (c : Nat) (bf : Buffers)
    (hne : payload ≠ []) (hetx : ETX ∉ payload)
    (hfit : payload.length + 3 ≤ MAX_IN_BUF_SIZE)
    (hin : bf.in_.length = MAX_IN_BUF_SIZE) (hempty : bf.amount_in = 0) :
    (feed_one_at_a_time (frame_end_check_iec STX false) (STX :: payload ++ [ETX, c]) bf).1
      = List.replicate (payload.length + 2) 0 ++ [payload.length + 3] := by
  have hpos : 0 < payload.length := List.length_pos.mpr hne
  have hsplit : STX :: payload ++ [ETX, c] = (STX :: payload ++ [ETX]) ++ [c] := by simp
  have hlen : (STX :: payload ++ [ETX]).length = payload.length + 2 := by simp
  have hno : ∀ k, k < (STX :: payload ++ [ETX]).length →
      frame_end_check_iec STX false
        (stored ((STX :: payload ++ [ETX]).take (k + 1)) bf).in_
        (stored ((STX :: payload ++ [ETX]).take (k + 1)) bf).amount_in = false := by
    intro k hk
    have hl : ((STX :: payload ++ [ETX]).take (k + 1)).length = k + 1 := by
      rw [List.length_take, hlen]; rw [hlen] at hk; omega
    rw [iec_stop_on_stored STX false _ bf hin hempty (by rw [hl]; rw [hlen] at hk; omega)
      (by rw [hl]; omega)]
    exact iec_no_stop_before_bcc payload hetx k hk
  rw [hsplit, feed_no_stop _ _ bf [c] hno, hlen]
  have hst : store_byte c (stored (STX :: payload ++ [ETX]) bf)
      = stored ((STX :: payload ++ [ETX]) ++ [c]) bf := by
    exact (stored_append (STX :: payload ++ [ETX]) [c] bf).symm
  have hlen2 : ((STX :: payload ++ [ETX]) ++ [c]).length = payload.length + 3 := by simp
  have hfire : frame_end_check_iec STX false
      (stored ((STX :: payload ++ [ETX]) ++ [c]) bf).in_
      (stored ((STX :: payload ++ [ETX]) ++ [c]) bf).amount_in = true := by
    rw [iec_stop_on_stored STX false _ bf hin hempty (by rw [hlen2]; exact hfit)
      (by rw [hlen2]; omega)]
    unfold frame_end_check_iec
    rw [hlen2]
    have e1 : payload.length + 3 - 2 = payload.length + 1 := by omega
    have hg : ((STX :: payload ++ [ETX]) ++ [c]).getD (payload.length + 1) 0 = ETX := by
      show ((payload ++ [ETX]) ++ [c]).getD payload.length 0 = ETX
      rw [List.append_assoc]
      exact getD_append_length payload ETX [c]
    rw [e1, hg]
    have h3 : payload.length + 3 > 3 := by omega
    simp [h3]
  have ham : (stored ((STX :: payload ++ [ETX]) ++ [c]) bf).amount_in = payload.length + 3 := by
    rw [(stored_fits _ bf hin hempty (by rw [hlen2]; exact hfit)).1, hlen2]
  have hr : (feed_one_at_a_time (frame_end_check_iec STX false) [c]
      (stored (STX :: payload ++ [ETX]) bf)).1 = [payload.length + 3] := by
    rw [feed_one_at_a_time, receive_loop, hst]
    simp only [hfire, if_true]
    rw [ham]
    rfl
  rw [hr]

theorem c13_prog_frame_length_witness :
    [0x44, 0x41, 0x54, 0x41] ≠ ([] : List Nat)
    ∧ ETX ∉ [0x44, 0x41, 0x54, 0x41]
    ∧ (feed_one_at_a_time (frame_end_check_iec STX false)
        (STX :: [0x44, 0x41, 0x54, 0x41] ++ [ETX, 0x21]) sample_machine.buffers_).1
        = List.replicate ([0x44, 0x41, 0x54, 0x41].length + 2) 0
            ++ [[0x44, 0x41, 0x54, 0x41].length + 3] :=
  ⟨by decide, by decide,
   c13_prog_frame_length [0x44, 0x41, 0x54, 0x41] 0x21 sample_machine.buffers_
     (by decide) (by decide) (by decide) (by decide) (by decide)⟩

/-- C13, counterexample to the length 4 + len(payload): on STX, `DATA`, ETX,
`!` the reader reports the complete frame on the seventh byte, with size 7, and
the buffer never holds 8 bytes. -/
theorem c13_counterexample :
    (feed_one_at_a_time (frame_end_check_iec STX false)
        (STX :: [0x44, 0x41, 0x54, 0x41] ++ [ETX, 0x21]) sample_machine.buffers_).1
      = [0, 0, 0, 0, 0, 0, 7]
    ∧ (STX :: [0x44, 0x41, 0x54, 0x41] ++ [ETX, 0x21]).length = 7
    ∧ 7 ≠ 4 + [0x44, 0x41, 0x54, 0x41].length := by
  decide

/-! ## Claim C12 -/

/-- C12: let the registry hold the sensors `rs`, registered in that order, and
let the component be in `CLOSE_SESSION`. After the `CLOSE_SESSION` step, each of
the next n steps, n the number of entries, is a `PUBLISH` step that publishes
exactly the next entry of the registry, so that after k of them the first k
entries have been published in registry order; step n + 1 publishes nothing,
sets the consecutive-failure counter to 0 and the state to `IDLE`. The
sensors published are a rearrangement of `rs` (each exactly once), their
requests ascend, and the sensors of any one request come in registration
order. -/
theorem c12_publish_all (f : List Nat → Nat) (e0 : Env) (envs : List Env) (rs : List Sensor)
    (m : Machine) (hs : m.state_ = State.CLOSE_SESSION)
    (hreg : m.sensors_ = (register_all rs { m with sensors_ := [] }).sensors_)
    (hn : envs.length = m.sensors_.length + 1) :
    (∀ k, k ≤ m.sensors_.length →
        (run f (envs.take k) (loop f e0 m)).state_ = State.PUBLISH
        ∧ (run f (envs.take k) (loop f e0 m)).published
            = m.published ++ (m.sensors_.take k).map Prod.snd)
    ∧ (run f envs (loop f e0 m)).published = m.published ++ m.sensors_.map Prod.snd
    ∧ (run f envs (loop f e0 m)).stats_.failures_ = 0
    ∧ (run f envs (loop f e0 m)).state_ = State.IDLE
    ∧ List.Perm (m.sensors_.map Prod.snd) rs
    ∧ KeysSorted ((m.sensors_.map Prod.snd).map Sensor.request_)
    ∧ ∀ key, (m.sensors_.map Prod.snd).filter (fun s => s.request_ == key)
        = rs.filter (fun s => s.request_ == key) := by
  obtain ⟨c1, c2, c3, c4⟩ := loop_close_session f e0 m hs
  have hpre : ∀ k, k ≤ m.sensors_.length →
      (run f (envs.take k) (loop f e0 m)).state_ = State.PUBLISH
      ∧ (run f (envs.take k) (loop f e0 m)).sensors_ = m.sensors_
      ∧ (run f (envs.take k) (loop f e0 m)).sensor_iter = k
      ∧ (run f (envs.take k) (loop f e0 m)).published
          = m.published ++ (m.sensors_.take k).map Prod.snd := by
    intro k hk
    have hl : (envs.take k).length = k := by rw [List.length_take]; omega
    obtain ⟨p1, p2, p3, p4⟩ := publish_run f (envs.take k) (loop f e0 m) c1
      (by rw [c2, c3, hl]; omega)
    rw [c2, c3, c4, hl, List.drop_zero] at *
    rw [Nat.zero_add] at p3
    exact ⟨p1, p2, p3, p4⟩
  obtain ⟨n1, n2, n3, n4⟩ := hpre m.sensors_.length (Nat.le_refl _)
  have hsplit : envs = envs.take m.sensors_.length ++ envs.drop m.sensors_.length :=
    (List.take_append_drop _ _).symm
  obtain ⟨e, he⟩ : ∃ e, envs.drop m.sensors_.length = [e] := by
    have hl : (envs.drop m.sensors_.length).length = 1 := by rw [List.length_drop]; omega
    exact List.length_eq_one.mp hl
  have hrun : run f envs (loop f e0 m)
      = loop f e (run f (envs.take m.sensors_.length) (loop f e0 m)) := by
    conv_lhs => rw [hsplit, run_append, he]
    rfl
  obtain ⟨l1, l2, l3⟩ := loop_publish_none f e _ n1 (by rw [n2, n3])
  have hord := register_all_order rs { m with sensors_ := [] } []
    List.Pairwise.nil (fun x hx => absurd hx (List.not_mem_nil x)) (List.Perm.refl _)
    (fun _ => rfl)
  rw [List.nil_append, ← hreg] at hord
  obtain ⟨o1, o2, o3, o4⟩ := hord
  have hkeys : (m.sensors_.map Prod.snd).map Sensor.request_ = m.sensors_.map Prod.fst := by
    rw [List.map_map]
    exact List.map_congr_left (fun x hx => (o2 x hx).symm)
  refine ⟨fun k hk => ⟨(hpre k hk).1, (hpre k hk).2.2.2⟩, ?_, ?_, ?_, o3, ?_, ?_⟩
  · rw [hrun, l3, n4, List.take_length]
  · rw [hrun]; exact l2
  · rw [hrun]; exact l1
  · rw [hkeys]
    have : keys (register_all rs { m with sensors_ := [] }) = m.sensors_.map Prod.fst := by
      unfold keys; rw [← hreg]
    rw [← this]
    exact o1
  · intro key
    rw [← o4 key, List.filter_map]
    congr 1
    exact List.filter_congr (fun x hx => by
      show (x.2.request_ == key) = (x.1 == key)
      rw [o2 x hx])

theorem c12_publish_all_witness :
    sample_closing.state_ = State.CLOSE_SESSION
    ∧ sample_closing.sensors_
        = (register_all sample_bindings { sample_closing with sensors_ := [] }).sensors_
    ∧ (run sample_strtof_end [⟨2, [], 100⟩, ⟨3, [], 100⟩, ⟨4, [], 100⟩, ⟨5, [], 100⟩]
        (loop sample_strtof_end ⟨1, [], 100⟩ sample_closing)).published
        = [sample_bindings.getD 1 (sample_sensor [] []),
           sample_bindings.getD 0 (sample_sensor [] []),
           sample_bindings.getD 2 (sample_sensor [] [])]
    ∧ (run sample_strtof_end [⟨2, [], 100⟩, ⟨3, [], 100⟩, ⟨4, [], 100⟩, ⟨5, [], 100⟩]
        (loop sample_strtof_end ⟨1, [], 100⟩ sample_closing)).state_ = State.IDLE :=
  ⟨by decide, by decide,
   (c12_publish_all sample_strtof_end ⟨1, [], 100⟩
      [⟨2, [], 100⟩, ⟨3, [], 100⟩, ⟨4, [], 100⟩, ⟨5, [], 100⟩] sample_bindings sample_closing
      (by decide) (by decide) (by decide)).2.1,
   (c12_publish_all sample_strtof_end ⟨1, [], 100⟩
      [⟨2, [], 100⟩, ⟨3, [], 100⟩, ⟨4, [], 100⟩, ⟨5, [], 100⟩] sample_bindings sample_closing
      (by decide) (by decide) (by decide)).2.2.2.1⟩

/-! ## Claim C20 -/

/-- C20 (corrected): the `IDLE` step with a queued single-read request takes the
request off the queue, transmits its frame and arms a reading policy that is
not mission-critical, allows up to 3 retries, checks the CRC, reads a
programming frame starting with STX and has `SINGLE_READ_ACK` as next state.
Under that policy every frame on which the stop condition fires and that
passes the CRC check is accepted as success and leads to `SINGLE_READ_ACK`
with a non-zero frame size, and a first failed reply (a frame failing the CRC
check, or a receive timeout) makes the component transmit the frame again and
keep waiting. -/
theorem c20_single_read_policy (f : List Nat → Nat) (e : Env) (m : Machine)
    (request : List Nat) (rest : List (List Nat))
    (hs : m.state_ = State.IDLE) (hq : m.single_requests_ = request :: rest) :
    (loop f e m).state_ = State.WAITING_FOR_RESPONSE
    ∧ (loop f e m).single_requests_ = rest
    ∧ (loop f e m).uart_tx
        = m.uart_tx ++ [prepared_frame
            (prepare_non_session_prog_frame_ m.meter_address_ request m.buffers_)]
    ∧ (loop f e m).reading_state_
        = ⟨ReadFunction.prog STX true, State.SINGLE_READ_ACK, false, true, 3, 0, 0, 0⟩
    ∧ (∀ e2, (poll e2 (loop f e m)).received_frame_size_ > 0 →
        crc_is_ok (poll e2 (loop f e m)) = true →
        (loop f e2 (loop f e m)).state_ = State.SINGLE_READ_ACK
        ∧ (loop f e2 (loop f e m)).received_frame_size_ > 0)
    ∧ (∀ e2, (reply_crc_failed e2 (loop f e m) || reply_timed_out e2 (loop f e m)) = true →
        (loop f e2 (loop f e m)).state_ = State.WAITING_FOR_RESPONSE
        ∧ (loop f e2 (loop f e m)).reading_state_.tries_counter = 1
        ∧ (loop f e2 (loop f e m)).uart_tx
            = m.uart_tx ++ [prepared_frame
                (prepare_non_session_prog_frame_ m.meter_address_ request m.buffers_),
              prepared_frame
                (prepare_non_session_prog_frame_ m.meter_address_ request m.buffers_)]) := by
  have hl := loop_idle_request f e m request rest hs hq
  have c1 : (loop f e m).state_ = State.WAITING_FOR_RESPONSE := by rw [hl]; rfl
  have c2 : (loop f e m).single_requests_ = rest := by rw [hl]; rfl
  have c3 : (loop f e m).uart_tx = m.uart_tx ++ [prepared_frame
      (prepare_non_session_prog_frame_ m.meter_address_ request m.buffers_)] := by
    rw [hl]; rfl
  have c4 : (loop f e m).reading_state_
      = ⟨ReadFunction.prog STX true, State.SINGLE_READ_ACK, false, true, 3, 0, 0, 0⟩ := by
    rw [hl]; rfl
  have c5 : prepared_frame (loop f e m).buffers_ = prepared_frame
      (prepare_non_session_prog_frame_ m.meter_address_ request m.buffers_) := by
    rw [hl]; rfl
  refine ⟨c1, c2, c3, c4, ?_, ?_⟩
  · intro e2 hsize hcrc
    rw [loop_waiting_good f e2 (loop f e m) c1 hsize hcrc]
    have hsame := poll_same e2 (loop f e m)
    refine ⟨?_, hsize⟩
    show (poll e2 (loop f e m)).reading_state_.next_state = State.SINGLE_READ_ACK
    rw [hsame.next_state, c4]
  · intro e2 hf
    rw [loop_waiting_failed f e2 (loop f e m) c1 hf]
    have hsame := failed_same e2 (loop f e m)
    obtain ⟨r1, _, _, _, r5, r6, _⟩ := waiting_failure_retry e2
      (waiting_clear (waiting_count_error (poll e2 (loop f e m))))
      (by rw [hsame.mission_critical, c4])
      (by rw [hsame.tries_counter, hsame.tries_max, c4]; decide)
      (by rw [hsame.tries_max, c4]; decide)
    refine ⟨?_, ?_, ?_⟩
    · rw [r1, hsame.state_, c1]
    · rw [r5, hsame.tries_counter, c4]
    · rw [r6, hsame.uart_tx, prepared_frame_same hsame, c3, c5]
      simp

theorem c20_single_read_policy_witness :
    sample_single_read.state_ = State.IDLE
    ∧ sample_single_read.single_requests_ = [[0x56, 0x4F, 0x4C, 0x54, 0x41, 0x28, 0x29]]
    ∧ (loop sample_strtof_end ⟨1, [], 100⟩ sample_single_read).reading_state_
        = ⟨ReadFunction.prog STX true, State.SINGLE_READ_ACK, false, true, 3, 0, 0, 0⟩
    ∧ (loop sample_strtof_end ⟨2, sample_frame STX [0x28, 0x31, 0x29], 100⟩
        (loop sample_strtof_end ⟨1, [], 100⟩ sample_single_read)).state_
        = State.SINGLE_READ_ACK :=
  ⟨by decide, by decide,
   (c20_single_read_policy sample_strtof_end ⟨1, [], 100⟩ sample_single_read
      [0x56, 0x4F, 0x4C, 0x54, 0x41, 0x28, 0x29] [] (by decide) (by decide)).2.2.2.1,
   ((c20_single_read_policy sample_strtof_end ⟨1, [], 100⟩ sample_single_read
      [0x56, 0x4F, 0x4C, 0x54, 0x41, 0x28, 0x29] [] (by decide) (by decide)).2.2.2.2.1
      ⟨2, sample_frame STX [0x28, 0x31, 0x29], 100⟩ (by decide) (by decide)).1⟩

/-- C20, counterexample: the policy the `IDLE` step arms for the queued single
read `VOLTA()` is not mission-critical and checks the CRC; a reply consisting
of the single byte ACK stops the reader with size 1, fails the CRC check and is
not accepted: the component stays in `WAITING_FOR_RESPONSE` and retries. -/
theorem c20_counterexample :
    (loop sample_strtof_end ⟨1, [], 100⟩ sample_single_read).reading_state_.mission_critical
      = false
    ∧ (loop sample_strtof_end ⟨1, [], 100⟩ sample_single_read).reading_state_.check_crc = true
    ∧ (poll ⟨2, [ACK], 100⟩
        (loop sample_strtof_end ⟨1, [], 100⟩ sample_single_read)).received_frame_size_ = 1
    ∧ (loop sample_strtof_end ⟨2, [ACK], 100⟩
        (loop sample_strtof_end ⟨1, [], 100⟩ sample_single_read)).state_
        = State.WAITING_FOR_RESPONSE
    ∧ (loop sample_strtof_end ⟨2, [ACK], 100⟩
        (loop sample_strtof_end ⟨1, [], 100⟩ sample_single_read)).state_
        ≠ State.SINGLE_READ_ACK
    ∧ (loop sample_strtof_end ⟨2, [ACK], 100⟩
        (loop sample_strtof_end ⟨1, [], 100⟩ sample_single_read)).reading_state_.tries_counter
        = 1 := by
  decide

/-! ## Claim C21 -/

/-- C21 (corrected): for every reboot threshold t from 1 to 255, in a run of
consecutive failed sessions that starts with the consecutive-failure counter at
0: while the number k of failures is at most t the counter is k and no restart
has been requested, so the call that brings the counter to t requests nothing;
for t up to 254 the restart is requested by the call that brings the counter to
t + 1, the device restarts in that call, and whatever k above t is allowed the
run has made that one request and stopped with the counter at t + 1; with
t = 255 no run requests a restart. -/
theorem c21_reboot_requests (m : Machine) (k : Nat)
    (h0 : m.stats_.failures_ = 0) (ht : 1 ≤ m.failures_before_reboot_)
    (ht2 : m.failures_before_reboot_ ≤ 255) :
    (k ≤ m.failures_before_reboot_ →
      (failed_sessions k m).2 = false
      ∧ (failed_sessions k m).1.stats_.failures_ = k
      ∧ (failed_sessions k m).1.reboots = m.reboots)
    ∧ (m.failures_before_reboot_ < k → m.failures_before_reboot_ ≤ 254 →
      (failed_sessions k m).2 = true
      ∧ (failed_sessions k m).1.stats_.failures_ = m.failures_before_reboot_ + 1
      ∧ (failed_sessions k m).1.reboots = m.reboots + 1)
    ∧ (m.failures_before_reboot_ = 255 →
      (failed_sessions k m).2 = false
      ∧ (failed_sessions k m).1.reboots = m.reboots) := by
  refine ⟨fun hk => ?_, fun hk h254 => ?_, fun h255 => ?_⟩
  · by_cases h254 : m.failures_before_reboot_ ≤ 254
    · exact (failed_sessions_closed m h0 ht h254 k).2.1 hk
    · obtain ⟨_, a1, a2, a3⟩ := failed_sessions_never m h0 (by omega) k
      refine ⟨a1, ?_, a3⟩
      rw [a2]
      exact Nat.mod_eq_of_lt (by omega)
  · exact (failed_sessions_closed m h0 ht h254 k).2.2 hk
  · obtain ⟨_, a1, _, a3⟩ := failed_sessions_never m h0 h255 k
    exact ⟨a1, a3⟩

theorem c21_reboot_requests_witness :
    sample_threshold_one.stats_.failures_ = 0
    ∧ 1 ≤ sample_threshold_one.failures_before_reboot_
    ∧ sample_threshold_one.failures_before_reboot_ ≤ 255
    ∧ sample_threshold_one.failures_before_reboot_ < 3
    ∧ sample_threshold_one.failures_before_reboot_ ≤ 254
    ∧ (failed_sessions 3 sample_threshold_one).2 = true
    ∧ (failed_sessions 3 sample_threshold_one).1.stats_.failures_
        = sample_threshold_one.failures_before_reboot_ + 1
    ∧ (failed_sessions 3 sample_threshold_one).1.reboots = sample_threshold_one.reboots + 1 :=
  ⟨by decide, by decide, by decide, by decide, by decide,
   (c21_reboot_requests sample_threshold_one 3 (by decide) (by decide) (by decide)).2.1
     (by decide) (by decide)⟩

/-- C21, counterexample: with the threshold at 1 the first failure of a run
brings the counter to 1, the threshold, and no restart is requested at that
call; the restart is requested by the second failure, which brings the counter
to 2. -/
theorem c21_counterexample :
    sample_threshold_one.failures_before_reboot_ = 1
    ∧ sample_threshold_one.stats_.failures_ = 0
    ∧ (failed_sessions 1 sample_threshold_one).1.stats_.failures_ = 1
    ∧ (failed_sessions 1 sample_threshold_one).2 = false
    ∧ (failed_sessions 1 sample_threshold_one).1.reboots = sample_threshold_one.reboots
    ∧ (failed_sessions 2 sample_threshold_one).1.stats_.failures_ = 2
    ∧ (failed_sessions 2 sample_threshold_one).2 = true
    ∧ (failed_sessions 2 sample_threshold_one).1.reboots
        = sample_threshold_one.reboots + 1 := by
  decide

/-! ## Claim C25 -/

/-- C25 (corrected): for a request `NAME(...)`, where `NAME` holds no opening
bracket, `set_request` makes `get_request` the whole string and `get_function`
the text before the first opening bracket; for a request without an opening
bracket `get_request` is the whole string and `get_function` is left as it
was. -/
theorem c25_set_request (name rest : List Nat) (s : Sensor)
    (hname0 : 0 ∉ name) (hname : 0x28 ∉ name) (hrest : 0 ∉ rest) :
    (s.set_request (name ++ 0x28 :: rest)).request_ = name ++ 0x28 :: rest
    ∧ (s.set_request (name ++ 0x28 :: rest)).function_ = name
    ∧ (s.set_request name).request_ = name
    ∧ (s.set_request name).function_ = s.function_ := by
  have hreq0 : 0 ∉ name ++ 0x28 :: rest := by
    intro h
    rcases List.mem_append.mp h with h | h
    · exact hname0 h
    · rcases List.mem_cons.mp h with h | h
      · exact absurd h (by decide)
      · exact hrest h
  have hc1 : c_str (name ++ 0x28 :: rest) = name ++ 0x28 :: rest := c_str_of_no_nul _ hreq0
  have hc2 : c_str name = name := c_str_of_no_nul _ hname0
  have hf : strchr_ (name ++ 0x28 :: rest) 0 0x28 = some name.length := by
    unfold strchr_
    rw [List.drop_zero, strchr_from_found 0x28 name rest 0 hname hname0, Nat.zero_add]
  have hn : strchr_ name 0 0x28 = none := by
    unfold strchr_
    rw [List.drop_zero]
    exact strchr_from_none 0x28 (by decide) name 0 (by rw [hc2]; exact hname)
  refine ⟨?_, ?_, ?_, ?_⟩
  · unfold Sensor.set_request
    rw [hc1, hf]
  · unfold Sensor.set_request
    rw [hc1, hf]
    exact List.take_left' rfl
  · unfold Sensor.set_request
    rw [hc2, hn]
  · unfold Sensor.set_request
    rw [hc2, hn]

theorem c25_set_request_witness :
    0 ∉ [0x56, 0x4F, 0x4C, 0x54, 0x41] ∧ 0x28 ∉ [0x56, 0x4F, 0x4C, 0x54, 0x41]
    ∧ 0 ∉ [0x31, 0x29]
    ∧ ((sample_sensor [] []).set_request
        ([0x56, 0x4F, 0x4C, 0x54, 0x41] ++ 0x28 :: [0x31, 0x29])).function_
        = [0x56, 0x4F, 0x4C, 0x54, 0x41] :=
  ⟨by decide, by decide, by decide,
   (c25_set_request [0x56, 0x4F, 0x4C, 0x54, 0x41] [0x31, 0x29] (sample_sensor [] [])
     (by decide) (by decide) (by decide)).2.1⟩

/-- C25, counterexample: after `set_request` with `VOLTA` on a sensor whose
function name is empty, `get_request` is `VOLTA` and `get_function` is still
empty, not `VOLTA`. -/
theorem c25_counterexample :
    ((sample_sensor [] []).set_request [0x56, 0x4F, 0x4C, 0x54, 0x41]).request_
      = [0x56, 0x4F, 0x4C, 0x54, 0x41]
    ∧ ((sample_sensor [] []).set_request [0x56, 0x4F, 0x4C, 0x54, 0x41]).function_ = []
    ∧ ((sample_sensor [] []).set_request [0x56, 0x4F, 0x4C, 0x54, 0x41]).function_
        ≠ [0x56, 0x4F, 0x4C, 0x54, 0x41] := by
  decide

/-! ## Claim C26 -/

/-- C26: for every frame of n bytes, n at least 2, held in a buffer, replacing
the first byte or the last byte by any value leaves the result of
`calculate_crc_prog_frame_` unchanged, and replacing the byte at an index i
from 1 to n - 2 changes the result exactly when the old and the new byte differ
modulo 128. -/
theorem c26_crc_mutation (data : List Nat) (n i v : Nat)
    (hn : 2 ≤ n) (hlen : n ≤ data.length) (hi1 : 1 ≤ i) (hi2 : i ≤ n - 2) :
    (calculate_crc_prog_frame_ (data.set 0 v) n false).1
      = (calculate_crc_prog_frame_ data n false).1
    ∧ (calculate_crc_prog_frame_ (data.set (n - 1) v) n false).1
      = (calculate_crc_prog_frame_ data n false).1
    ∧ ((calculate_crc_prog_frame_ (data.set i v) n false).1
          ≠ (calculate_crc_prog_frame_ data n false).1
        ↔ data.getD i 0 % 128 ≠ v % 128) := by
  have hcalc : ∀ d : List Nat, (calculate_crc_prog_frame_ d n false).1 = crc_loop d n := by
    intro d
    unfold calculate_crc_prog_frame_
    rw [if_neg (by omega)]
  rw [hcalc, hcalc, hcalc, hcalc]
  refine ⟨crc_loop_set_outside data n 0 v (Or.inl rfl),
    crc_loop_set_outside data n (n - 1) v (Or.inr (Nat.le_refl _)), ?_⟩
  rw [crc_loop_eq, crc_loop_eq]
  unfold checksum_spec
  obtain ⟨j, rfl⟩ : ∃ j, i = j + 1 := ⟨i - 1, by omega⟩
  have hd : (data.set (j + 1) v).drop 1 = (data.drop 1).set j v := by
    cases data <;> simp
  rw [hd, List.set_take]
  have hl : ((data.drop 1).take (n - 2)).length = n - 2 := by
    rw [List.length_take, List.length_drop]; omega
  have hs := sum_set ((data.drop 1).take (n - 2)) j v (by rw [hl]; omega)
  have hg : ((data.drop 1).take (n - 2)).getD j 0 = data.getD (j + 1) 0 := by
    rw [getD_take_lt _ _ _ (by omega)]
    cases data <;> simp
  rw [hg] at hs
  omega

theorem c26_crc_mutation_witness :
    2 ≤ 5 ∧ 5 ≤ CMD_CLOSE_SESSION.length
    ∧ ((calculate_crc_prog_frame_ (CMD_CLOSE_SESSION.set 2 0x31) 5 false).1
          ≠ (calculate_crc_prog_frame_ CMD_CLOSE_SESSION 5 false).1
        ↔ CMD_CLOSE_SESSION.getD 2 0 % 128 ≠ 0x31 % 128) :=
  ⟨by decide, by decide,
   (c26_crc_mutation CMD_CLOSE_SESSION 5 2 0x31 (by decide) (by decide) (by decide)
     (by decide)).2.2⟩

/-! ## Claim C27 -/

/-- C27 (what the code does): `amount_out` is the length of the complete
formatted text, whatever the size of the outbound buffer: the request length
plus 6 after `prepare_prog_frame_`, and the address length plus the request
length plus 9 after `prepare_non_session_prog_frame_`.  For a request of more
than 78 bytes both exceed 84, and the index `amount_out - 1` at which the
checksum is stored is not below 84. -/
theorem c27_amount_out (address request : List Nat) (b : Buffers)
    (hlong : 78 < (c_str request).length) :
    (prepare_prog_frame_ request b).amount_out = (c_str request).length + 6
    ∧ MAX_OUT_BUF_SIZE < (prepare_prog_frame_ request b).amount_out
    ∧ MAX_OUT_BUF_SIZE ≤ (prepare_prog_frame_ request b).amount_out - 1
    ∧ (prepare_non_session_prog_frame_ address request b).amount_out
        = (c_str address).length + (c_str request).length + 9
    ∧ MAX_OUT_BUF_SIZE < (prepare_non_session_prog_frame_ address request b).amount_out
    ∧ MAX_OUT_BUF_SIZE ≤ (prepare_non_session_prog_frame_ address request b).amount_out - 1 := by
  have h1 : (prepare_prog_frame_ request b).amount_out = (c_str request).length + 6 := by
    simp [prepare_prog_frame_, snprintf_, MAX_OUT_BUF_SIZE, prog_frame_text]
  have h2 : (prepare_non_session_prog_frame_ address request b).amount_out
      = (c_str address).length + (c_str request).length + 9 := by
    simp [prepare_non_session_prog_frame_, snprintf_, MAX_OUT_BUF_SIZE, non_session_frame_text]
    omega
  have h84 : MAX_OUT_BUF_SIZE = 84 := rfl
  rw [h1, h2, h84]
  refine ⟨rfl, ?_, ?_, rfl, ?_, ?_⟩ <;> omega

theorem c27_amount_out_witness :
    78 < (c_str (List.replicate 79 0x41)).length
    ∧ (prepare_prog_frame_ (List.replicate 79 0x41) sample_machine.buffers_).amount_out = 85
    ∧ MAX_OUT_BUF_SIZE
        ≤ (prepare_prog_frame_ (List.replicate 79 0x41) sample_machine.buffers_).amount_out - 1 :=
  ⟨by decide,
   (c27_amount_out [] (List.replicate 79 0x41) sample_machine.buffers_ (by decide)).1,
   (c27_amount_out [] (List.replicate 79 0x41) sample_machine.buffers_ (by decide)).2.2.1⟩

/-! ## Claim C24 -/

/-- C24 (what the code does): for a numeric sensor with a valid value index,
when the extracted string is empty or is not consumed entirely by the float
parse, `set_sensor_value_` returns false and leaves the sensor object as it
was: the value is not assigned, and the failure count `tries_` does not move
either, so the result differs from what `record_failure` would have left.  The
loop of `DATA_RECV` over the sensors of the request leaves the sensor unchanged
too. -/
theorem c24_failed_conversion (f : List Nat → Nat) (line : List Nat)
    (vals : List (Option Nat)) (sensor : Sensor)
    (htype : sensor.type = SensorType.SENSOR)
    (hidx : (sensor.idx_ + 255) % 256 < VAL_NUM)
    (hbad : (extracted_str line vals sensor).getD 0 0 = 0
      ∨ char2float f (extracted_str line vals sensor) = false) :
    set_sensor_value_ f line vals sensor = (false, sensor)
    ∧ (set_sensor_value_ f line vals sensor).2.tries_ = sensor.tries_
    ∧ (sensor.tries_ < MAX_TRIES →
        (set_sensor_value_ f line vals sensor).2.tries_ + 1 = sensor.record_failure.tries_)
    ∧ assign_sensors f sensor.request_ line vals [(sensor.request_, sensor)]
        = [(sensor.request_, sensor)] := by
  have hr : set_sensor_value_ f line vals sensor = (false, sensor) := by
    rw [set_sensor_value_eq, if_neg (by omega), htype]
    have hc : ¬ ((extracted_str line vals sensor).getD 0 0 ≠ 0
        ∧ char2float f (extracted_str line vals sensor) = true) := by
      rintro ⟨h1, h2⟩
      rcases hbad with h | h
      · exact h1 h
      · rw [h] at h2; exact Bool.noConfusion h2
    simp only [hc, if_false]
  refine ⟨hr, by rw [hr], ?_, ?_⟩
  · intro hlt
    rw [hr]
    unfold Sensor.record_failure
    rw [if_pos hlt]
  · unfold assign_sensors
    simp only [List.map_cons, List.map_nil, hr]
    split <;> rfl

theorem c24_failed_conversion_witness :
    (sample_sensor [] []).type = SensorType.SENSOR
    ∧ ((sample_sensor [] []).idx_ + 255) % 256 < VAL_NUM
    ∧ c_str (extracted_str sample_bad_number [some 0] (sample_sensor [] []))
        = [0x31, 0x32, 0x61, 0x62, 0x63]
    ∧ char2float digits_strtof_end
        (extracted_str sample_bad_number [some 0] (sample_sensor [] [])) = false
    ∧ set_sensor_value_ digits_strtof_end sample_bad_number [some 0] (sample_sensor [] [])
        = (false, sample_sensor [] []) :=
  ⟨by decide, by decide, by decide, by decide,
   (c24_failed_conversion digits_strtof_end sample_bad_number [some 0] (sample_sensor [] [])
     (by decide) (by decide) (Or.inr (by decide))).1⟩

/-! ## Claim C30 -/

/-- C30: in every configuration reached from a configuration in `IDLE` by
calls of `loop()` and `update()`, if the state is `OPEN_SESSION_GET_ID` then
`received_frame_size_` is positive, and the next call of `loop()` leaves
`OPEN_SESSION_GET_ID`: the state after it is `IDLE`, `WAIT` or
`WAITING_FOR_RESPONSE`. -/
theorem c30_get_id_has_frame (f : List Nat → Nat) (cs : List Call) (m0 : Machine) (e : Env)
    (h0 : m0.state_ = State.IDLE)
    (hs : (calls f cs m0).state_ = State.OPEN_SESSION_GET_ID) :
    (calls f cs m0).received_frame_size_ > 0
    ∧ ((loop f e (calls f cs m0)).state_ = State.IDLE
        ∨ (loop f e (calls f cs m0)).state_ = State.WAIT
        ∨ (loop f e (calls f cs m0)).state_ = State.WAITING_FOR_RESPONSE) := by
  have hi0 : IdInv m0 := by
    apply idinv_of_plain <;> rw [h0] <;> decide
  have hi := idinv_calls f cs m0 hi0
  simp only [IdInv, hs] at hi
  refine ⟨Nat.pos_iff_ne_zero.mpr hi, ?_⟩
  rw [loop_get_id f e _ hs]
  exact (idinv_GET_ID e (uart_arrive e (calls f cs m0)) hi).2

theorem c30_get_id_has_frame_witness :
    sample_registered.state_ = State.IDLE
    ∧ (calls sample_strtof_end
        [Call.update, Call.loop ⟨0, [], 100⟩,
          Call.loop ⟨1, [0x2F, 0x45, 0x4B, 0x54, 0x35, 0x43, 0x45, 0x0D, 0x0A], 100⟩]
        sample_registered).state_ = State.OPEN_SESSION_GET_ID
    ∧ (calls sample_strtof_end
        [Call.update, Call.loop ⟨0, [], 100⟩,
          Call.loop ⟨1, [0x2F, 0x45, 0x4B, 0x54, 0x35, 0x43, 0x45, 0x0D, 0x0A], 100⟩]
        sample_registered).received_frame_size_ > 0 :=
  ⟨by decide, by decide,
   (c30_get_id_has_frame sample_strtof_end
      [Call.update, Call.loop ⟨0, [], 100⟩,
        Call.loop ⟨1, [0x2F, 0x45, 0x4B, 0x54, 0x35, 0x43, 0x45, 0x0D, 0x0A], 100⟩]
      sample_registered ⟨2, [], 100⟩ (by decide) (by decide)).1⟩

/-! ## Claim C22 -/

/-- C22: in a session whose handshake and working baud rates are equal, from
`OPEN_SESSION` on and as long as no call of `loop()` has started in
`ACK_START_GET_INFO` or, after an abort, in `IDLE`, the state is never `SET_BAUD`
or `WAIT` and the local baud rate is the one the session started with; and
when the state is `OPEN_SESSION_GET_ID` with a valid identification frame, the
next call sends the acknowledgement and arms the reply wait whose next state is
`ACK_START_GET_INFO`. -/
theorem c22_equal_bauds (f : List Nat → Nat) (envs : List Env) (e : Env) (m : Machine)
    (hs : m.state_ = State.OPEN_SESSION) (hb : m.baud_rate_handshake_ = m.baud_rate_)
    (hrun : ∀ k, k < envs.length →
      (run f (envs.take k) m).state_ ≠ State.ACK_START_GET_INFO
      ∧ (run f (envs.take k) m).state_ ≠ State.IDLE) :
    (run f envs m).state_ ≠ State.SET_BAUD
    ∧ (run f envs m).state_ ≠ State.WAIT
    ∧ (run f envs m).uart_baud = m.uart_baud
    ∧ ((run f envs m).state_ = State.OPEN_SESSION_GET_ID →
        (extract_meter_id_ (run f envs m).received_frame_size_ (run f envs m).buffers_).1
          ≠ none →
        (loop f e (run f envs m)).state_ = State.WAITING_FOR_RESPONSE
        ∧ (loop f e (run f envs m)).reading_state_.next_state = State.ACK_START_GET_INFO
        ∧ (loop f e (run f envs m)).uart_tx
            = (run f envs m).uart_tx ++ [CMD_ACK_SET_BAUD_AND_MODE]
        ∧ (loop f e (run f envs m)).uart_baud = m.uart_baud) := by
  have h0 : HandshakeInv m.uart_baud m := hsinv_of _ m hb rfl (Or.inr (Or.inr (Or.inl hs)))
  obtain ⟨i1, i2, i3⟩ := hsinv_run m.uart_baud f envs m h0 hrun
  refine ⟨?_, ?_, i2, ?_⟩
  · intro h
    simp only [h] at i3
  · intro h
    simp only [h] at i3
  · intro hst hid
    simp only [hst] at i3
    obtain ⟨p, hp⟩ := Option.ne_none_iff_exists'.mp hid
    rw [loop_get_id_one_baud f e _ p hst i3 hp i1]
    refine ⟨rfl, rfl, ?_, i2⟩
    simp [read_reply_and_go_next_state_, send_frame_, send_frame_prepared_, prepared_frame,
      prepare_frame_, update_last_rx_time_, uart_arrive, CMD_ACK_SET_BAUD_AND_MODE]

theorem c22_equal_bauds_witness :
    (update sample_registered).state_ = State.OPEN_SESSION
    ∧ (update sample_registered).baud_rate_handshake_ = (update sample_registered).baud_rate_
    ∧ (run sample_strtof_end (sample_session.take 2) (update sample_registered)).state_
        = State.OPEN_SESSION_GET_ID
    ∧ (loop sample_strtof_end ⟨2, [], 100⟩
        (run sample_strtof_end (sample_session.take 2)
          (update sample_registered))).reading_state_.next_state
        = State.ACK_START_GET_INFO :=
  ⟨by decide, by decide, by decide,
   ((c22_equal_bauds sample_strtof_end (sample_session.take 2) ⟨2, [], 100⟩
      (update sample_registered) (by decide) (by decide) (by decide)).2.2.2
      (by decide) (by decide)).2.1⟩

/-! ## Claim C23 -/

/-- C23 (what the code does): when the two baud rates differ, the step in
`OPEN_SESSION_GET_ID` with a valid identification frame, the end of the 250 ms
wait, the `SET_BAUD` step and the end of the 150 ms wait bring the component
to `ACK_START_GET_INFO` with the baud selection sent and the local baud rate
switched, but without a single byte read from the UART: the queue holds all
that arrived, `received_frame_size_` and the inbound buffer are still those of
the identification frame, and it is that frame `ACK_START_GET_INFO` parses,
aborting the session when it holds no bracketed value. -/
theorem c23_stale_identification (f : List Nat → Nat) (e1 e2 e3 e4 e5 : Env) (m : Machine)
    (hs : m.state_ = State.OPEN_SESSION_GET_ID) (hsize : m.received_frame_size_ ≠ 0)
    (hid : (extract_meter_id_ m.received_frame_size_ m.buffers_).1 ≠ none)
    (hb : m.baud_rate_handshake_ ≠ m.baud_rate_)
    (h250 : 250 ≤ sub32 e2.now e1.now) (h150 : 150 ≤ sub32 e4.now e3.now) :
    (run f [e1, e2, e3, e4] m).state_ = State.ACK_START_GET_INFO
    ∧ (run f [e1, e2, e3, e4] m).uart_tx
        = m.uart_tx ++ [[ACK, 0x30, baud_rate_to_byte m.baud_rate_, 0x31, CR, LF]]
    ∧ (run f [e1, e2, e3, e4] m).uart_baud = m.baud_rate_
    ∧ (run f [e1, e2, e3, e4] m).uart_rx
        = m.uart_rx ++ e1.arrive ++ e2.arrive ++ e3.arrive ++ e4.arrive
    ∧ (run f [e1, e2, e3, e4] m).received_frame_size_ = m.received_frame_size_
    ∧ (run f [e1, e2, e3, e4] m).buffers_.in_
        = (extract_meter_id_ m.received_frame_size_ m.buffers_).2.in_
    ∧ (run f [e1, e2, e3, e4, e5] m).state_
        = (if (get_values_from_brackets_
              ((extract_meter_id_ m.received_frame_size_ m.buffers_).2.in_.drop 1)).1 = 0
            then State.IDLE else State.DATA_ENQ)
    ∧ (run f [e1, e2, e3, e4, e5] m).uart_rx
        = m.uart_rx ++ e1.arrive ++ e2.arrive ++ e3.arrive ++ e4.arrive ++ e5.arrive := by
  obtain ⟨p, hp⟩ := Option.ne_none_iff_exists'.mp hid
  have hrun4 : run f [e1, e2, e3, e4] m = loop f e4 (loop f e3 (loop f e2 (loop f e1 m))) := rfl
  have hrun5 : run f [e1, e2, e3, e4, e5] m
      = loop f e5 (loop f e4 (loop f e3 (loop f e2 (loop f e1 m)))) := rfl
  rw [hrun5, hrun4]
  obtain ⟨a1, a2, a3, a4, a5, a6, a7⟩ := loop_get_id_two_bauds_fields f e1 m p hs hsize hp hb
  generalize loop f e1 m = m1 at a1 a2 a3 a4 a5 a6 a7 ⊢
  have t2 : check_wait_timeout_ e2 m1 = true := by
    unfold check_wait_timeout_
    rw [a2]
    exact decide_eq_true h250
  obtain ⟨b1, b2, _, b4, b5, b6, b7⟩ := loop_wait_elapsed_fields f e2 m1 a1 t2
  rw [a2] at b1
  generalize loop f e2 m1 = m2 at b1 b2 b4 b5 b6 b7 ⊢
  obtain ⟨c1, c2, c3, c4, c5, c6, c7⟩ := loop_set_baud_fields f e3 m2 b1
  generalize loop f e3 m2 = m3 at c1 c2 c3 c4 c5 c6 c7 ⊢
  have t4 : check_wait_timeout_ e4 m3 = true := by
    unfold check_wait_timeout_
    rw [c2]
    exact decide_eq_true h150
  obtain ⟨d1, d2, d3, d4, d5, d6, _⟩ := loop_wait_elapsed_fields f e4 m3 c1 t4
  rw [c2] at d1
  generalize loop f e4 m3 = m4 at d1 d2 d3 d4 d5 d6 ⊢
  have g5 : m4.received_frame_size_ = m.received_frame_size_ := by rw [d5, c6, b5, a5]
  have g6 : m4.buffers_.in_ = (extract_meter_id_ m.received_frame_size_ m.buffers_).2.in_ := by
    rw [d6, c7, b6, a6]
  have g4 : m4.uart_rx = m.uart_rx ++ e1.arrive ++ e2.arrive ++ e3.arrive ++ e4.arrive := by
    rw [d4, c5, b4, a4]
  obtain ⟨x1, x2⟩ := loop_ack_start_fields f e5 m4 d1 (by rw [g5]; exact hsize)
  refine ⟨d1, ?_, ?_, g4, g5, g6, ?_, ?_⟩
  · rw [d2, c3, b2, a3]
  · rw [d3, c4, b7, a7]
  · rw [x1, g6]
  · rw [x2, g4]

theorem c23_stale_identification_witness :
    sample_identified.state_ = State.OPEN_SESSION_GET_ID
    ∧ sample_identified.baud_rate_handshake_ ≠ sample_identified.baud_rate_
    ∧ (run sample_strtof_end sample_baud_switch sample_identified).state_
        = State.ACK_START_GET_INFO
    ∧ (run sample_strtof_end sample_baud_switch sample_identified).uart_rx
        = sample_frame SOH [0x50, 0x30, STX, 0x28, 0x31, 0x29]
    ∧ (run sample_strtof_end (sample_baud_switch ++ [⟨404, [], 100⟩]) sample_identified).state_
        = State.IDLE :=
  ⟨by decide, by decide,
   (c23_stale_identification sample_strtof_end ⟨2, [], 100⟩ ⟨252, [], 100⟩
      ⟨253, sample_frame SOH [0x50, 0x30, STX, 0x28, 0x31, 0x29], 100⟩ ⟨403, [], 100⟩
      ⟨404, [], 100⟩ sample_identified
      (by decide) (by decide) (by decide) (by decide) (by decide) (by decide)).1,
   (c23_stale_identification sample_strtof_end ⟨2, [], 100⟩ ⟨252, [], 100⟩
      ⟨253, sample_frame SOH [0x50, 0x30, STX, 0x28, 0x31, 0x29], 100⟩ ⟨403, [], 100⟩
      ⟨404, [], 100⟩ sample_identified
      (by decide) (by decide) (by decide) (by decide) (by decide) (by decide)).2.2.2.1,
   by decide⟩

/-! ## Claim C28 -/

/-- C28: for every line, `get_values_from_brackets_` returns 0 if and only if
the line holds no opening bracket that is followed somewhere later by a closing
bracket; for example the line `VOLTA(12`, with an opening bracket and no closing
one, yields 0. -/
theorem c28_no_brackets (line : List Nat) :
    ((get_values_from_brackets_ line).1 = 0 ↔ ¬ BracketPair line)
    ∧ (get_values_from_brackets_ [0x56, 0x4F, 0x4C, 0x54, 0x41, 0x28, 0x31, 0x32]).1 = 0 := by
  refine ⟨?_, by decide⟩
  unfold get_values_from_brackets_
  constructor
  · intro h hbp
    have := brackets_loop_some (line.length + 1) line 0 0 false (List.replicate VAL_NUM none)
      (by rw [List.drop_zero]; exact hbp) (by decide) (by omega)
    omega
  · intro h
    exact brackets_loop_none _ line 0 0 false _ (by rw [List.drop_zero]; exact h)

/-! ## Claim C29 -/

/-- C29 (corrected): for every string made of comma-free fields joined by
commas, empty fields allowed, and every n from 1 to 255,
`get_nth_value_from_csv_` returns the n-th of the non-empty fields, and null
exactly when there are fewer than n non-empty fields: `strtok` passes over
empty fields without counting them. -/
theorem c29_nth_nonempty_field (fields : List (List Nat)) (n : Nat)
    (hclean : ∀ g ∈ fields, 0 ∉ g ∧ 0x2C ∉ g) (h1 : 1 ≤ n) (h255 : n ≤ 255) :
    csv_str (get_nth_value_from_csv_ (comma_joined fields) n)
      = (fields.filter (fun g => decide (g ≠ [])))[n - 1]?
    ∧ (csv_str (get_nth_value_from_csv_ (comma_joined fields) n) = none
        ↔ (fields.filter (fun g => decide (g ≠ []))).length < n) := by
  have hmain : csv_str (get_nth_value_from_csv_ (comma_joined fields) n)
      = (fields.filter (fun g => decide (g ≠ [])))[n - 1]? := by
    unfold get_nth_value_from_csv_
    rw [if_neg (by omega)]
    have h := csv_loop_skips_empty fields [] n ((comma_joined fields).length + 1) hclean h1
      (by omega) (Nat.le_succ_of_le (filter_nonempty_length fields))
    simpa using h
  refine ⟨hmain, ?_⟩
  rw [hmain, List.getElem?_eq_none_iff]
  omega

theorem c29_nth_nonempty_field_witness :
    (∀ g ∈ [[0x61], [], [0x62]], 0 ∉ g ∧ 0x2C ∉ g)
    ∧ csv_str (get_nth_value_from_csv_ (comma_joined [[0x61], [], [0x62]]) 2)
        = ([[0x61], [], [0x62]].filter (fun g => decide (g ≠ [])))[2 - 1]? :=
  ⟨by decide,
   (c29_nth_nonempty_field [[0x61], [], [0x62]] 2 (by decide) (by decide) (by decide)).1⟩

/-- C29, counterexample: in `a,,b` the second field is empty and the third is
`b`, yet the function returns `b` for index 2 and null for index 3. -/
theorem c29_counterexample :
    comma_joined [[0x61], [], [0x62]] = [0x61, 0x2C, 0x2C, 0x62]
    ∧ csv_str (get_nth_value_from_csv_ [0x61, 0x2C, 0x2C, 0x62] 2) = some [0x62]
    ∧ csv_str (get_nth_value_from_csv_ [0x61, 0x2C, 0x2C, 0x62] 2) ≠ some []
    ∧ csv_str (get_nth_value_from_csv_ [0x61, 0x2C, 0x2C, 0x62] 3) = none := by
  decide

/-! ## Claim C31 -/

/-- C31 (what the code does): `get_values_from_brackets_` scans the inbound
buffer from `in[1]` up to the first NUL byte, wherever the received frame ends.
When the byte behind the n bytes of the frame is NUL, two buffers that agree on
the frame decode the same count, the same value slots, the same name and the
same value strings, whatever follows.  When it is not, the bytes left over from
an earlier frame are decoded too: in two sessions that differ in the reply to
the first request only, the reply to the second request is received with the
same 11 bytes in the buffer, and one session decodes two values from it, the
other one value; the `DATA_RECV` step then gives the sensor bound to the second
value the left-over `9` in the first session and no value in the second. -/
theorem c31_decode_up_to_nul (frame t1 t2 : List Nat) (m1 m2 : Machine) (i : Nat)
    (hn : frame ≠ [])
    (h1 : m1.buffers_.in_ = frame ++ 0 :: t1) (h2 : m2.buffers_.in_ = frame ++ 0 :: t2) :
    (decoded m1).1 = (decoded m2).1
    ∧ (decoded m1).2.2 = (decoded m2).2.2
    ∧ c_str (decoded m1).2.1 = c_str (decoded m2).2.1
    ∧ slot_str (decoded m1).2.1 ((decoded m1).2.2.getD i none)
        = slot_str (decoded m2).2.1 ((decoded m2).2.2.getD i none)
    ∧ (run sample_strtof_end (sample_stale_session sample_long_reply)
        (update sample_stale_machine)).received_frame_size_ = 11
    ∧ (run sample_strtof_end (sample_stale_session sample_short_reply)
        (update sample_stale_machine)).received_frame_size_ = 11
    ∧ (run sample_strtof_end (sample_stale_session sample_long_reply)
        (update sample_stale_machine)).buffers_.in_.take 11
      = (run sample_strtof_end (sample_stale_session sample_short_reply)
        (update sample_stale_machine)).buffers_.in_.take 11
    ∧ (decoded (run sample_strtof_end (sample_stale_session sample_long_reply)
        (update sample_stale_machine))).1 = 2
    ∧ (decoded (run sample_strtof_end (sample_stale_session sample_short_reply)
        (update sample_stale_machine))).1 = 1
    ∧ (loop sample_strtof_end ⟨103, [], 100⟩
        (run sample_strtof_end (sample_stale_session sample_long_reply)
          (update sample_stale_machine))).sensors_.map (fun x => (x.2.has_value_, x.2.value_))
      = [(true, [0x31]), (true, [0x39])]
    ∧ (loop sample_strtof_end ⟨103, [], 100⟩
        (run sample_strtof_end (sample_stale_session sample_short_reply)
          (update sample_stale_machine))).sensors_.map (fun x => (x.2.has_value_, x.2.value_))
      = [(true, [0x31]), (false, [])] := by
  refine ⟨?_, ?_, ?_, ?_, by decide, by decide, by decide, by decide, by decide, by decide,
    by decide⟩
  all_goals
    obtain ⟨b, body, rfl⟩ := List.exists_cons_of_ne_nil hn
    have e1 : decoded m1 = with_tail t1 (get_values_from_brackets_ body) := by
      unfold decoded
      rw [h1]
      exact get_values_tail body t1
    have e2 : decoded m2 = with_tail t2 (get_values_from_brackets_ body) := by
      unfold decoded
      rw [h2]
      exact get_values_tail body t2
    rw [e1, e2]
  · rfl
  · rfl
  · show c_str (_ ++ 0 :: t1) = c_str (_ ++ 0 :: t2)
    rw [c_str_append_tail, c_str_append_tail]
  · show slot_str ((get_values_from_brackets_ body).2.1 ++ 0 :: t1)
        ((get_values_from_brackets_ body).2.2.getD i none)
      = slot_str ((get_values_from_brackets_ body).2.1 ++ 0 :: t2)
        ((get_values_from_brackets_ body).2.2.getD i none)
    have hb : ∀ off, (get_values_from_brackets_ body).2.2.getD i none = some off →
        off ≤ (get_values_from_brackets_ body).2.1.length :=
      fun off h => get_values_slots body i off h
    rw [slot_str_tail _ t1 _ hb, slot_str_tail _ t2 _ hb]

theorem c31_decode_up_to_nul_witness :
    sample_frame STX [0x43, 0x55, 0x52, 0x52, 0x45, 0x28, 0x31, 0x2E, 0x35, 0x29] ≠ []
    ∧ sample_data_recv.buffers_.in_
        = sample_frame STX [0x43, 0x55, 0x52, 0x52, 0x45, 0x28, 0x31, 0x2E, 0x35, 0x29]
            ++ 0 :: List.replicate 242 0
    ∧ sample_behind_nul.buffers_.in_
        = sample_frame STX [0x43, 0x55, 0x52, 0x52, 0x45, 0x28, 0x31, 0x2E, 0x35, 0x29]
            ++ 0 :: [0x28, 0x39, 0x29]
    ∧ (decoded sample_data_recv).1 = (decoded sample_behind_nul).1
    ∧ (decoded sample_behind_nul).1 = 1 :=
  ⟨by decide, by decide, by decide,
   (c31_decode_up_to_nul
      (sample_frame STX [0x43, 0x55, 0x52, 0x52, 0x45, 0x28, 0x31, 0x2E, 0x35, 0x29])
      (List.replicate 242 0) [0x28, 0x39, 0x29] sample_data_recv sample_behind_nul 0
      (by decide) (by decide) (by decide)).1,
   by decide⟩

end EnergomeraIec
